import Mathlib

/-!
# BIP38 private-key encryption (`src/bip38.c`)

A shallow embedding of the encode/decode functions of `src/bip38.c`.

* Bytes are natural numbers, byte buffers are `List Nat`.
* A pointer argument that may be `NULL` is an `Option`; the length that the
  C caller declares next to a pointer is a separate `Nat` argument, as in the
  source.
* A function that writes through an output pointer returns the new contents
  of that buffer next to its `int` result.
* `struct bip38_layout_t` is a flat 44-byte memory image, because the source
  copies across field boundaries (`memmove`/`memcpy` on `&buf.hash`,
  `buf.half1`, `buf.decode_hash - 4`, `&buf.prefix`).
* The collaborators that live in other files (scrypt, AES, Base58, hashes,
  secp256k1) and the constants of headers that are not part of the source tree
  are fields of the environment `Env`.
* `clear`/`clear_n` only wipe locals that go out of scope and are not modelled.
-/

namespace Bip38

/-! ## Constants of `bip38.c` -/

abbrev BIP38_FLAG_DEFAULT : Nat := 0x40 ||| 0x80
abbrev BIP38_FLAG_COMPRESSED : Nat := 0x20
abbrev BIP38_FLAG_RESERVED1 : Nat := 0x10
abbrev BIP38_FLAG_RESERVED2 : Nat := 0x08
abbrev BIP38_FLAG_HAVE_LOT : Nat := 0x04
abbrev BIP38_FLAG_RESERVED3 : Nat := 0x02
abbrev BIP38_FLAG_RESERVED4 : Nat := 0x01
abbrev BIP38_FLAGS_RESERVED : Nat :=
  BIP38_FLAG_RESERVED1 ||| BIP38_FLAG_RESERVED2 ||| BIP38_FLAG_RESERVED3 ||| BIP38_FLAG_RESERVED4

abbrev BITCOIN_PRIVATE_KEY_LEN : Nat := 32
abbrev BIP38_DERVIED_KEY_LEN : Nat := 64
abbrev AES256_BLOCK_LEN : Nat := 16

abbrev BIP38_PREFIX : Nat := 0x01
abbrev BIP38_ECMUL : Nat := 0x43
abbrev BIP38_NO_ECMUL : Nat := 0x42

/-- Success value. The source tests collaborator results with `if (ret)` and
`if (!ret)` and returns them unchanged on success, so success is `0`. -/
abbrev WALLY_OK : Int := 0

/-- Length of the Base58 checksum. `assert_assumptions` fixes it:
`sizeof(struct bip38_layout_t) == 44` with fields of 1+1+1+1+4+16+16 bytes
before `decode_hash`. -/
abbrev BASE58_CHECKSUM_LEN : Nat := 4

/-- Length of a serialised record. `assert_assumptions` fixes it:
`sizeof(struct bip38_layout_t) - BASE58_CHECKSUM_LEN - 1`. -/
abbrev BIP38_SERIALISED_LEN : Nat := 39

/-! ## Field offsets of `struct bip38_layout_t` (44 bytes) -/

abbrev SIZEOF_LAYOUT : Nat := 44
abbrev OFF_PAD1 : Nat := 0
abbrev OFF_PREFIX : Nat := 1
abbrev OFF_EC_TYPE : Nat := 2
abbrev OFF_FLAGS : Nat := 3
abbrev OFF_HASH : Nat := 4
abbrev OFF_HALF1 : Nat := 8
abbrev OFF_HALF2 : Nat := 24
abbrev OFF_DECODE_HASH : Nat := 40

/-! ## Field offsets of `struct derived_t` (64 bytes) -/

abbrev OFF_HALF1_LO : Nat := 0
abbrev OFF_HALF1_HI : Nat := 16
abbrev OFF_DERIVED_HALF2 : Nat := 32

/-! ## Memory helpers -/

/-- Read `n` bytes at offset `off`. -/
def peek (mem : List Nat) (off n : Nat) : List Nat := (mem.drop off).take n

/-- Overwrite the bytes at offset `off` with `src` (`memcpy`/`memmove` into
`mem + off`; a `memmove` inside one buffer is `poke mem dst (peek mem src n)`). -/
def poke (mem : List Nat) (off : Nat) (src : List Nat) : List Nat :=
  mem.take off ++ src ++ mem.drop (off + src.length)

/-- The memory image of a `uint32_t` on the host. -/
def store32 (big_endian : Bool) (v : Nat) : List Nat :=
  if big_endian then [v / 16777216 % 256, v / 65536 % 256, v / 256 % 256, v % 256]
  else [v % 256, v / 256 % 256, v / 65536 % 256, v / 16777216 % 256]

/-- The `uint32_t` read from four bytes of memory on the host. -/
def load32 (big_endian : Bool) (bs : List Nat) : Nat :=
  if big_endian then
    bs.getD 0 0 * 16777216 + bs.getD 1 0 * 65536 + bs.getD 2 0 * 256 + bs.getD 3 0
  else
    bs.getD 0 0 + bs.getD 1 0 * 256 + bs.getD 2 0 * 65536 + bs.getD 3 0 * 16777216

/-- Byte-wise exclusive or of two buffers. -/
def xor_bytes (a b : List Nat) : List Nat := List.zipWith (fun x y => x ^^^ y) a b

/-! ## Collaborators and header constants -/

/-- Everything `bip38.c` takes from the rest of the library. Function fields
stand for the collaborators; the proof fields are the buffer-size contracts of
their C interfaces. -/
structure Env where
  /-- Invalid-argument error code of `wally_core.h`. -/
  WALLY_EINVAL : Int
  /-- An error code is not the success value. -/
  WALLY_EINVAL_ne_OK : WALLY_EINVAL ≠ WALLY_OK
  /-- Option bit of `wally_bip38.h`: the public key is compressed. -/
  BIP38_KEY_COMPRESSED : Nat
  /-- Option bit of `wally_bip38.h`: check the structure only. -/
  BIP38_KEY_QUICK_CHECK : Nat
  /-- Option bit of `wally_bip38.h`: bind the checksum to the raw bytes. -/
  BIP38_KEY_RAW_MODE : Nat
  /-- Option bit of `wally_bip38.h`: the hash comes after the encrypted key. -/
  BIP38_KEY_SWAP_ORDER : Nat
  /-- Serialisation flag of `internal.h`. -/
  PUBKEY_COMPRESSED : Nat
  /-- Serialisation flag of `internal.h`. -/
  PUBKEY_UNCOMPRESSED : Nat
  /-- Flag of `base58.h`: the text carries a checksum. -/
  BASE58_FLAG_CHECKSUM : Nat
  /-- Byte order of the host, which fixes the memory image of `buf.hash`. -/
  big_endian : Bool
  /-- The `uint32_t` checksum of a byte buffer: `base58_get_checksum(bytes, len)`. -/
  base58_get_checksum : List Nat → Nat
  /-- The call `wally_scrypt(pass, pass_len, salt, salt_len, N, r, p, out, len)`:
  its result and the contents of the `len`-byte output buffer afterwards. -/
  wally_scrypt : Option (List Nat) → Nat → List Nat → Nat → Nat → Nat → Nat → Nat → Int × List Nat
  wally_scrypt_len : ∀ pass pass_len salt salt_len N r p len,
    (wally_scrypt pass pass_len salt salt_len N r p len).2.length = len
  /-- One block of `AES256_encrypt` under the context of `AES256_init(key)`. -/
  AES256_encrypt : List Nat → List Nat → List Nat
  AES256_encrypt_len : ∀ key blk, (AES256_encrypt key blk).length = AES256_BLOCK_LEN
  /-- One block of `AES256_decrypt` under the context of `AES256_init(key)`. -/
  AES256_decrypt : List Nat → List Nat → List Nat
  AES256_decrypt_len : ∀ key blk, (AES256_decrypt key blk).length = AES256_BLOCK_LEN
  /-- The call `pubkey_create(ctx, &pk, seckey)`: the key object, or `none`
  when the call returns 0. -/
  pubkey_create : List Nat → Option (List Nat)
  /-- The call `pubkey_serialize(ctx, out, &len, &pk, flags)`: the serialised
  bytes, or `none` when the call returns 0. -/
  pubkey_serialize : List Nat → Nat → Nat → Option (List Nat)
  /-- The digest written by `sha256(&sha, p, len)`. -/
  sha256 : List Nat → List Nat
  /-- The digest written by `ripemd160(&h, p, len)`. -/
  ripemd160 : List Nat → List Nat
  /-- The call `base58_from_bytes(bytes, len, flags, &output)`: its result and
  the characters of the string stored in `*output` (empty when none is). -/
  base58_from_bytes : List Nat → Nat → Int × List Nat
  /-- The call `base58_to_bytes(str, flags, out, len, &written)`: its result,
  the bytes stored at `out`, and `written`. -/
  base58_to_bytes : Option (List Nat) → Nat → Nat → Int × List Nat × Nat
  base58_to_bytes_len : ∀ str flags len, (base58_to_bytes str flags len).2.1.length ≤ len

/-! ## The functions of `bip38.c` -/

/-- `compute_pub_key`: 0 and the serialised public key, or -1. -/
def compute_pub_key (E : Env) (bytes_in : List Nat) (len_in : Nat) (compressed : Bool) :
    Int × List Nat :=
  let flags := if compressed then E.PUBKEY_COMPRESSED else E.PUBKEY_UNCOMPRESSED
  let len := if compressed then 33 else 65
  if len_in = BITCOIN_PRIVATE_KEY_LEN then
    match E.pubkey_create (bytes_in.take BITCOIN_PRIVATE_KEY_LEN) with
    | some pk =>
      match E.pubkey_serialize pk len flags with
      | some pub_key => (0, pub_key)
      | none => (-1, [])
    | none => (-1, [])
  else (-1, [])

/-- `address_from_private_key`: the result and the address string stored in
`*output`. The local `buf` holds the network byte, the 20-byte hash and the
checksum back to back, starting at `network_p`. -/
def address_from_private_key (E : Env) (bytes_in : List Nat) (len_in : Nat) (network : Nat)
    (compressed : Bool) : Int × List Nat :=
  let pk := compute_pub_key E bytes_in len_in compressed
  if pk.1 ≠ 0 then (E.WALLY_EINVAL, [])
  else
    let sha := E.sha256 (pk.2.take (if compressed then 33 else 65))
    let hash160 := E.ripemd160 sha
    let payload := network :: hash160
    let checksum := E.base58_get_checksum (payload.take (1 + 20)) % 4294967296
    E.base58_from_bytes ((payload ++ store32 E.big_endian checksum).take (1 + 20 + 4)) 0

/-- `aes_enc`: the 16 bytes written to `bytes_out`. Both branches of the
alignment test compute the same byte-wise exclusive or. -/
def aes_enc (E : Env) (src xor key : List Nat) : List Nat :=
  let plaintext := xor_bytes (src.take AES256_BLOCK_LEN) (xor.take AES256_BLOCK_LEN)
  E.AES256_encrypt key plaintext

/-- The salt step of `bip38_raw_from_private_key` (lines 146-157): the value
assigned to `buf.hash`, or the error of the address derivation. -/
def from_private_key_hash (E : Env) (bytes_in : List Nat) (len_in : Nat) (flags : Nat) :
    Except Int Nat :=
  let compressed : Bool := decide (flags &&& E.BIP38_KEY_COMPRESSED ≠ 0)
  if flags &&& E.BIP38_KEY_RAW_MODE ≠ 0 then
    .ok (E.base58_get_checksum (bytes_in.take len_in) % 4294967296)
  else
    let network := flags &&& 0xff
    let a := address_from_private_key E bytes_in len_in network compressed
    if a.1 ≠ 0 then .error a.1
    else .ok (E.base58_get_checksum a.2 % 4294967296)

/-- The shuffle of `bip38_raw_from_private_key` (lines 171-176): with the
swap-order option the hash moves from the beginning to the end of the record
in the local `buf`. -/
def from_private_key_swap (E : Env) (flags : Nat) (buf : List Nat) : List Nat :=
  if flags &&& E.BIP38_KEY_SWAP_ORDER ≠ 0 then
    let tmp := peek buf OFF_HASH 4
    let buf := poke buf OFF_HASH (peek buf OFF_HALF1 (AES256_BLOCK_LEN * 2))
    poke buf (OFF_DECODE_HASH - 4) tmp
  else buf

/-- `bip38_raw_from_private_key`: the result and the contents of the caller's
output buffer afterwards. The local `buf` starts as zeros; every byte of it
that is read has been written before. -/
def bip38_raw_from_private_key (E : Env) (bytes_in : Option (List Nat)) (len_in : Nat)
    (pass : Option (List Nat)) (pass_len : Nat) (flags : Nat)
    (bytes_out : Option (List Nat)) (len : Nat) : Int × Option (List Nat) :=
  let compressed : Bool := decide (flags &&& E.BIP38_KEY_COMPRESSED ≠ 0)
  match bytes_in, bytes_out with
  | some key, some out =>
    if len_in ≠ BITCOIN_PRIVATE_KEY_LEN ∨ len ≠ BIP38_SERIALISED_LEN then
      (E.WALLY_EINVAL, bytes_out)
    else
      match from_private_key_hash E key len_in flags with
      | .error e => (e, bytes_out)
      | .ok hash =>
        let buf := poke (List.replicate SIZEOF_LAYOUT 0) OFF_HASH (store32 E.big_endian hash)
        let s := E.wally_scrypt pass pass_len (peek buf OFF_HASH 4) 4 16384 8 8
          BIP38_DERVIED_KEY_LEN
        if s.1 ≠ 0 then (s.1, bytes_out)
        else
          let derived := s.2
          let buf := poke buf OFF_PREFIX [BIP38_PREFIX]
          let buf := poke buf OFF_EC_TYPE [BIP38_NO_ECMUL]
          let buf := poke buf OFF_FLAGS
            [BIP38_FLAG_DEFAULT ||| (if compressed then BIP38_FLAG_COMPRESSED else 0)]
          let buf := poke buf OFF_HALF1
            (aes_enc E (key.drop 0) (peek derived OFF_HALF1_LO 16)
              (peek derived OFF_DERIVED_HALF2 32))
          let buf := poke buf OFF_HALF2
            (aes_enc E (key.drop 16) (peek derived OFF_HALF1_HI 16)
              (peek derived OFF_DERIVED_HALF2 32))
          let buf := from_private_key_swap E flags buf
          (s.1, some (poke out 0 (peek buf OFF_PREFIX BIP38_SERIALISED_LEN)))
  | _, _ => (E.WALLY_EINVAL, bytes_out)

/-- `bip38_from_private_key`: the result and the string stored in `*output`
(`none` for `NULL`). With `output_given = false` the `output` pointer itself
is `NULL`. -/
def bip38_from_private_key (E : Env) (bytes_in : Option (List Nat)) (len_in : Nat)
    (pass : Option (List Nat)) (pass_len : Nat) (flags : Nat) (output_given : Bool) :
    Int × Option (List Nat) :=
  if !output_given then (E.WALLY_EINVAL, none)
  else
    let r := bip38_raw_from_private_key E bytes_in len_in pass pass_len flags
      (some (List.replicate BIP38_SERIALISED_LEN 0)) BIP38_SERIALISED_LEN
    if r.1 = 0 then
      let t := E.base58_from_bytes ((r.2.getD []).take BIP38_SERIALISED_LEN)
        E.BASE58_FLAG_CHECKSUM
      (t.1, if t.1 = 0 then some t.2 else none)
    else (r.1, none)

/-- `aes_dec`: the 16 bytes left in `bytes_out`. -/
def aes_dec (E : Env) (src xor key : List Nat) : List Nat :=
  let bytes_out := E.AES256_decrypt key (src.take AES256_BLOCK_LEN)
  xor_bytes bytes_out (xor.take AES256_BLOCK_LEN)

/-- The loading step of `to_private_key` (lines 239-254): the local `buf`
after the record has been copied or decoded into it, or the error. -/
def to_private_key_load (E : Env) (bip38 : Option (List Nat)) (bytes_in : Option (List Nat))
    (len_in : Nat) : Except Int (List Nat) :=
  match bytes_in with
  | some b =>
    if len_in ≠ BIP38_SERIALISED_LEN then .error E.WALLY_EINVAL
    else .ok (poke (List.replicate SIZEOF_LAYOUT 0) OFF_PREFIX (b.take BIP38_SERIALISED_LEN))
  | none =>
    let d := E.base58_to_bytes bip38 E.BASE58_FLAG_CHECKSUM
      (BIP38_SERIALISED_LEN + BASE58_CHECKSUM_LEN)
    if d.1 ≠ 0 then .error d.1
    else if d.2.2 ≠ BIP38_SERIALISED_LEN then .error E.WALLY_EINVAL
    else .ok (poke (List.replicate SIZEOF_LAYOUT 0) OFF_PREFIX d.2.1)

/-- The un-shuffle of `to_private_key` (lines 256-262). -/
def to_private_key_unswap (E : Env) (flags : Nat) (buf : List Nat) : List Nat :=
  if flags &&& E.BIP38_KEY_SWAP_ORDER ≠ 0 then
    let tmp := peek buf (OFF_DECODE_HASH - 4) 4
    let buf := poke buf OFF_HALF1 (peek buf OFF_HASH (AES256_BLOCK_LEN * 2))
    poke buf OFF_HASH tmp
  else buf

/-- The 39-byte record held in the local `buf` of `to_private_key` once the
binary record `bytes_in` has been copied in and the swap order undone (lines
242 and 256-262). -/
def loaded_record (E : Env) (flags : Nat) (bytes_in : List Nat) : List Nat :=
  peek (to_private_key_unswap E flags
    (poke (List.replicate SIZEOF_LAYOUT 0) OFF_PREFIX (bytes_in.take BIP38_SERIALISED_LEN)))
    OFF_PREFIX BIP38_SERIALISED_LEN

/-- The header test of `to_private_key` (lines 264-267); `true` means the
record is refused. -/
def to_private_key_bad_header (buf : List Nat) : Bool :=
  decide (buf.getD OFF_PREFIX 0 ≠ BIP38_PREFIX) ||
  decide (buf.getD OFF_FLAGS 0 &&& BIP38_FLAGS_RESERVED ≠ 0) ||
  decide (buf.getD OFF_EC_TYPE 0 ≠ BIP38_NO_ECMUL) ||
  decide (buf.getD OFF_FLAGS 0 &&& BIP38_FLAG_HAVE_LOT ≠ 0)

/-- The decryption step of `to_private_key` (lines 282-283): the caller's
output buffer after both `aes_dec` calls, which write to `bytes_out + 0` and
`bytes_out + 16`. -/
def to_private_key_decrypt (E : Env) (buf derived out : List Nat) : List Nat :=
  let out := poke out 0
    (aes_dec E (peek buf OFF_HALF1 16) (peek derived OFF_HALF1_LO 16)
      (peek derived OFF_DERIVED_HALF2 32))
  poke out 16
    (aes_dec E (peek buf OFF_HALF2 16) (peek derived OFF_HALF1_HI 16)
      (peek derived OFF_DERIVED_HALF2 32))

/-- `to_private_key`: the result and the contents of the caller's output
buffer afterwards. -/
def to_private_key (E : Env) (bip38 : Option (List Nat)) (bytes_in : Option (List Nat))
    (len_in : Nat) (pass : Option (List Nat)) (pass_len : Nat) (flags : Nat)
    (bytes_out : Option (List Nat)) (len : Nat) : Int × Option (List Nat) :=
  if len ≠ BITCOIN_PRIVATE_KEY_LEN then (E.WALLY_EINVAL, bytes_out)
  else if flags &&& E.BIP38_KEY_QUICK_CHECK = 0 ∧ bytes_out = none then
    (E.WALLY_EINVAL, bytes_out)
  else
    match to_private_key_load E bip38 bytes_in len_in with
    | .error e => (e, bytes_out)
    | .ok buf =>
      let buf := to_private_key_unswap E flags buf
      if to_private_key_bad_header buf then (E.WALLY_EINVAL, bytes_out)
      else if flags &&& E.BIP38_KEY_QUICK_CHECK ≠ 0 then (WALLY_OK, bytes_out)
      else
        let s := E.wally_scrypt pass pass_len (peek buf OFF_HASH 4) 4 16384 8 8
          BIP38_DERVIED_KEY_LEN
        if s.1 ≠ 0 then (s.1, bytes_out)
        else
          match bytes_out with
          | none => (E.WALLY_EINVAL, none) -- excluded by the test on entry
          | some out =>
            let derived := s.2
            let out := to_private_key_decrypt E buf derived out
            let hash := load32 E.big_endian (peek buf OFF_HASH 4)
            if flags &&& E.BIP38_KEY_RAW_MODE ≠ 0 then
              if hash ≠ E.base58_get_checksum (out.take len) % 4294967296 then
                (E.WALLY_EINVAL, some out)
              else (s.1, some out)
            else
              let network := flags &&& 0xff
              let a := address_from_private_key E out len network
                (decide (buf.getD OFF_FLAGS 0 &&& BIP38_FLAG_COMPRESSED ≠ 0))
              if a.1 = 0 ∧ hash ≠ E.base58_get_checksum a.2 % 4294967296 then
                (E.WALLY_EINVAL, some out)
              else (a.1, some out)

/-- `bip38_raw_to_private_key`. -/
def bip38_raw_to_private_key (E : Env) (bytes_in : Option (List Nat)) (len_in : Nat)
    (pass : Option (List Nat)) (pass_len : Nat) (flags : Nat)
    (bytes_out : Option (List Nat)) (len : Nat) : Int × Option (List Nat) :=
  to_private_key E none bytes_in len_in pass pass_len flags bytes_out len

/-- `bip38_to_private_key`. -/
def bip38_to_private_key (E : Env) (bip38 : Option (List Nat))
    (pass : Option (List Nat)) (pass_len : Nat) (flags : Nat)
    (bytes_out : Option (List Nat)) (len : Nat) : Int × Option (List Nat) :=
  to_private_key E bip38 none 0 pass pass_len flags bytes_out len

/-! ## A small executable environment

Stand-ins for the collaborators that can be evaluated on concrete inputs. The
block cipher is a keyed permutation of 16-byte blocks with an explicit
inverse, the key derivation mixes passphrase and salt, and the Base58
codec is the identity on bytes followed by the 4-byte checksum. The option
bits are distinct powers of two above the network byte. -/

/-- A multiplicative byte hash, reduced to 32 bits. -/
def toy_checksum (bs : List Nat) : Nat :=
  bs.foldl (fun a b => (a * 33 + b) % 4294967296) 5381

/-- Key derivation stand-in; fails with -3 for passphrases of 1024 bytes or more. -/
def toy_scrypt (pass : Option (List Nat)) (pass_len : Nat) (salt : List Nat) (salt_len : Nat)
    (_N _r _p : Nat) (len : Nat) : Int × List Nat :=
  let seed := toy_checksum (((pass.getD []).take pass_len) ++ 255 :: salt.take salt_len)
  (if pass_len < 1024 then 0 else -3,
   (List.range len).map (fun i => (seed / (i + 1) + 7 * i) % 256))

/-- Block cipher stand-in: reverse the block and mask it with the first key byte. -/
def toy_aes_encrypt (key blk : List Nat) : List Nat :=
  if blk.length = 16 then blk.reverse.map (fun b => b ^^^ key.getD 0 0)
  else List.replicate 16 0

/-- Inverse of `toy_aes_encrypt` on 16-byte blocks. -/
def toy_aes_decrypt (key blk : List Nat) : List Nat :=
  if blk.length = 16 then (blk.map (fun b => b ^^^ key.getD 0 0)).reverse
  else List.replicate 16 0

/-- Base58 stand-in: the bytes themselves, followed by their checksum when the
checksum flag is set. -/
def toy_base58_from_bytes (bs : List Nat) (flags : Nat) : Int × List Nat :=
  (0, if flags &&& 1 ≠ 0 then bs ++ store32 false (toy_checksum bs) else bs)

/-- Inverse of `toy_base58_from_bytes`: refuses an absent string, a string too
long for the buffer and a wrong checksum. -/
def toy_base58_to_bytes (str : Option (List Nat)) (flags : Nat) (len : Nat) :
    Int × List Nat × Nat :=
  match str with
  | none => (-2, [], 0)
  | some s =>
    if len < s.length then (-2, [], 0)
    else if flags &&& 1 ≠ 0 then
      if s.length < 4 then (-2, [], 0)
      else if store32 false (toy_checksum (s.take (s.length - 4))) ≠ s.drop (s.length - 4) then
        (-2, [], 0)
      else (0, s, s.length - 4)
    else (0, s, s.length)

/-- The executable environment. -/
def toyEnv : Env where
  WALLY_EINVAL := -2
  WALLY_EINVAL_ne_OK := by decide
  BIP38_KEY_COMPRESSED := 256
  BIP38_KEY_QUICK_CHECK := 1024
  BIP38_KEY_RAW_MODE := 2048
  BIP38_KEY_SWAP_ORDER := 4096
  PUBKEY_COMPRESSED := 258
  PUBKEY_UNCOMPRESSED := 2
  BASE58_FLAG_CHECKSUM := 1
  big_endian := false
  base58_get_checksum := toy_checksum
  wally_scrypt := toy_scrypt
  wally_scrypt_len := by intros; simp [toy_scrypt]
  AES256_encrypt := toy_aes_encrypt
  AES256_encrypt_len := by intros; unfold toy_aes_encrypt; split <;> simp [*]
  AES256_decrypt := toy_aes_decrypt
  AES256_decrypt_len := by intros; unfold toy_aes_decrypt; split <;> simp [*]
  pubkey_create := fun k => if k.all (fun b => b == 0) then none else some k
  pubkey_serialize := fun pk len _ =>
    some (if len = 33 then 2 :: pk else 4 :: (pk ++ pk.reverse))
  sha256 := fun bs => (List.range 32).map (fun i => (toy_checksum bs / (i + 1)) % 256)
  ripemd160 := fun bs => (List.range 20).map (fun i => (toy_checksum bs / (i + 3)) % 256)
  base58_from_bytes := toy_base58_from_bytes
  base58_to_bytes := toy_base58_to_bytes
  base58_to_bytes_len := by
    intro str flags len
    unfold toy_base58_to_bytes
    split
    · simp
    · split
      · simp
      · split
        · split
          · simp
          · split
            · simp
            · simp only; omega
        · simp only; omega

set_option maxRecDepth 100000

/-! ## Lists of known length -/

theorem uncons {n : Nat} (l : List Nat) (h : l.length = n + 1) :
    ∃ a t, l = a :: t ∧ t.length = n := by
  cases l with
  | nil => simp at h
  | cons a t => exact ⟨a, t, rfl, by simpa using h⟩

theorem length_four (l : List Nat) (h : l.length = 4) : ∃ a b c d, l = [a, b, c, d] := by
  obtain ⟨a, t1, rfl, h1⟩ := uncons l h
  obtain ⟨b, t2, rfl, h2⟩ := uncons t1 h1
  obtain ⟨c, t3, rfl, h3⟩ := uncons t2 h2
  obtain ⟨d, t4, rfl, h4⟩ := uncons t3 h3
  exact ⟨a, b, c, d, by rw [List.length_eq_zero.mp h4]⟩

theorem length_sixteen (l : List Nat) (h : l.length = 16) :
    ∃ a0 a1 a2 a3 a4 a5 a6 a7 a8 a9 a10 a11 a12 a13 a14 a15 : Nat,
      l = [a0, a1, a2, a3, a4, a5, a6, a7, a8, a9, a10, a11, a12, a13, a14, a15] := by
  obtain ⟨a0, t0, rfl, h0⟩ := uncons l h
  obtain ⟨a1, t1, rfl, h1⟩ := uncons t0 h0
  obtain ⟨a2, t2, rfl, h2⟩ := uncons t1 h1
  obtain ⟨a3, t3, rfl, h3⟩ := uncons t2 h2
  obtain ⟨a4, t4, rfl, h4⟩ := uncons t3 h3
  obtain ⟨a5, t5, rfl, h5⟩ := uncons t4 h4
  obtain ⟨a6, t6, rfl, h6⟩ := uncons t5 h5
  obtain ⟨a7, t7, rfl, h7⟩ := uncons t6 h6
  obtain ⟨a8, t8, rfl, h8⟩ := uncons t7 h7
  obtain ⟨a9, t9, rfl, h9⟩ := uncons t8 h8
  obtain ⟨a10, t10, rfl, h10⟩ := uncons t9 h9
  obtain ⟨a11, t11, rfl, h11⟩ := uncons t10 h10
  obtain ⟨a12, t12, rfl, h12⟩ := uncons t11 h11
  obtain ⟨a13, t13, rfl, h13⟩ := uncons t12 h12
  obtain ⟨a14, t14, rfl, h14⟩ := uncons t13 h13
  obtain ⟨a15, t15, rfl, h15⟩ := uncons t14 h14
  exact ⟨a0, a1, a2, a3, a4, a5, a6, a7, a8, a9, a10, a11, a12, a13, a14, a15, by rw [List.length_eq_zero.mp h15]⟩

/-! ## Arithmetic of the helpers -/

theorem store32_length (be : Bool) (v : Nat) : (store32 be v).length = 4 := by
  cases be <;> rfl

theorem load32_store32 (be : Bool) (v : Nat) (h : v < 4294967296) :
    load32 be (store32 be v) = v := by
  cases be <;> simp [load32, store32] <;> omega

theorem xor_bytes_length (a b : List Nat) (h : a.length = b.length) :
    (xor_bytes a b).length = a.length := by
  simp [xor_bytes, h]

theorem xor_bytes_cancel (a b : List Nat) (h : a.length ≤ b.length) :
    xor_bytes (xor_bytes a b) b = a := by
  induction a generalizing b with
  | nil => simp [xor_bytes]
  | cons x a ih =>
    cases b with
    | nil => simp at h
    | cons y b =>
      have hab : a.length ≤ b.length := by simpa using h
      have := ih b hab
      simp only [xor_bytes] at this ⊢
      simp [List.zipWith, this, Nat.xor_assoc]

theorem peek_length (mem : List Nat) (off n : Nat) (h : off + n ≤ mem.length) :
    (peek mem off n).length = n := by
  simp [peek]; omega

/-! ## The 44-byte layout -/


theorem peek_hash_fresh (salt : List Nat) (hs : salt.length = 4) :
    peek (poke (List.replicate SIZEOF_LAYOUT 0) OFF_HASH salt) OFF_HASH 4 = salt := by
  obtain ⟨s0, s1, s2, s3, rfl⟩ := length_four salt hs
  rfl

theorem layout_fill (salt c1 c2 : List Nat) (p e f : Nat) (hs : salt.length = 4)
    (h1 : c1.length = 16) (h2 : c2.length = 16) :
    poke (poke (poke (poke (poke (poke (List.replicate SIZEOF_LAYOUT 0) OFF_HASH salt)
      OFF_PREFIX [p]) OFF_EC_TYPE [e]) OFF_FLAGS [f]) OFF_HALF1 c1) OFF_HALF2 c2
      = 0 :: ([p, e, f] ++ salt ++ c1 ++ c2) ++ [0, 0, 0, 0] := by
  obtain ⟨s0, s1, s2, s3, rfl⟩ := length_four salt hs
  obtain ⟨a0, a1, a2, a3, a4, a5, a6, a7, a8, a9, a10, a11, a12, a13, a14, a15, rfl⟩ :=
    length_sixteen c1 h1
  obtain ⟨b0, b1, b2, b3, b4, b5, b6, b7, b8, b9, b10, b11, b12, b13, b14, b15, rfl⟩ :=
    length_sixteen c2 h2
  rfl

theorem layout_swap (salt c1 c2 : List Nat) (p e f : Nat) (hs : salt.length = 4)
    (h1 : c1.length = 16) (h2 : c2.length = 16) :
    poke (poke (0 :: ([p, e, f] ++ salt ++ c1 ++ c2) ++ [0, 0, 0, 0]) OFF_HASH
        (peek (0 :: ([p, e, f] ++ salt ++ c1 ++ c2) ++ [0, 0, 0, 0]) OFF_HALF1
          (AES256_BLOCK_LEN * 2)))
      (OFF_DECODE_HASH - 4)
      (peek (0 :: ([p, e, f] ++ salt ++ c1 ++ c2) ++ [0, 0, 0, 0]) OFF_HASH 4)
      = 0 :: ([p, e, f] ++ c1 ++ c2 ++ salt) ++ [0, 0, 0, 0] := by
  obtain ⟨s0, s1, s2, s3, rfl⟩ := length_four salt hs
  obtain ⟨a0, a1, a2, a3, a4, a5, a6, a7, a8, a9, a10, a11, a12, a13, a14, a15, rfl⟩ :=
    length_sixteen c1 h1
  obtain ⟨b0, b1, b2, b3, b4, b5, b6, b7, b8, b9, b10, b11, b12, b13, b14, b15, rfl⟩ :=
    length_sixteen c2 h2
  rfl

theorem layout_unswap (salt c1 c2 : List Nat) (p e f : Nat) (hs : salt.length = 4)
    (h1 : c1.length = 16) (h2 : c2.length = 16) :
    poke (poke (0 :: ([p, e, f] ++ c1 ++ c2 ++ salt) ++ [0, 0, 0, 0]) OFF_HALF1
        (peek (0 :: ([p, e, f] ++ c1 ++ c2 ++ salt) ++ [0, 0, 0, 0]) OFF_HASH
          (AES256_BLOCK_LEN * 2)))
      OFF_HASH
      (peek (0 :: ([p, e, f] ++ c1 ++ c2 ++ salt) ++ [0, 0, 0, 0]) (OFF_DECODE_HASH - 4) 4)
      = 0 :: ([p, e, f] ++ salt ++ c1 ++ c2) ++ [0, 0, 0, 0] := by
  obtain ⟨s0, s1, s2, s3, rfl⟩ := length_four salt hs
  obtain ⟨a0, a1, a2, a3, a4, a5, a6, a7, a8, a9, a10, a11, a12, a13, a14, a15, rfl⟩ :=
    length_sixteen c1 h1
  obtain ⟨b0, b1, b2, b3, b4, b5, b6, b7, b8, b9, b10, b11, b12, b13, b14, b15, rfl⟩ :=
    length_sixteen c2 h2
  rfl

theorem layout_fields (salt c1 c2 z : List Nat) (p e f : Nat) (hs : salt.length = 4)
    (h1 : c1.length = 16) (h2 : c2.length = 16) :
    peek (0 :: ([p, e, f] ++ salt ++ c1 ++ c2) ++ z) OFF_HASH 4 = salt ∧
    peek (0 :: ([p, e, f] ++ salt ++ c1 ++ c2) ++ z) OFF_HALF1 16 = c1 ∧
    peek (0 :: ([p, e, f] ++ salt ++ c1 ++ c2) ++ z) OFF_HALF2 16 = c2 ∧
    peek (0 :: ([p, e, f] ++ salt ++ c1 ++ c2) ++ z) OFF_PREFIX BIP38_SERIALISED_LEN
      = [p, e, f] ++ salt ++ c1 ++ c2 := by
  obtain ⟨s0, s1, s2, s3, rfl⟩ := length_four salt hs
  obtain ⟨a0, a1, a2, a3, a4, a5, a6, a7, a8, a9, a10, a11, a12, a13, a14, a15, rfl⟩ :=
    length_sixteen c1 h1
  obtain ⟨b0, b1, b2, b3, b4, b5, b6, b7, b8, b9, b10, b11, b12, b13, b14, b15, rfl⟩ :=
    length_sixteen c2 h2
  refine ⟨rfl, rfl, ?_, ?_⟩ <;> simp [peek]


/-! ## Closed form of `bip38_raw_from_private_key` -/

theorem poke_zero (out src : List Nat) : poke out 0 src = src ++ out.drop src.length := by
  simp [poke]

theorem aes_enc_length (E : Env) (src x key : List Nat) : (aes_enc E src x key).length = 16 := by
  simp [aes_enc, E.AES256_encrypt_len]

theorem layout_record_swapped (salt c1 c2 z : List Nat) (p e f : Nat) (hs : salt.length = 4)
    (h1 : c1.length = 16) (h2 : c2.length = 16) :
    peek (0 :: ([p, e, f] ++ c1 ++ c2 ++ salt) ++ z) OFF_PREFIX BIP38_SERIALISED_LEN
      = [p, e, f] ++ c1 ++ c2 ++ salt := by
  obtain ⟨s0, s1, s2, s3, rfl⟩ := length_four salt hs
  obtain ⟨a0, a1, a2, a3, a4, a5, a6, a7, a8, a9, a10, a11, a12, a13, a14, a15, rfl⟩ :=
    length_sixteen c1 h1
  obtain ⟨b0, b1, b2, b3, b4, b5, b6, b7, b8, b9, b10, b11, b12, b13, b14, b15, rfl⟩ :=
    length_sixteen c2 h2
  simp [peek]

theorem raw_from_private_key_eq (E : Env) (key out : List Nat) (pass : Option (List Nat))
    (pass_len flags : Nat) :
    bip38_raw_from_private_key E (some key) 32 pass pass_len flags (some out) 39 =
      match from_private_key_hash E key 32 flags with
      | .error e => (e, some out)
      | .ok hash =>
        let salt := store32 E.big_endian hash
        let s := E.wally_scrypt pass pass_len salt 4 16384 8 8 64
        if s.1 ≠ 0 then (s.1, some out)
        else
          let c1 := aes_enc E key (peek s.2 0 16) (peek s.2 32 32)
          let c2 := aes_enc E (key.drop 16) (peek s.2 16 16) (peek s.2 32 32)
          let f := 192 ||| (if flags &&& E.BIP38_KEY_COMPRESSED ≠ 0 then 32 else 0)
          (0, some ((if flags &&& E.BIP38_KEY_SWAP_ORDER ≠ 0 then [1, 66, f] ++ c1 ++ c2 ++ salt
            else [1, 66, f] ++ salt ++ c1 ++ c2) ++ out.drop 39)) := by
  simp only [bip38_raw_from_private_key, from_private_key_swap]
  rw [if_neg (by simp)]
  cases hh : from_private_key_hash E key 32 flags with
  | error e => rfl
  | ok hash =>
    simp only [List.drop_zero]
    rw [peek_hash_fresh _ (store32_length _ _)]
    generalize hsalt : store32 E.big_endian hash = salt
    have hsl : salt.length = 4 := by rw [← hsalt]; exact store32_length _ _
    generalize E.wally_scrypt pass pass_len salt 4 16384 8 8 64 = s
    generalize hc1 : aes_enc E key (peek s.2 0 16) (peek s.2 32 32) = c1
    generalize hc2 : aes_enc E (key.drop 16) (peek s.2 16 16) (peek s.2 32 32) = c2
    have h1 : c1.length = 16 := by rw [← hc1]; exact aes_enc_length _ _ _ _
    have h2 : c2.length = 16 := by rw [← hc2]; exact aes_enc_length _ _ _ _
    rw [layout_fill _ _ _ _ _ _ hsl h1 h2, layout_swap _ _ _ _ _ _ hsl h1 h2]
    by_cases hs : s.1 = 0
    · by_cases hw : flags &&& E.BIP38_KEY_SWAP_ORDER = 0
      · simp only [hs, hw, ne_eq, not_true_eq_false, not_false_eq_true, if_true, if_false]
        rw [(layout_fields _ _ _ _ _ _ _ hsl h1 h2).2.2.2, poke_zero]
        simp [hsl, h1, h2]
        rfl
      · simp only [hs, hw, ne_eq, not_true_eq_false, not_false_eq_true, if_true, if_false]
        rw [layout_record_swapped _ _ _ _ _ _ _ hsl h1 h2, poke_zero]
        simp [hsl, h1, h2]
        rfl
    · simp only [hs, ne_eq, not_true_eq_false, not_false_eq_true, if_true, if_false]


/-! ## Closed form of `to_private_key` on a binary record -/

theorem aes_dec_length (E : Env) (src x key : List Nat) (hx : 16 ≤ x.length) :
    (aes_dec E src x key).length = 16 := by
  simp [aes_dec, xor_bytes, E.AES256_decrypt_len, hx]

theorem poke_halves (out a b : List Nat) (ha : a.length = 16) (hb : b.length = 16) :
    poke (poke out 0 a) 16 b = a ++ b ++ out.drop 32 := by
  simp [poke, ha, hb, List.take_append_eq_append_take, List.drop_append_eq_append_drop]

theorem layout_load (salt c1 c2 : List Nat) (p e f : Nat) (hs : salt.length = 4)
    (h1 : c1.length = 16) (h2 : c2.length = 16) :
    poke (List.replicate SIZEOF_LAYOUT 0) OFF_PREFIX ([p, e, f] ++ salt ++ c1 ++ c2)
      = 0 :: ([p, e, f] ++ salt ++ c1 ++ c2) ++ [0, 0, 0, 0] ∧
    poke (List.replicate SIZEOF_LAYOUT 0) OFF_PREFIX ([p, e, f] ++ c1 ++ c2 ++ salt)
      = 0 :: ([p, e, f] ++ c1 ++ c2 ++ salt) ++ [0, 0, 0, 0] := by
  obtain ⟨s0, s1, s2, s3, rfl⟩ := length_four salt hs
  obtain ⟨a0, a1, a2, a3, a4, a5, a6, a7, a8, a9, a10, a11, a12, a13, a14, a15, rfl⟩ :=
    length_sixteen c1 h1
  obtain ⟨b0, b1, b2, b3, b4, b5, b6, b7, b8, b9, b10, b11, b12, b13, b14, b15, rfl⟩ :=
    length_sixteen c2 h2
  exact ⟨rfl, rfl⟩

theorem layout_header (p e f : Nat) (salt c1 c2 z : List Nat) :
    to_private_key_bad_header (0 :: ([p, e, f] ++ salt ++ c1 ++ c2) ++ z) =
      (decide (p ≠ 1) || decide (f &&& 27 ≠ 0) || decide (e ≠ 66) || decide (f &&& 4 ≠ 0)) ∧
    (0 :: ([p, e, f] ++ salt ++ c1 ++ c2) ++ z).getD OFF_FLAGS 0 = f :=
  ⟨rfl, rfl⟩

/-- The buffer of `to_private_key` after loading and un-shuffling a record
whose first 39 bytes are given by their fields. -/
theorem unswap_load (E : Env) (flags : Nat) (r salt c1 c2 : List Nat) (p e f : Nat)
    (hs : salt.length = 4) (h1 : c1.length = 16) (h2 : c2.length = 16)
    (hr : r.take 39 = if flags &&& E.BIP38_KEY_SWAP_ORDER ≠ 0
      then [p, e, f] ++ c1 ++ c2 ++ salt else [p, e, f] ++ salt ++ c1 ++ c2) :
    to_private_key_unswap E flags
        (poke (List.replicate SIZEOF_LAYOUT 0) OFF_PREFIX (r.take BIP38_SERIALISED_LEN))
      = 0 :: ([p, e, f] ++ salt ++ c1 ++ c2) ++ [0, 0, 0, 0] := by
  unfold to_private_key_unswap
  rw [hr]
  by_cases hw : flags &&& E.BIP38_KEY_SWAP_ORDER = 0
  · simp only [hw, ne_eq, not_true_eq_false, if_false]
    exact (layout_load _ _ _ _ _ _ hs h1 h2).1
  · simp only [hw, ne_eq, not_false_eq_true, if_true]
    rw [(layout_load _ _ _ _ _ _ hs h1 h2).2]
    exact layout_unswap _ _ _ _ _ _ hs h1 h2

theorem to_private_key_eq (E : Env) (bip38 : Option (List Nat)) (r salt c1 c2 : List Nat)
    (p e f : Nat) (pass : Option (List Nat)) (pass_len flags : Nat)
    (bytes_out : Option (List Nat))
    (hs : salt.length = 4) (h1 : c1.length = 16) (h2 : c2.length = 16)
    (hr : r.take 39 = if flags &&& E.BIP38_KEY_SWAP_ORDER ≠ 0
      then [p, e, f] ++ c1 ++ c2 ++ salt else [p, e, f] ++ salt ++ c1 ++ c2) :
    to_private_key E bip38 (some r) 39 pass pass_len flags bytes_out 32 =
      if flags &&& E.BIP38_KEY_QUICK_CHECK = 0 ∧ bytes_out = none then
        (E.WALLY_EINVAL, bytes_out)
      else if p ≠ 1 ∨ f &&& 27 ≠ 0 ∨ e ≠ 66 ∨ f &&& 4 ≠ 0 then (E.WALLY_EINVAL, bytes_out)
      else if flags &&& E.BIP38_KEY_QUICK_CHECK ≠ 0 then (0, bytes_out)
      else
        let s := E.wally_scrypt pass pass_len salt 4 16384 8 8 64
        if s.1 ≠ 0 then (s.1, bytes_out)
        else
          match bytes_out with
          | none => (E.WALLY_EINVAL, none)
          | some out =>
            let k := aes_dec E c1 (peek s.2 0 16) (peek s.2 32 32) ++
              aes_dec E c2 (peek s.2 16 16) (peek s.2 32 32)
            let hash := load32 E.big_endian salt
            if flags &&& E.BIP38_KEY_RAW_MODE ≠ 0 then
              if hash ≠ E.base58_get_checksum k % 4294967296 then
                (E.WALLY_EINVAL, some (k ++ out.drop 32))
              else (s.1, some (k ++ out.drop 32))
            else
              let a := address_from_private_key E (k ++ out.drop 32) 32 (flags &&& 0xff)
                (decide (f &&& 32 ≠ 0))
              if a.1 = 0 ∧ hash ≠ E.base58_get_checksum a.2 % 4294967296 then
                (E.WALLY_EINVAL, some (k ++ out.drop 32))
              else (a.1, some (k ++ out.drop 32)) := by
  have hload : to_private_key_load E bip38 (some r) 39 =
      .ok (poke (List.replicate SIZEOF_LAYOUT 0) OFF_PREFIX (r.take BIP38_SERIALISED_LEN)) := by
    simp [to_private_key_load]
  simp only [to_private_key, to_private_key_decrypt]
  rw [if_neg (by simp), hload]
  simp only []
  rw [unswap_load E flags r salt c1 c2 p e f hs h1 h2 hr]
  obtain ⟨hf1, hf2, hf3, -⟩ := layout_fields salt c1 c2 [0, 0, 0, 0] p e f hs h1 h2
  rw [hf1, hf2, hf3]
  obtain ⟨hh, hfl⟩ := layout_header p e f salt c1 c2 [0, 0, 0, 0]
  rw [hh, hfl]
  generalize hsd : E.wally_scrypt pass pass_len salt 4 16384 8 8 BIP38_DERVIED_KEY_LEN = s
  have hsl : s.2.length = 64 := by rw [← hsd]; exact E.wally_scrypt_len _ _ _ _ _ _ _ _
  have hd1 : (aes_dec E c1 (peek s.2 0 16) (peek s.2 32 32)).length
      = 16 := aes_dec_length _ _ _ _ (by rw [peek_length _ _ _ (by omega)])
  have hd2 : (aes_dec E c2 (peek s.2 16 16) (peek s.2 32 32)).length
      = 16 := aes_dec_length _ _ _ _ (by rw [peek_length _ _ _ (by omega)])
  have htk : ∀ out : List Nat,
      List.take 32 (aes_dec E c1 (peek s.2 0 16) (peek s.2 32 32) ++
        aes_dec E c2 (peek s.2 16 16) (peek s.2 32 32) ++
        List.drop 32 out) =
      aes_dec E c1 (peek s.2 0 16) (peek s.2 32 32) ++
        aes_dec E c2 (peek s.2 16 16) (peek s.2 32 32) := by
    intro out
    rw [List.take_append_of_le_length (by simp [hd1, hd2])]
    exact List.take_of_length_le (by simp [hd1, hd2])
  simp only [poke_halves _ _ _ hd1 hd2, htk]
  by_cases hq : flags &&& E.BIP38_KEY_QUICK_CHECK = 0 ∧ bytes_out = none
  · rw [if_pos hq, if_pos hq]
  · rw [if_neg hq, if_neg hq]
    by_cases hb : p ≠ 1 ∨ f &&& 27 ≠ 0 ∨ e ≠ 66 ∨ f &&& 4 ≠ 0
    · rw [if_pos hb, if_pos (by simpa [or_assoc] using hb)]
    · rw [if_neg hb, if_neg (by simpa [or_assoc] using hb)]


/-! ## Inversion of the block step -/

theorem aes_dec_aes_enc (E : Env) (src x key : List Nat)
    (haes : ∀ k blk, blk.length = 16 → E.AES256_decrypt k (E.AES256_encrypt k blk) = blk)
    (hsrc : 16 ≤ src.length) (hx : x.length = 16) :
    aes_dec E (aes_enc E src x key) x key = src.take 16 := by
  simp only [aes_dec, aes_enc]
  rw [List.take_of_length_le (le_of_eq (E.AES256_encrypt_len _ _))]
  rw [haes _ _ (by rw [xor_bytes_length] <;> simp [hx, hsrc])]
  exact xor_bytes_cancel _ _ (by simp [hx, hsrc])

theorem compute_pub_key_take (E : Env) (k rest : List Nat) (len_in : Nat) (c : Bool)
    (hk : k.length = 32) :
    compute_pub_key E (k ++ rest) len_in c = compute_pub_key E k len_in c := by
  have h1 : List.take 32 (k ++ rest) = k := by
    rw [List.take_append_of_le_length (le_of_eq hk.symm), List.take_of_length_le (le_of_eq hk)]
  have h2 : List.take 32 k = k := List.take_of_length_le (le_of_eq hk)
  simp only [compute_pub_key, h1, h2]

theorem address_from_private_key_take (E : Env) (k rest : List Nat) (len_in network : Nat)
    (c : Bool) (hk : k.length = 32) :
    address_from_private_key E (k ++ rest) len_in network c =
      address_from_private_key E k len_in network c := by
  simp only [address_from_private_key, compute_pub_key_take E k rest len_in c hk]

theorem flags_byte_bits (c : Prop) [Decidable c] :
    ((192 ||| (if c then 32 else 0)) &&& 27 = 0) ∧ ((192 ||| (if c then 32 else 0)) &&& 4 = 0) ∧
    ((192 ||| (if c then 32 else 0)) &&& 32 ≠ 0 ↔ c) := by
  by_cases h : c <;> simp [h] <;> decide

theorem toy_aes_inverse (k blk : List Nat) (h : blk.length = 16) :
    toyEnv.AES256_decrypt k (toyEnv.AES256_encrypt k blk) = blk := by
  show toy_aes_decrypt k (toy_aes_encrypt k blk) = blk
  simp [toy_aes_decrypt, toy_aes_encrypt, h, Function.comp_def, Nat.xor_assoc]

theorem from_private_key_hash_error (E : Env) (bytes_in : List Nat) (len_in flags : Nat)
    (e : Int) (h : from_private_key_hash E bytes_in len_in flags = .error e) : e ≠ 0 := by
  unfold from_private_key_hash at h
  split at h
  · cases h
  · simp only [] at h
    split at h
    · rename_i hne
      cases h
      exact hne
    · cases h

theorem from_private_key_hash_lt (E : Env) (bytes_in : List Nat) (len_in flags : Nat)
    (v : Nat) (h : from_private_key_hash E bytes_in len_in flags = .ok v) : v < 4294967296 := by
  unfold from_private_key_hash at h
  split at h
  · cases h
    exact Nat.mod_lt _ (by decide)
  · simp only [] at h
    split at h
    · cases h
    · cases h
      exact Nat.mod_lt _ (by decide)

/-- Claim C1. Round trip on the binary record: if `bip38_raw_from_private_key`
succeeds on a 32-byte key and leaves `r` in the output buffer, then
`bip38_raw_to_private_key` on `r` with the same passphrase and the same options
(no quick-check, output length 32) succeeds and writes the 32 key bytes at the
start of its output buffer. Assumed: AES-256 block decryption inverts block
encryption under the same key. -/
theorem raw_round_trip (E : Env) (key out r out2 : List Nat) (pass : Option (List Nat))
    (pass_len flags len_in len : Nat)
    (haes : ∀ k blk, blk.length = 16 → E.AES256_decrypt k (E.AES256_encrypt k blk) = blk)
    (hkey : key.length = len_in)
    (hq : flags &&& E.BIP38_KEY_QUICK_CHECK = 0)
    (henc : bip38_raw_from_private_key E (some key) len_in pass pass_len flags (some out) len
      = (WALLY_OK, some r)) :
    bip38_raw_to_private_key E (some r) 39 pass pass_len flags (some out2) 32
      = (WALLY_OK, some (key ++ out2.drop 32)) := by
  have hlen : len_in = 32 ∧ len = 39 := by
    by_contra hc
    have hc2 : len_in ≠ BITCOIN_PRIVATE_KEY_LEN ∨ len ≠ BIP38_SERIALISED_LEN := by
      simp only [BITCOIN_PRIVATE_KEY_LEN, BIP38_SERIALISED_LEN]; omega
    simp only [bip38_raw_from_private_key, if_pos hc2] at henc
    exact E.WALLY_EINVAL_ne_OK (Prod.mk.inj henc).1
  obtain ⟨rfl, rfl⟩ := hlen
  rw [raw_from_private_key_eq] at henc
  have hsome : (some out2 : Option (List Nat)) ≠ none := by simp
  have htake : ∀ a b c : List Nat, a.length = 39 → r = a ++ b → c = a → List.take 39 r = c := by
    intro a b c ha hr hc
    rw [hr, hc, List.take_append_of_le_length (le_of_eq ha.symm),
      List.take_of_length_le (le_of_eq ha)]
  cases hh : from_private_key_hash E key 32 flags with
  | error e =>
    rw [hh] at henc
    exact absurd (Prod.mk.inj henc).1 (from_private_key_hash_error E key 32 flags e hh)
  | ok hash =>
    rw [hh] at henc
    simp only [] at henc
    generalize hsd : E.wally_scrypt pass pass_len (store32 E.big_endian hash) 4 16384 8 8 64 = s
      at henc
    have hsl : s.2.length = 64 := by rw [← hsd]; exact E.wally_scrypt_len _ _ _ _ _ _ _ _
    by_cases hs : s.1 = 0
    · rw [if_neg (by simpa using hs)] at henc
      have hr := (Option.some.inj (Prod.mk.inj henc).2).symm
      have hc1 := aes_enc_length E key (peek s.2 0 16) (peek s.2 32 32)
      have hc2 := aes_enc_length E (key.drop 16) (peek s.2 16 16) (peek s.2 32 32)
      have hsalt := store32_length E.big_endian hash
      unfold bip38_raw_to_private_key
      rw [to_private_key_eq E none r (store32 E.big_endian hash)
        (aes_enc E key (peek s.2 0 16) (peek s.2 32 32))
        (aes_enc E (key.drop 16) (peek s.2 16 16) (peek s.2 32 32)) 1 66
        (192 ||| (if flags &&& E.BIP38_KEY_COMPRESSED ≠ 0 then 32 else 0))
        pass pass_len flags (some out2) hsalt hc1 hc2
        (htake _ _ _ (by split <;> simp [hsalt, hc1, hc2]) hr rfl)]
      have hp0 : (peek s.2 0 16).length = 16 := peek_length _ _ _ (by omega)
      have hp1 : (peek s.2 16 16).length = 16 := peek_length _ _ _ (by omega)
      have hk : aes_dec E (aes_enc E key (peek s.2 0 16) (peek s.2 32 32)) (peek s.2 0 16)
            (peek s.2 32 32) ++
          aes_dec E (aes_enc E (key.drop 16) (peek s.2 16 16) (peek s.2 32 32)) (peek s.2 16 16)
            (peek s.2 32 32) = key := by
        rw [aes_dec_aes_enc E _ _ _ haes (by omega) hp0,
          aes_dec_aes_enc E _ _ _ haes (by simp; omega) hp1]
        have : List.take 16 (List.drop 16 key) = List.drop 16 key :=
          List.take_of_length_le (by simp; omega)
        rw [this, List.take_append_drop]
      obtain ⟨hb1, hb2, hb3⟩ := flags_byte_bits (flags &&& E.BIP38_KEY_COMPRESSED ≠ 0)
      simp only [hsd, hk, hs, hq, hb1, hb2, hsome, ne_eq, not_true_eq_false, and_false, or_self,
        if_false, load32_store32 _ _ (from_private_key_hash_lt E key 32 flags hash hh)]
      rw [address_from_private_key_take E key _ 32 _ _ hkey]
      have hdec : decide (¬(192 ||| if ¬flags &&& E.BIP38_KEY_COMPRESSED = 0 then 32 else 0)
          &&& 32 = 0) = decide (flags &&& E.BIP38_KEY_COMPRESSED ≠ 0) :=
        decide_eq_decide.mpr hb3
      rw [hdec]
      have htk : List.take 32 key = key := List.take_of_length_le (le_of_eq hkey)
      unfold from_private_key_hash at hh
      by_cases hraw : flags &&& E.BIP38_KEY_RAW_MODE = 0
      · rw [if_neg (not_not.mpr hraw)] at hh
        rw [if_neg (not_not.mpr hraw)]
        simp only [] at hh
        split at hh
        · cases hh
        · rename_i ha
          cases hh
          rw [if_neg (by simp), not_not.mp ha]
      · rw [if_pos hraw, htk] at hh
        cases hh
        rw [if_pos hraw, if_neg (by simp)]
    · rw [if_pos hs] at henc
      exact absurd (Prod.mk.inj henc).1 hs


/-- The round trip at a compressed, address-mode, swap-order record. -/
theorem raw_round_trip_witness :
    bip38_raw_from_private_key toyEnv (some (List.replicate 31 0 ++ [1])) 32
        (some [116, 101, 115, 116]) 4 4352 (some (List.replicate 39 0)) 39
      = (WALLY_OK, some [1, 66, 224, 173, 8, 91, 50, 238, 51, 85, 19, 74, 85, 5, 90, 180, 45,
          218, 213, 204, 75, 21, 240, 235, 69, 53, 158, 69, 215, 94, 221, 184, 98, 83, 185, 243,
          180, 87, 238]) ∧
    bip38_raw_to_private_key toyEnv (some [1, 66, 224, 173, 8, 91, 50, 238, 51, 85, 19, 74, 85,
          5, 90, 180, 45, 218, 213, 204, 75, 21, 240, 235, 69, 53, 158, 69, 215, 94, 221, 184,
          98, 83, 185, 243, 180, 87, 238]) 39
        (some [116, 101, 115, 116]) 4 4352 (some (List.replicate 32 7)) 32
      = (WALLY_OK, some (List.replicate 31 0 ++ [1] ++ (List.replicate 32 7).drop 32)) :=
  ⟨by decide,
   raw_round_trip toyEnv (List.replicate 31 0 ++ [1]) (List.replicate 39 0) _
    (List.replicate 32 7) (some [116, 101, 115, 116]) 4 4352 32 39 toy_aes_inverse
    (by decide) (by decide) (by decide)⟩


/-! ## Fields of a 39-byte record -/

theorem record_fields (r : List Nat) (hr : r.length = 39) (sw : Prop) [Decidable sw] :
    r.take 39 = (if sw
      then [r.getD 0 0, r.getD 1 0, r.getD 2 0] ++ peek r 3 16 ++ peek r 19 16 ++ peek r 35 4
      else [r.getD 0 0, r.getD 1 0, r.getD 2 0] ++ peek r 3 4 ++ peek r 7 16 ++ peek r 23 16) := by
  obtain ⟨x0, t0, rfl, h0⟩ := uncons r hr
  obtain ⟨x1, t1, rfl, h1⟩ := uncons t0 h0
  obtain ⟨x2, t2, rfl, h2⟩ := uncons t1 h1
  obtain ⟨x3, t3, rfl, h3⟩ := uncons t2 h2
  obtain ⟨x4, t4, rfl, h4⟩ := uncons t3 h3
  obtain ⟨x5, t5, rfl, h5⟩ := uncons t4 h4
  obtain ⟨x6, t6, rfl, h6⟩ := uncons t5 h5
  obtain ⟨x7, t7, rfl, h7⟩ := uncons t6 h6
  obtain ⟨x8, t8, rfl, h8⟩ := uncons t7 h7
  obtain ⟨x9, t9, rfl, h9⟩ := uncons t8 h8
  obtain ⟨x10, t10, rfl, h10⟩ := uncons t9 h9
  obtain ⟨x11, t11, rfl, h11⟩ := uncons t10 h10
  obtain ⟨x12, t12, rfl, h12⟩ := uncons t11 h11
  obtain ⟨x13, t13, rfl, h13⟩ := uncons t12 h12
  obtain ⟨x14, t14, rfl, h14⟩ := uncons t13 h13
  obtain ⟨x15, t15, rfl, h15⟩ := uncons t14 h14
  obtain ⟨x16, t16, rfl, h16⟩ := uncons t15 h15
  obtain ⟨x17, t17, rfl, h17⟩ := uncons t16 h16
  obtain ⟨x18, t18, rfl, h18⟩ := uncons t17 h17
  obtain ⟨x19, t19, rfl, h19⟩ := uncons t18 h18
  obtain ⟨x20, t20, rfl, h20⟩ := uncons t19 h19
  obtain ⟨x21, t21, rfl, h21⟩ := uncons t20 h20
  obtain ⟨x22, t22, rfl, h22⟩ := uncons t21 h21
  obtain ⟨x23, t23, rfl, h23⟩ := uncons t22 h22
  obtain ⟨x24, t24, rfl, h24⟩ := uncons t23 h23
  obtain ⟨x25, t25, rfl, h25⟩ := uncons t24 h24
  obtain ⟨x26, t26, rfl, h26⟩ := uncons t25 h25
  obtain ⟨x27, t27, rfl, h27⟩ := uncons t26 h26
  obtain ⟨x28, t28, rfl, h28⟩ := uncons t27 h27
  obtain ⟨x29, t29, rfl, h29⟩ := uncons t28 h28
  obtain ⟨x30, t30, rfl, h30⟩ := uncons t29 h29
  obtain ⟨x31, t31, rfl, h31⟩ := uncons t30 h30
  obtain ⟨x32, t32, rfl, h32⟩ := uncons t31 h31
  obtain ⟨x33, t33, rfl, h33⟩ := uncons t32 h32
  obtain ⟨x34, t34, rfl, h34⟩ := uncons t33 h33
  obtain ⟨x35, t35, rfl, h35⟩ := uncons t34 h34
  obtain ⟨x36, t36, rfl, h36⟩ := uncons t35 h35
  obtain ⟨x37, t37, rfl, h37⟩ := uncons t36 h36
  obtain ⟨x38, t38, rfl, h38⟩ := uncons t37 h37
  rw [List.length_eq_zero.mp h38]
  by_cases h : sw
  · rw [if_pos h]; rfl
  · rw [if_neg h]; rfl

theorem record_fields_length (r : List Nat) (hr : r.length = 39) :
    (peek r 3 4).length = 4 ∧ (peek r 7 16).length = 16 ∧ (peek r 23 16).length = 16 ∧
    (peek r 3 16).length = 16 ∧ (peek r 19 16).length = 16 ∧ (peek r 35 4).length = 4 := by
  refine ⟨?_, ?_, ?_, ?_, ?_, ?_⟩ <;> exact peek_length _ _ _ (by omega)

/-- What a successful call of `bip38_raw_from_private_key` implies. -/
theorem raw_from_private_key_ok (E : Env) (bytes_in : Option (List Nat)) (len_in : Nat)
    (pass : Option (List Nat)) (pass_len flags : Nat) (bytes_out : Option (List Nat))
    (len : Nat) (res : Option (List Nat))
    (h : bip38_raw_from_private_key E bytes_in len_in pass pass_len flags bytes_out len
      = (WALLY_OK, res)) :
    ∃ key out hash, bytes_in = some key ∧ bytes_out = some out ∧ len_in = 32 ∧ len = 39 ∧
      from_private_key_hash E key 32 flags = .ok hash ∧
      (E.wally_scrypt pass pass_len (store32 E.big_endian hash) 4 16384 8 8 64).1 = 0 ∧
      res = some ((if flags &&& E.BIP38_KEY_SWAP_ORDER ≠ 0
        then [1, 66, 192 ||| (if flags &&& E.BIP38_KEY_COMPRESSED ≠ 0 then 32 else 0)] ++
          aes_enc E key
            (peek (E.wally_scrypt pass pass_len (store32 E.big_endian hash) 4 16384 8 8 64).2 0 16)
            (peek (E.wally_scrypt pass pass_len (store32 E.big_endian hash) 4 16384 8 8 64).2 32
              32) ++
          aes_enc E (key.drop 16)
            (peek (E.wally_scrypt pass pass_len (store32 E.big_endian hash) 4 16384 8 8 64).2 16
              16)
            (peek (E.wally_scrypt pass pass_len (store32 E.big_endian hash) 4 16384 8 8 64).2 32
              32) ++
          store32 E.big_endian hash
        else [1, 66, 192 ||| (if flags &&& E.BIP38_KEY_COMPRESSED ≠ 0 then 32 else 0)] ++
          store32 E.big_endian hash ++
          aes_enc E key
            (peek (E.wally_scrypt pass pass_len (store32 E.big_endian hash) 4 16384 8 8 64).2 0 16)
            (peek (E.wally_scrypt pass pass_len (store32 E.big_endian hash) 4 16384 8 8 64).2 32
              32) ++
          aes_enc E (key.drop 16)
            (peek (E.wally_scrypt pass pass_len (store32 E.big_endian hash) 4 16384 8 8 64).2 16
              16)
            (peek (E.wally_scrypt pass pass_len (store32 E.big_endian hash) 4 16384 8 8 64).2 32
              32)) ++ out.drop 39) := by
  cases bytes_in with
  | none =>
    simp only [bip38_raw_from_private_key] at h
    exact absurd (Prod.mk.inj h).1 E.WALLY_EINVAL_ne_OK
  | some key =>
    cases bytes_out with
    | none =>
      simp only [bip38_raw_from_private_key] at h
      exact absurd (Prod.mk.inj h).1 E.WALLY_EINVAL_ne_OK
    | some out =>
      have hlen : len_in = 32 ∧ len = 39 := by
        by_contra hc
        have hc2 : len_in ≠ BITCOIN_PRIVATE_KEY_LEN ∨ len ≠ BIP38_SERIALISED_LEN := by
          simp only [BITCOIN_PRIVATE_KEY_LEN, BIP38_SERIALISED_LEN]; omega
        simp only [bip38_raw_from_private_key, if_pos hc2] at h
        exact E.WALLY_EINVAL_ne_OK (Prod.mk.inj h).1
      obtain ⟨rfl, rfl⟩ := hlen
      rw [raw_from_private_key_eq] at h
      cases hh : from_private_key_hash E key 32 flags with
      | error e =>
        rw [hh] at h
        exact absurd (Prod.mk.inj h).1 (from_private_key_hash_error E key 32 flags e hh)
      | ok hash =>
        rw [hh] at h
        simp only [] at h
        by_cases hs : (E.wally_scrypt pass pass_len (store32 E.big_endian hash) 4 16384 8 8 64).1
            = 0
        · rw [if_neg (by simpa using hs)] at h
          exact ⟨key, out, hash, rfl, rfl, rfl, rfl, hh, hs, (Prod.mk.inj h).2.symm⟩
        · rw [if_pos hs] at h
          exact absurd (Prod.mk.inj h).1 hs


/-- Where `to_private_key` leaves the caller's output buffer: untouched, or
holding the two decrypted halves once key derivation has succeeded. -/
theorem to_private_key_output (E : Env) (bip38 bytes_in : Option (List Nat)) (len_in : Nat)
    (pass : Option (List Nat)) (pass_len flags : Nat) (bytes_out : Option (List Nat))
    (len : Nat) :
    (to_private_key E bip38 bytes_in len_in pass pass_len flags bytes_out len).2 = bytes_out ∨
    ∃ buf out, to_private_key_load E bip38 bytes_in len_in = .ok buf ∧ bytes_out = some out ∧
      len = 32 ∧
      to_private_key_bad_header (to_private_key_unswap E flags buf) = false ∧
      flags &&& E.BIP38_KEY_QUICK_CHECK = 0 ∧
      (E.wally_scrypt pass pass_len (peek (to_private_key_unswap E flags buf) OFF_HASH 4) 4
        16384 8 8 64).1 = 0 ∧
      (to_private_key E bip38 bytes_in len_in pass pass_len flags bytes_out len).2 =
        some (to_private_key_decrypt E (to_private_key_unswap E flags buf)
          (E.wally_scrypt pass pass_len (peek (to_private_key_unswap E flags buf) OFF_HASH 4) 4
            16384 8 8 64).2 out) := by
  generalize hres : to_private_key E bip38 bytes_in len_in pass pass_len flags bytes_out len = res
  cases bytes_out with
  | none =>
    left
    simp only [to_private_key] at hres
    repeat' split at hres
    all_goals rw [← hres]
  | some out =>
    simp only [to_private_key] at hres
    split at hres
    · left; rw [← hres]
    · rename_i hlen
      split at hres
      · left; rw [← hres]
      · split at hres
        · left; rw [← hres]
        · rename_i buf hload
          split at hres
          · left; rw [← hres]
          · rename_i hhead
            split at hres
            · left; rw [← hres]
            · rename_i hq
              split at hres
              · left; rw [← hres]
              · rename_i hs
                right
                refine ⟨buf, out, hload, rfl, by simpa using hlen, by simpa using hhead,
                  by simpa using hq, by simpa using hs, ?_⟩
                repeat' split at hres
                all_goals rw [← hres]

/-- Counterexample to claim C2 as stated. The raw-mode record of the key
`00..01` under the passphrase "test" is decrypted with "Test": the call fails,
and the output buffer, all zero before, holds the 32 candidate bytes. -/
theorem failed_decrypt_changes_output :
    bip38_raw_from_private_key toyEnv (some (List.replicate 31 0 ++ [1])) 32
        (some [116, 101, 115, 116]) 4 2048 (some (List.replicate 39 0)) 39
      = (WALLY_OK, some [1, 66, 192, 6, 233, 42, 233, 69, 117, 100, 101, 61, 38, 204, 88, 137,
          93, 100, 214, 166, 240, 74, 102, 182, 236, 36, 139, 209, 235, 71, 26, 233, 91, 147,
          135, 187, 107, 247, 219]) ∧
    bip38_raw_to_private_key toyEnv (some [1, 66, 192, 6, 233, 42, 233, 69, 117, 100, 101, 61,
          38, 204, 88, 137, 93, 100, 214, 166, 240, 74, 102, 182, 236, 36, 139, 209, 235, 71,
          26, 233, 91, 147, 135, 187, 107, 247, 219]) 39
        (some [84, 101, 115, 116]) 4 2048 (some (List.replicate 32 0)) 32
      = (toyEnv.WALLY_EINVAL, some [126, 46, 212, 230, 98, 179, 133, 18, 247, 68, 120, 115, 37,
          163, 122, 24, 177, 170, 224, 133, 153, 77, 254, 165, 213, 125, 252, 35, 112, 232, 49,
          30]) ∧
    toyEnv.WALLY_EINVAL ≠ WALLY_OK ∧
    [126, 46, 212, 230, 98, 179, 133, 18, 247, 68, 120, 115, 37, 163, 122, 24, 177, 170, 224,
      133, 153, 77, 254, 165, 213, 125, 252, 35, 112, 232, 49, 30] ≠ List.replicate 32 0 := by
  decide

/-! ## Decrypting an arbitrary 39-byte record -/

theorem to_private_key_take (E : Env) (bip38 : Option (List Nat)) (r : List Nat)
    (pass : Option (List Nat)) (pass_len flags : Nat) (bytes_out : Option (List Nat))
    (len : Nat) :
    to_private_key E bip38 (some r) 39 pass pass_len flags bytes_out len =
      to_private_key E bip38 (some (r.take 39)) 39 pass pass_len flags bytes_out len := by
  simp only [to_private_key, to_private_key_load, List.take_take, min_self]

theorem to_private_key_record (E : Env) (bip38 : Option (List Nat)) (r : List Nat)
    (pass : Option (List Nat)) (pass_len flags : Nat) (bytes_out : Option (List Nat))
    (hr : r.length = 39) :
    to_private_key E bip38 (some r) 39 pass pass_len flags bytes_out 32 =
      let salt := if flags &&& E.BIP38_KEY_SWAP_ORDER ≠ 0 then peek r 35 4 else peek r 3 4
      let c1 := if flags &&& E.BIP38_KEY_SWAP_ORDER ≠ 0 then peek r 3 16 else peek r 7 16
      let c2 := if flags &&& E.BIP38_KEY_SWAP_ORDER ≠ 0 then peek r 19 16 else peek r 23 16
      if flags &&& E.BIP38_KEY_QUICK_CHECK = 0 ∧ bytes_out = none then
        (E.WALLY_EINVAL, bytes_out)
      else if r.getD 0 0 ≠ 1 ∨ r.getD 2 0 &&& 27 ≠ 0 ∨ r.getD 1 0 ≠ 66 ∨ r.getD 2 0 &&& 4 ≠ 0
        then (E.WALLY_EINVAL, bytes_out)
      else if flags &&& E.BIP38_KEY_QUICK_CHECK ≠ 0 then (0, bytes_out)
      else
        let s := E.wally_scrypt pass pass_len salt 4 16384 8 8 64
        if s.1 ≠ 0 then (s.1, bytes_out)
        else
          match bytes_out with
          | none => (E.WALLY_EINVAL, none)
          | some out =>
            let k := aes_dec E c1 (peek s.2 0 16) (peek s.2 32 32) ++
              aes_dec E c2 (peek s.2 16 16) (peek s.2 32 32)
            let hash := load32 E.big_endian salt
            if flags &&& E.BIP38_KEY_RAW_MODE ≠ 0 then
              if hash ≠ E.base58_get_checksum k % 4294967296 then
                (E.WALLY_EINVAL, some (k ++ out.drop 32))
              else (s.1, some (k ++ out.drop 32))
            else
              let a := address_from_private_key E (k ++ out.drop 32) 32 (flags &&& 0xff)
                (decide (r.getD 2 0 &&& 32 ≠ 0))
              if a.1 = 0 ∧ hash ≠ E.base58_get_checksum a.2 % 4294967296 then
                (E.WALLY_EINVAL, some (k ++ out.drop 32))
              else (a.1, some (k ++ out.drop 32)) := by
  obtain ⟨l1, l2, l3, l4, l5, l6⟩ := record_fields_length r hr
  have hf := record_fields r hr (flags &&& E.BIP38_KEY_SWAP_ORDER ≠ 0)
  by_cases hw : flags &&& E.BIP38_KEY_SWAP_ORDER ≠ 0
  · simp only [if_pos hw]
    rw [if_pos hw] at hf
    exact to_private_key_eq E bip38 r (peek r 35 4) (peek r 3 16) (peek r 19 16) _ _ _
      pass pass_len flags bytes_out l6 l4 l5 (by rw [if_pos hw]; exact hf)
  · simp only [if_neg hw]
    rw [if_neg hw] at hf
    exact to_private_key_eq E bip38 r (peek r 3 4) (peek r 7 16) (peek r 23 16) _ _ _
      pass pass_len flags bytes_out l1 l2 l3 (by rw [if_neg hw]; exact hf)

theorem loaded_record_eq (E : Env) (flags : Nat) (r : List Nat) (hr : r.length = 39) :
    loaded_record E flags r =
      if flags &&& E.BIP38_KEY_SWAP_ORDER ≠ 0
      then [r.getD 0 0, r.getD 1 0, r.getD 2 0] ++ peek r 35 4 ++ peek r 3 16 ++ peek r 19 16
      else r := by
  obtain ⟨l1, l2, l3, l4, l5, l6⟩ := record_fields_length r hr
  have hf := record_fields r hr (flags &&& E.BIP38_KEY_SWAP_ORDER ≠ 0)
  unfold loaded_record
  by_cases hw : flags &&& E.BIP38_KEY_SWAP_ORDER ≠ 0
  · rw [if_pos hw] at hf
    rw [unswap_load E flags r (peek r 35 4) (peek r 3 16) (peek r 19 16) _ _ _ l6 l4 l5
      (by rw [if_pos hw]; exact hf), if_pos hw]
    exact (layout_fields _ _ _ _ _ _ _ l6 l4 l5).2.2.2
  · rw [if_neg hw] at hf
    rw [unswap_load E flags r (peek r 3 4) (peek r 7 16) (peek r 23 16) _ _ _ l1 l2 l3
      (by rw [if_neg hw]; exact hf), if_neg hw]
    rw [(layout_fields _ _ _ _ _ _ _ l1 l2 l3).2.2.2, ← hf]
    exact List.take_of_length_le (le_of_eq hr)

theorem loaded_record_header (E : Env) (flags : Nat) (r : List Nat) (hr : r.length = 39) :
    (loaded_record E flags r).getD 0 0 = r.getD 0 0 ∧
    (loaded_record E flags r).getD 1 0 = r.getD 1 0 ∧
    (loaded_record E flags r).getD 2 0 = r.getD 2 0 := by
  rw [loaded_record_eq E flags r hr]
  split
  · exact ⟨rfl, rfl, rfl⟩
  · exact ⟨rfl, rfl, rfl⟩

theorem and_low_bits (f m : Nat) (hm : m &&& 31 = m) : f &&& m = (f % 32) &&& m := by
  have h31 : f &&& 31 = f % 32 := Nat.and_pow_two_sub_one_eq_mod f 5
  rw [← h31, Nat.and_assoc, Nat.and_comm 31 m, hm]

theorem reserved_bits (f : Nat) :
    (f &&& 27 ≠ 0 ↔ (f &&& 16 ≠ 0 ∨ f &&& 8 ≠ 0 ∨ f &&& 2 ≠ 0 ∨ f &&& 1 ≠ 0)) ∧
    ((f &&& 27 ≠ 0 ∨ f &&& 4 ≠ 0) ↔ f &&& 31 ≠ 0) := by
  rw [and_low_bits f 27 (by decide), and_low_bits f 16 (by decide), and_low_bits f 8 (by decide),
    and_low_bits f 2 (by decide), and_low_bits f 1 (by decide), and_low_bits f 4 (by decide),
    and_low_bits f 31 (by decide)]
  have hlt : f % 32 < 32 := Nat.mod_lt _ (by decide)
  generalize f % 32 = g at hlt
  interval_cases g <;> decide

/-- Claim C3. Unsupported-record rejection: for every 39-byte record which,
once loaded and with the swap order undone when that option is set, has the
ec_type byte 0x43, or a flags byte with one of the reserved bits 0x10, 0x08,
0x02, 0x01 set, or a flags byte with the lot bit 0x04 set,
`bip38_raw_to_private_key` returns an error for every passphrase, every
option set (quick check or full decrypt), every output buffer and every
declared length. -/
theorem unsupported_record_rejected (E : Env) (r : List Nat) (len_in : Nat)
    (pass : Option (List Nat)) (pass_len flags : Nat) (bytes_out : Option (List Nat))
    (len : Nat) (hr : r.length = 39)
    (hbad : (loaded_record E flags r).getD 1 0 = BIP38_ECMUL ∨
      ((loaded_record E flags r).getD 2 0 &&& BIP38_FLAG_RESERVED1 ≠ 0 ∨
       (loaded_record E flags r).getD 2 0 &&& BIP38_FLAG_RESERVED2 ≠ 0 ∨
       (loaded_record E flags r).getD 2 0 &&& BIP38_FLAG_RESERVED3 ≠ 0 ∨
       (loaded_record E flags r).getD 2 0 &&& BIP38_FLAG_RESERVED4 ≠ 0) ∨
      (loaded_record E flags r).getD 2 0 &&& BIP38_FLAG_HAVE_LOT ≠ 0) :
    (bip38_raw_to_private_key E (some r) len_in pass pass_len flags bytes_out len).1
      ≠ WALLY_OK := by
  obtain ⟨-, h1, h2⟩ := loaded_record_header E flags r hr
  rw [h1, h2] at hbad
  unfold bip38_raw_to_private_key
  by_cases hlen : len = 32
  · subst hlen
    by_cases hin : len_in = 39
    · subst hin
      rw [to_private_key_record E none r pass pass_len flags bytes_out hr]
      simp only []
      split
      · exact E.WALLY_EINVAL_ne_OK
      · have hb : r.getD 0 0 ≠ 1 ∨ r.getD 2 0 &&& 27 ≠ 0 ∨ r.getD 1 0 ≠ 66 ∨
            r.getD 2 0 &&& 4 ≠ 0 := by
          rcases hbad with h | h | h
          · right; right; left; rw [h]; decide
          · right; left; exact (reserved_bits _).1.mpr (by
              rcases h with h | h | h | h
              · exact Or.inl h
              · exact Or.inr (Or.inl h)
              · exact Or.inr (Or.inr (Or.inl h))
              · exact Or.inr (Or.inr (Or.inr h)))
          · right; right; right; exact h
        rw [if_pos hb]
        exact E.WALLY_EINVAL_ne_OK
    · simp only [to_private_key, to_private_key_load]
      rw [if_neg (by simp)]
      split
      · exact E.WALLY_EINVAL_ne_OK
      · exact E.WALLY_EINVAL_ne_OK
  · simp only [to_private_key]
    rw [if_pos (by simpa using hlen)]
    exact E.WALLY_EINVAL_ne_OK


/-! ## Header of an encrypted record and the quick check -/

theorem raw_from_private_key_header (E : Env) (bytes_in : Option (List Nat)) (len_in : Nat)
    (pass : Option (List Nat)) (pass_len flags : Nat) (bytes_out : Option (List Nat))
    (len : Nat) (r : List Nat)
    (h : bip38_raw_from_private_key E bytes_in len_in pass pass_len flags bytes_out len
      = (WALLY_OK, some r)) :
    39 ≤ r.length ∧ r.getD 0 0 = 1 ∧ r.getD 1 0 = 66 ∧
    r.getD 2 0 = 192 ||| (if flags &&& E.BIP38_KEY_COMPRESSED ≠ 0 then 32 else 0) := by
  obtain ⟨key, out, hash, -, -, -, -, -, -, hres⟩ :=
    raw_from_private_key_ok E bytes_in len_in pass pass_len flags bytes_out len _ h
  have hr := Option.some.inj hres
  have hsalt := store32_length E.big_endian hash
  rw [hr]
  split
  · refine ⟨?_, rfl, rfl, rfl⟩
    simp [hsalt, aes_enc_length]
    omega
  · refine ⟨?_, rfl, rfl, rfl⟩
    simp [hsalt, aes_enc_length]
    omega

theorem getD_take (r : List Nat) (i n : Nat) (h : i < n) : (r.take n).getD i 0 = r.getD i 0 := by
  simp [List.getD_eq_getElem?_getD, List.getElem?_take, h]

theorem to_private_key_quick (E : Env) (bip38 : Option (List Nat)) (r : List Nat)
    (pass : Option (List Nat)) (pass_len flags : Nat) (bytes_out : Option (List Nat))
    (hr : 39 ≤ r.length) (hq : flags &&& E.BIP38_KEY_QUICK_CHECK ≠ 0) :
    to_private_key E bip38 (some r) 39 pass pass_len flags bytes_out 32 =
      if r.getD 0 0 ≠ 1 ∨ r.getD 2 0 &&& 27 ≠ 0 ∨ r.getD 1 0 ≠ 66 ∨ r.getD 2 0 &&& 4 ≠ 0
      then (E.WALLY_EINVAL, bytes_out) else (WALLY_OK, bytes_out) := by
  rw [to_private_key_take, to_private_key_record E bip38 (r.take 39) pass pass_len flags
    bytes_out (by simp [hr])]
  simp only [getD_take r 0 39 (by decide), getD_take r 1 39 (by decide),
    getD_take r 2 39 (by decide)]
  rw [if_neg (fun hc => hq hc.1), if_pos hq]

/-- Claim C4. Quick check accepts every record produced by encrypt: if
`bip38_raw_from_private_key` succeeds and leaves `r` in the output buffer,
then `bip38_raw_to_private_key` on `r` with the quick-check option and output
length 32 returns success and leaves the output untouched, for every
passphrase (present, empty or absent), every output pointer, and whatever the
other option bits are. -/
theorem quick_check_accepts_encrypted (E : Env) (bytes_in : Option (List Nat)) (len_in : Nat)
    (pass : Option (List Nat)) (pass_len flags : Nat) (bytes_out : Option (List Nat))
    (len : Nat) (r : List Nat) (pass2 : Option (List Nat)) (pass_len2 flags2 : Nat)
    (bytes_out2 : Option (List Nat))
    (henc : bip38_raw_from_private_key E bytes_in len_in pass pass_len flags bytes_out len
      = (WALLY_OK, some r))
    (hq : flags2 &&& E.BIP38_KEY_QUICK_CHECK ≠ 0) :
    bip38_raw_to_private_key E (some r) 39 pass2 pass_len2 flags2 bytes_out2 32
      = (WALLY_OK, bytes_out2) := by
  obtain ⟨hlen, h0, h1, h2⟩ :=
    raw_from_private_key_header E bytes_in len_in pass pass_len flags bytes_out len r henc
  obtain ⟨hb1, hb2, -⟩ := flags_byte_bits (flags &&& E.BIP38_KEY_COMPRESSED ≠ 0)
  unfold bip38_raw_to_private_key
  rw [to_private_key_quick E none r pass2 pass_len2 flags2 bytes_out2 hlen hq, h0, h1, h2,
    if_neg (fun hc => hc.elim (fun h => h rfl) (fun hc => hc.elim (fun h => h hb1)
      (fun hc => hc.elim (fun h => h rfl) (fun h => h hb2))))]

/-- Quick check of the swap-order, compressed, address-mode record of the key
`00..01` with no passphrase and no output buffer. -/
theorem quick_check_accepts_encrypted_witness :
    bip38_raw_to_private_key toyEnv (some [1, 66, 224, 173, 8, 91, 50, 238, 51, 85, 19, 74, 85,
        5, 90, 180, 45, 218, 213, 204, 75, 21, 240, 235, 69, 53, 158, 69, 215, 94, 221, 184,
        98, 83, 185, 243, 180, 87, 238]) 39 none 0 5120 none 32 = (WALLY_OK, none) :=
  quick_check_accepts_encrypted toyEnv (some (List.replicate 31 0 ++ [1])) 32
    (some [116, 101, 115, 116]) 4 4352 (some (List.replicate 39 0)) 39 _ none 0 5120 none
    (by decide) (by decide)

/-- Counterexample to claim C5 as stated. The raw-mode record of the key
`00..01` has the flags byte 0xC0; with that byte replaced by the different
value 0xE0 the quick check still returns success. -/
theorem quick_check_accepts_changed_flags :
    bip38_raw_from_private_key toyEnv (some (List.replicate 31 0 ++ [1])) 32
        (some [116, 101, 115, 116]) 4 2048 (some (List.replicate 39 0)) 39
      = (WALLY_OK, some [1, 66, 192, 6, 233, 42, 233, 69, 117, 100, 101, 61, 38, 204, 88, 137,
          93, 100, 214, 166, 240, 74, 102, 182, 236, 36, 139, 209, 235, 71, 26, 233, 91, 147,
          135, 187, 107, 247, 219]) ∧
    (224 : Nat) ≠ 192 ∧
    bip38_raw_to_private_key toyEnv (some [1, 66, 224, 6, 233, 42, 233, 69, 117, 100, 101, 61,
        38, 204, 88, 137, 93, 100, 214, 166, 240, 74, 102, 182, 236, 36, 139, 209, 235, 71,
        26, 233, 91, 147, 135, 187, 107, 247, 219]) 39 none 0 3072 none 32
      = (WALLY_OK, none) := by
  decide

/-- Claim C5, as the code has it. For every record `r` produced by a
successful encrypt and every quick-check decrypt of a changed copy (output
length 32, any passphrase, any output pointer): replacing the prefix byte or
the ec_type byte by a different value makes the call fail; replacing the
flags byte by `v` makes it fail exactly when `v` has one of the bits 0x1F
(reserved bits or lot bit) set, so a change confined to bits 7, 6 and 5 is
accepted. -/
theorem quick_check_changed_header (E : Env) (bytes_in : Option (List Nat)) (len_in : Nat)
    (pass : Option (List Nat)) (pass_len flags : Nat) (bytes_out : Option (List Nat))
    (len : Nat) (r : List Nat) (pass2 : Option (List Nat)) (pass_len2 flags2 : Nat)
    (bytes_out2 : Option (List Nat)) (v : Nat)
    (henc : bip38_raw_from_private_key E bytes_in len_in pass pass_len flags bytes_out len
      = (WALLY_OK, some r))
    (hq : flags2 &&& E.BIP38_KEY_QUICK_CHECK ≠ 0) :
    (v ≠ r.getD 0 0 →
      (bip38_raw_to_private_key E (some (r.set 0 v)) 39 pass2 pass_len2 flags2 bytes_out2 32).1
        ≠ WALLY_OK) ∧
    (v ≠ r.getD 1 0 →
      (bip38_raw_to_private_key E (some (r.set 1 v)) 39 pass2 pass_len2 flags2 bytes_out2 32).1
        ≠ WALLY_OK) ∧
    ((bip38_raw_to_private_key E (some (r.set 2 v)) 39 pass2 pass_len2 flags2 bytes_out2 32).1
        ≠ WALLY_OK ↔ v &&& 31 ≠ 0) := by
  obtain ⟨hlen, h0, h1, h2⟩ :=
    raw_from_private_key_header E bytes_in len_in pass pass_len flags bytes_out len r henc
  obtain ⟨hb1, hb2, -⟩ := flags_byte_bits (flags &&& E.BIP38_KEY_COMPRESSED ≠ 0)
  have hg : ∀ (i j : Nat), i < 39 → (r.set i v).getD j 0 = if i = j then v else r.getD j 0 := by
    intro i j hi
    simp only [List.getD_eq_getElem?_getD, List.getElem?_set]
    by_cases hij : i = j
    · subst hij
      simp [show i < r.length by omega]
    · simp [hij]
  unfold bip38_raw_to_private_key
  rw [to_private_key_quick E none (r.set 0 v) pass2 pass_len2 flags2 bytes_out2 (by simpa using hlen) hq,
    to_private_key_quick E none (r.set 1 v) pass2 pass_len2 flags2 bytes_out2 (by simpa using hlen) hq,
    to_private_key_quick E none (r.set 2 v) pass2 pass_len2 flags2 bytes_out2 (by simpa using hlen) hq]
  simp only [hg 0 _ (by decide), hg 1 _ (by decide), hg 2 _ (by decide)]
  simp only [h0, h1, h2, hb1, hb2]
  refine ⟨?_, ?_, ?_⟩
  · intro hv
    rw [if_pos (Or.inl (by simpa using hv))]
    exact E.WALLY_EINVAL_ne_OK
  · intro hv
    rw [if_pos (Or.inr (Or.inr (Or.inl (by simpa using hv))))]
    exact E.WALLY_EINVAL_ne_OK
  · have hbits := (reserved_bits v).2
    by_cases hv : v &&& 31 ≠ 0
    · have := hbits.mpr hv
      rw [if_pos (by simpa using this)]
      exact ⟨fun _ => hv, fun _ => E.WALLY_EINVAL_ne_OK⟩
    · have hn : ¬(v &&& 27 ≠ 0 ∨ v &&& 4 ≠ 0) := fun hc => hv (hbits.mp hc)
      rw [if_neg (by simpa using hn)]
      exact ⟨fun hc => absurd rfl hc, fun hc => absurd hc hv⟩


/-- The amended C5 statement at the raw-mode record of the key `00..01`, with
the value 0x43 written over the prefix, the ec_type and the flags byte in
turn. -/
theorem quick_check_changed_header_witness :
    (bip38_raw_to_private_key toyEnv (some (List.set [1, 66, 192, 6, 233, 42, 233, 69, 117, 100,
        101, 61, 38, 204, 88, 137, 93, 100, 214, 166, 240, 74, 102, 182, 236, 36, 139, 209, 235,
        71, 26, 233, 91, 147, 135, 187, 107, 247, 219] 0 67)) 39 none 0 3072 none 32).1
      ≠ WALLY_OK ∧
    (bip38_raw_to_private_key toyEnv (some (List.set [1, 66, 192, 6, 233, 42, 233, 69, 117, 100,
        101, 61, 38, 204, 88, 137, 93, 100, 214, 166, 240, 74, 102, 182, 236, 36, 139, 209, 235,
        71, 26, 233, 91, 147, 135, 187, 107, 247, 219] 1 67)) 39 none 0 3072 none 32).1
      ≠ WALLY_OK ∧
    ((bip38_raw_to_private_key toyEnv (some (List.set [1, 66, 192, 6, 233, 42, 233, 69, 117, 100,
        101, 61, 38, 204, 88, 137, 93, 100, 214, 166, 240, 74, 102, 182, 236, 36, 139, 209, 235,
        71, 26, 233, 91, 147, 135, 187, 107, 247, 219] 2 67)) 39 none 0 3072 none 32).1
      ≠ WALLY_OK ↔ 67 &&& 31 ≠ 0) :=
  have h := quick_check_changed_header toyEnv (some (List.replicate 31 0 ++ [1])) 32
    (some [116, 101, 115, 116]) 4 2048 (some (List.replicate 39 0)) 39 _ none 0 3072 none 67
    (by decide) (by decide)
  ⟨h.1 (by decide), h.2.1 (by decide), h.2.2⟩

/-! ## Sizes and contents of an encrypted record -/

/-- Claim C8. Header of every encrypted record: after a successful
`bip38_raw_from_private_key`, in either swap order, output byte 0 is 0x01,
byte 1 is 0x42 and byte 2 is 0xE0 when the compressed option is set and 0xC0
otherwise; so bits 7 and 6 are set, bit 5 equals the compressed option, and
the lot bit and all reserved bits are zero. -/
theorem encrypted_record_header (E : Env) (bytes_in : Option (List Nat)) (len_in : Nat)
    (pass : Option (List Nat)) (pass_len flags : Nat) (bytes_out : Option (List Nat))
    (len : Nat) (r : List Nat)
    (henc : bip38_raw_from_private_key E bytes_in len_in pass pass_len flags bytes_out len
      = (WALLY_OK, some r)) :
    r.getD 0 0 = BIP38_PREFIX ∧ r.getD 1 0 = BIP38_NO_ECMUL ∧
    r.getD 2 0 = (if flags &&& E.BIP38_KEY_COMPRESSED ≠ 0 then 0xE0 else 0xC0) ∧
    r.getD 2 0 &&& 0x80 = 0x80 ∧ r.getD 2 0 &&& 0x40 = 0x40 ∧
    (r.getD 2 0 &&& BIP38_FLAG_COMPRESSED ≠ 0 ↔ flags &&& E.BIP38_KEY_COMPRESSED ≠ 0) ∧
    r.getD 2 0 &&& BIP38_FLAG_HAVE_LOT = 0 ∧ r.getD 2 0 &&& BIP38_FLAGS_RESERVED = 0 := by
  obtain ⟨-, h0, h1, h2⟩ :=
    raw_from_private_key_header E bytes_in len_in pass pass_len flags bytes_out len r henc
  rw [h0, h1, h2]
  by_cases hc : flags &&& E.BIP38_KEY_COMPRESSED ≠ 0
  · simp only [if_pos hc]
    refine ⟨by decide, by decide, by decide, by decide, by decide, ?_, by decide, by decide⟩
    exact ⟨fun _ => hc, fun _ => by decide⟩
  · simp only [if_neg hc]
    refine ⟨by decide, by decide, by decide, by decide, by decide, ?_, by decide, by decide⟩
    exact ⟨fun h => absurd (by decide) h, fun h => absurd h hc⟩

/-- The header of the compressed, swap-order record of the key `00..01`. -/
theorem encrypted_record_header_witness :
    ([1, 66, 224, 173, 8, 91, 50, 238, 51, 85, 19, 74, 85, 5, 90, 180, 45,
      218, 213, 204, 75, 21, 240, 235, 69, 53, 158, 69, 215, 94, 221, 184, 98, 83, 185, 243,
      180, 87, 238] : List Nat).getD 2 0 = (if 4352 &&& toyEnv.BIP38_KEY_COMPRESSED ≠ 0
        then 0xE0 else 0xC0) :=
  (encrypted_record_header toyEnv (some (List.replicate 31 0 ++ [1])) 32
    (some [116, 101, 115, 116]) 4 4352 (some (List.replicate 39 0)) 39 _ (by decide)).2.2.1


/-- A record with the EC-multiply type byte 0x43 under full decrypt. -/
theorem unsupported_record_rejected_witness :
    (bip38_raw_to_private_key toyEnv (some ([1, 67, 192] ++ List.replicate 36 5)) 39
      (some [116, 101, 115, 116]) 4 2048 (some (List.replicate 32 0)) 32).1 ≠ WALLY_OK :=
  unsupported_record_rejected toyEnv ([1, 67, 192] ++ List.replicate 36 5) 39
    (some [116, 101, 115, 116]) 4 2048 (some (List.replicate 32 0)) 32 (by decide)
    (Or.inl (by decide))

theorem from_private_key_hash_congr (E : Env) (key : List Nat) (len_in f1 f2 : Nat)
    (hc : f1 &&& E.BIP38_KEY_COMPRESSED ≠ 0 ↔ f2 &&& E.BIP38_KEY_COMPRESSED ≠ 0)
    (hr : f1 &&& E.BIP38_KEY_RAW_MODE ≠ 0 ↔ f2 &&& E.BIP38_KEY_RAW_MODE ≠ 0)
    (hn : f1 &&& 0xff = f2 &&& 0xff) :
    from_private_key_hash E key len_in f1 = from_private_key_hash E key len_in f2 := by
  have hd : decide (f1 &&& E.BIP38_KEY_COMPRESSED ≠ 0) = decide (f2 &&& E.BIP38_KEY_COMPRESSED ≠ 0) :=
    decide_eq_decide.mpr hc
  unfold from_private_key_hash
  rw [hd, hn]
  by_cases h : f1 &&& E.BIP38_KEY_RAW_MODE ≠ 0
  · rw [if_pos h, if_pos (hr.mp h)]
  · rw [if_neg h, if_neg (fun h2 => h (hr.mpr h2))]

theorem from_private_key_hash_value (E : Env) (key : List Nat) (flags hash : Nat)
    (hkey : key.length = 32)
    (hh : from_private_key_hash E key 32 flags = .ok hash) :
    hash = (if flags &&& E.BIP38_KEY_RAW_MODE ≠ 0 then E.base58_get_checksum key % 4294967296
      else E.base58_get_checksum (address_from_private_key E key 32 (flags &&& 0xff)
        (decide (flags &&& E.BIP38_KEY_COMPRESSED ≠ 0))).2 % 4294967296) := by
  have htk : List.take 32 key = key := List.take_of_length_le (le_of_eq hkey)
  unfold from_private_key_hash at hh
  by_cases hraw : flags &&& E.BIP38_KEY_RAW_MODE ≠ 0
  · rw [if_pos hraw, htk] at hh
    rw [if_pos hraw]
    cases hh
    rfl
  · rw [if_neg hraw] at hh
    rw [if_neg hraw]
    simp only [] at hh
    split at hh
    · cases hh
    · cases hh
      rfl

theorem layout_rotate (salt c1 c2 tail : List Nat) (p e f : Nat) (hs : salt.length = 4)
    (h1 : c1.length = 16) (h2 : c2.length = 16) :
    peek ([p, e, f] ++ salt ++ c1 ++ c2 ++ tail) 0 3 ++
      peek ([p, e, f] ++ salt ++ c1 ++ c2 ++ tail) 7 32 ++
      peek ([p, e, f] ++ salt ++ c1 ++ c2 ++ tail) 3 4 ++
      ([p, e, f] ++ salt ++ c1 ++ c2 ++ tail).drop 39
      = [p, e, f] ++ c1 ++ c2 ++ salt ++ tail ∧
    peek ([p, e, f] ++ salt ++ c1 ++ c2 ++ tail) 3 4 = salt ∧
    peek ([p, e, f] ++ salt ++ c1 ++ c2 ++ tail) 7 16 = c1 ∧
    peek ([p, e, f] ++ salt ++ c1 ++ c2 ++ tail) 23 16 = c2 := by
  obtain ⟨s0, s1, s2, s3, rfl⟩ := length_four salt hs
  obtain ⟨a0, a1, a2, a3, a4, a5, a6, a7, a8, a9, a10, a11, a12, a13, a14, a15, rfl⟩ :=
    length_sixteen c1 h1
  obtain ⟨b0, b1, b2, b3, b4, b5, b6, b7, b8, b9, b10, b11, b12, b13, b14, b15, rfl⟩ :=
    length_sixteen c2 h2
  refine ⟨?_, rfl, ?_, ?_⟩ <;> simp [peek]

/-- Claim C9. Salt and ciphertext of an encrypted record: after a successful
`bip38_raw_from_private_key` on a 32-byte key without swap order, output bytes
3..6 are the memory image of the 4-byte salt `s`, where `s` is the checksum of
the raw key in raw mode and the checksum of the address text derived from the
key, the network byte and the compressed option otherwise; and with `D` the 64
bytes of `wally_scrypt(pass, s, 16384, 8, 8)`, bytes 7..22 are
`AES256_encrypt(key = D[32..63], raw_key[0..15] XOR D[0..15])` and bytes
23..38 are `AES256_encrypt(key = D[32..63], raw_key[16..31] XOR D[16..31])`. -/
theorem encrypted_record_body (E : Env) (key : List Nat) (len_in : Nat)
    (pass : Option (List Nat)) (pass_len flags : Nat) (bytes_out : Option (List Nat))
    (len : Nat) (r : List Nat)
    (hkey : key.length = 32)
    (hsw : flags &&& E.BIP38_KEY_SWAP_ORDER = 0)
    (henc : bip38_raw_from_private_key E (some key) len_in pass pass_len flags bytes_out len
      = (WALLY_OK, some r)) :
    let s := if flags &&& E.BIP38_KEY_RAW_MODE ≠ 0 then E.base58_get_checksum key % 4294967296
      else E.base58_get_checksum (address_from_private_key E key 32 (flags &&& 0xff)
        (decide (flags &&& E.BIP38_KEY_COMPRESSED ≠ 0))).2 % 4294967296
    let D := (E.wally_scrypt pass pass_len (store32 E.big_endian s) 4 16384 8 8 64).2
    peek r 3 4 = store32 E.big_endian s ∧
    peek r 7 16 = E.AES256_encrypt (peek D 32 32) (xor_bytes (peek key 0 16) (peek D 0 16)) ∧
    peek r 23 16 = E.AES256_encrypt (peek D 32 32) (xor_bytes (peek key 16 16) (peek D 16 16)) := by
  obtain ⟨key2, out, hash, hk, -, -, -, hh, -, hres⟩ :=
    raw_from_private_key_ok E (some key) len_in pass pass_len flags bytes_out len _ henc
  cases hk
  have hv := from_private_key_hash_value E key flags hash hkey hh
  rw [← hv]
  have hr := Option.some.inj hres
  rw [if_neg (not_not.mpr hsw)] at hr
  have hsalt := store32_length E.big_endian hash
  obtain ⟨-, l1, l2, l3⟩ := layout_rotate (store32 E.big_endian hash)
    (aes_enc E key (peek (E.wally_scrypt pass pass_len (store32 E.big_endian hash) 4 16384 8 8
      64).2 0 16) (peek (E.wally_scrypt pass pass_len (store32 E.big_endian hash) 4 16384 8 8
      64).2 32 32))
    (aes_enc E (key.drop 16) (peek (E.wally_scrypt pass pass_len (store32 E.big_endian hash) 4
      16384 8 8 64).2 16 16) (peek (E.wally_scrypt pass pass_len (store32 E.big_endian hash) 4
      16384 8 8 64).2 32 32)) (out.drop 39) 1 66
    (192 ||| (if flags &&& E.BIP38_KEY_COMPRESSED ≠ 0 then 32 else 0))
    hsalt (aes_enc_length _ _ _ _) (aes_enc_length _ _ _ _)
  rw [← hr] at l1 l2 l3
  refine ⟨l1, ?_, ?_⟩
  · rw [l2]
    simp only [aes_enc, peek, List.take_take, min_self, List.drop_zero]
  · rw [l3]
    simp only [aes_enc, peek, List.take_take, min_self, List.drop_zero]


/-- The salt bytes of the raw-mode record of the key `00..01`. -/
theorem encrypted_record_body_witness :
    peek [1, 66, 192, 6, 233, 42, 233, 69, 117, 100, 101, 61, 38, 204, 88, 137,
      93, 100, 214, 166, 240, 74, 102, 182, 236, 36, 139, 209, 235, 71, 26, 233, 91, 147,
      135, 187, 107, 247, 219] 3 4
      = store32 toyEnv.big_endian
        (toyEnv.base58_get_checksum (List.replicate 31 0 ++ [1]) % 4294967296) :=
  (encrypted_record_body toyEnv (List.replicate 31 0 ++ [1]) 32 (some [116, 101, 115, 116]) 4
    2048 (some (List.replicate 39 0)) 39 _ (by decide) (by decide) (by decide)).1

/-- Claim C10. Swap-order layout: if encrypt succeeds without the swap-order
option and leaves `r` in the output buffer, then encrypt with the swap-order
option and all else equal (same key, passphrase, compressed option, mode and
network byte, same output buffer) succeeds and leaves
`r[0..2] ++ r[7..38] ++ r[3..6]` in the first 39 bytes: the three header bytes
stay in place, the two 16-byte ciphertext halves start at offset 3 and the
4-byte salt occupies the last four bytes. Bytes of the output buffer beyond
the record are the same in both. -/
theorem swap_order_layout (E : Env) (bytes_in : Option (List Nat)) (len_in : Nat)
    (pass : Option (List Nat)) (pass_len f1 f2 : Nat) (bytes_out : Option (List Nat))
    (len : Nat) (r : List Nat)
    (h1 : f1 &&& E.BIP38_KEY_SWAP_ORDER = 0) (h2 : f2 &&& E.BIP38_KEY_SWAP_ORDER ≠ 0)
    (hc : f1 &&& E.BIP38_KEY_COMPRESSED ≠ 0 ↔ f2 &&& E.BIP38_KEY_COMPRESSED ≠ 0)
    (hr : f1 &&& E.BIP38_KEY_RAW_MODE ≠ 0 ↔ f2 &&& E.BIP38_KEY_RAW_MODE ≠ 0)
    (hn : f1 &&& 0xff = f2 &&& 0xff)
    (henc : bip38_raw_from_private_key E bytes_in len_in pass pass_len f1 bytes_out len
      = (WALLY_OK, some r)) :
    bip38_raw_from_private_key E bytes_in len_in pass pass_len f2 bytes_out len
      = (WALLY_OK, some (peek r 0 3 ++ peek r 7 32 ++ peek r 3 4 ++ r.drop 39)) := by
  obtain ⟨key, out, hash, rfl, rfl, rfl, rfl, hh, hs, hres⟩ :=
    raw_from_private_key_ok E bytes_in len_in pass pass_len f1 bytes_out len _ henc
  have hrec := Option.some.inj hres
  rw [if_neg (not_not.mpr h1)] at hrec
  have hf : (if f1 &&& E.BIP38_KEY_COMPRESSED ≠ 0 then 32 else 0) =
      (if f2 &&& E.BIP38_KEY_COMPRESSED ≠ 0 then 32 else 0) := by
    by_cases h : f1 &&& E.BIP38_KEY_COMPRESSED ≠ 0
    · rw [if_pos h, if_pos (hc.mp h)]
    · rw [if_neg h, if_neg (fun h' => h (hc.mpr h'))]
  rw [raw_from_private_key_eq, ← from_private_key_hash_congr E key 32 f1 f2 hc hr hn, hh]
  simp only []
  rw [if_neg (not_not.mpr hs), if_pos h2, ← hf]
  have hsalt := store32_length E.big_endian hash
  obtain ⟨l0, -, -, -⟩ := layout_rotate (store32 E.big_endian hash)
    (aes_enc E key (peek (E.wally_scrypt pass pass_len (store32 E.big_endian hash) 4 16384 8 8
      64).2 0 16) (peek (E.wally_scrypt pass pass_len (store32 E.big_endian hash) 4 16384 8 8
      64).2 32 32))
    (aes_enc E (key.drop 16) (peek (E.wally_scrypt pass pass_len (store32 E.big_endian hash) 4
      16384 8 8 64).2 16 16) (peek (E.wally_scrypt pass pass_len (store32 E.big_endian hash) 4
      16384 8 8 64).2 32 32)) (out.drop 39) 1 66
    (192 ||| (if f1 &&& E.BIP38_KEY_COMPRESSED ≠ 0 then 32 else 0))
    hsalt (aes_enc_length _ _ _ _) (aes_enc_length _ _ _ _)
  rw [← hrec] at l0
  rw [l0]

/-- The compressed address-mode record of the key `00..01` without and with
swap order. -/
theorem swap_order_layout_witness :
    bip38_raw_from_private_key toyEnv (some (List.replicate 31 0 ++ [1])) 32
        (some [116, 101, 115, 116]) 4 4352 (some (List.replicate 39 0)) 39
      = (WALLY_OK, some (peek [1, 66, 224, 243, 180, 87, 238, 173, 8, 91, 50, 238, 51, 85, 19,
          74, 85, 5, 90, 180, 45, 218, 213, 204, 75, 21, 240, 235, 69, 53, 158, 69, 215, 94, 221,
          184, 98, 83, 185] 0 3 ++
        peek [1, 66, 224, 243, 180, 87, 238, 173, 8, 91, 50, 238, 51, 85, 19,
          74, 85, 5, 90, 180, 45, 218, 213, 204, 75, 21, 240, 235, 69, 53, 158, 69, 215, 94, 221,
          184, 98, 83, 185] 7 32 ++
        peek [1, 66, 224, 243, 180, 87, 238, 173, 8, 91, 50, 238, 51, 85, 19,
          74, 85, 5, 90, 180, 45, 218, 213, 204, 75, 21, 240, 235, 69, 53, 158, 69, 215, 94, 221,
          184, 98, 83, 185] 3 4 ++
        List.drop 39 [1, 66, 224, 243, 180, 87, 238, 173, 8, 91, 50, 238, 51, 85, 19,
          74, 85, 5, 90, 180, 45, 218, 213, 204, 75, 21, 240, 235, 69, 53, 158, 69, 215, 94, 221,
          184, 98, 83, 185])) :=
  swap_order_layout toyEnv (some (List.replicate 31 0 ++ [1])) 32
    (some [116, 101, 115, 116]) 4 256 4352 (some (List.replicate 39 0)) 39 _
    (by decide) (by decide) (by decide) (by decide) (by decide) (by decide)


/-! ## Error results of full decrypt -/

/-- Counterexample to claim C7 as stated. A 38-byte record, a 39-byte record
with the wrong prefix byte, and a well-formed record decrypted under the wrong
passphrase all make full decrypt return one and the same value. -/
theorem decrypt_errors_coincide :
    (bip38_raw_to_private_key toyEnv (some (List.replicate 38 0)) 38
      (some [116, 101, 115, 116]) 4 2048 (some (List.replicate 32 0)) 32).1
      = toyEnv.WALLY_EINVAL ∧
    (bip38_raw_to_private_key toyEnv (some ([2, 66, 192] ++ List.replicate 36 5)) 39
      (some [116, 101, 115, 116]) 4 2048 (some (List.replicate 32 0)) 32).1
      = toyEnv.WALLY_EINVAL ∧
    (bip38_raw_to_private_key toyEnv (some [1, 66, 192, 6, 233, 42, 233, 69, 117, 100, 101, 61,
        38, 204, 88, 137, 93, 100, 214, 166, 240, 74, 102, 182, 236, 36, 139, 209, 235, 71,
        26, 233, 91, 147, 135, 187, 107, 247, 219]) 39
      (some [84, 101, 115, 116]) 4 2048 (some (List.replicate 32 0)) 32).1
      = toyEnv.WALLY_EINVAL := by
  decide

/-- Claim C7, as the code has it. Full decrypt of a binary record (output
length 32, output buffer present, no quick check) reports each of the three
failures with the same result `WALLY_EINVAL`: a record whose declared length
is not 39; a 39-byte record that fails the header checks (prefix, ec_type,
reserved bits, lot bit); and a record that passes them, for which scrypt
succeeds, and whose recomputed salt (raw mode: checksum of the candidate key;
address mode: checksum of the address derived from it) differs from the stored
salt. -/
theorem decrypt_errors_share_code (E : Env) (r out : List Nat) (len_in : Nat)
    (pass : Option (List Nat)) (pass_len flags : Nat)
    (hq : flags &&& E.BIP38_KEY_QUICK_CHECK = 0) :
    (len_in ≠ 39 →
      bip38_raw_to_private_key E (some r) len_in pass pass_len flags (some out) 32
        = (E.WALLY_EINVAL, some out)) ∧
    (r.length = 39 →
      (r.getD 0 0 ≠ BIP38_PREFIX ∨ r.getD 1 0 ≠ BIP38_NO_ECMUL ∨
        r.getD 2 0 &&& BIP38_FLAGS_RESERVED ≠ 0 ∨ r.getD 2 0 &&& BIP38_FLAG_HAVE_LOT ≠ 0) →
      bip38_raw_to_private_key E (some r) 39 pass pass_len flags (some out) 32
        = (E.WALLY_EINVAL, some out)) ∧
    (r.length = 39 →
      ¬(r.getD 0 0 ≠ BIP38_PREFIX ∨ r.getD 1 0 ≠ BIP38_NO_ECMUL ∨
        r.getD 2 0 &&& BIP38_FLAGS_RESERVED ≠ 0 ∨ r.getD 2 0 &&& BIP38_FLAG_HAVE_LOT ≠ 0) →
      let salt := if flags &&& E.BIP38_KEY_SWAP_ORDER ≠ 0 then peek r 35 4 else peek r 3 4
      let c1 := if flags &&& E.BIP38_KEY_SWAP_ORDER ≠ 0 then peek r 3 16 else peek r 7 16
      let c2 := if flags &&& E.BIP38_KEY_SWAP_ORDER ≠ 0 then peek r 19 16 else peek r 23 16
      let s := E.wally_scrypt pass pass_len salt 4 16384 8 8 64
      let k := aes_dec E c1 (peek s.2 0 16) (peek s.2 32 32) ++
        aes_dec E c2 (peek s.2 16 16) (peek s.2 32 32)
      let a := address_from_private_key E (k ++ out.drop 32) 32 (flags &&& 0xff)
        (decide (r.getD 2 0 &&& BIP38_FLAG_COMPRESSED ≠ 0))
      s.1 = 0 →
      (if flags &&& E.BIP38_KEY_RAW_MODE ≠ 0
        then load32 E.big_endian salt ≠ E.base58_get_checksum k % 4294967296
        else a.1 = 0 ∧ load32 E.big_endian salt ≠ E.base58_get_checksum a.2 % 4294967296) →
      bip38_raw_to_private_key E (some r) 39 pass pass_len flags (some out) 32
        = (E.WALLY_EINVAL, some (k ++ out.drop 32))) := by
  have hsome : ¬(flags &&& E.BIP38_KEY_QUICK_CHECK = 0 ∧ (some out : Option (List Nat)) = none) :=
    fun h => Option.noConfusion h.2
  refine ⟨?_, ?_, ?_⟩
  · intro hlen
    simp only [bip38_raw_to_private_key, to_private_key, to_private_key_load]
    rw [if_neg (by simp), if_neg hsome, if_pos hlen]
  · intro hr hbad
    unfold bip38_raw_to_private_key
    rw [to_private_key_record E none r pass pass_len flags (some out) hr]
    simp only []
    rw [if_neg hsome, if_pos (by
      rcases hbad with h | h | h | h
      · exact Or.inl h
      · exact Or.inr (Or.inr (Or.inl h))
      · exact Or.inr (Or.inl h)
      · exact Or.inr (Or.inr (Or.inr h)))]
  · intro hr hgood salt c1 c2 s k a hs hmis
    unfold bip38_raw_to_private_key
    rw [to_private_key_record E none r pass pass_len flags (some out) hr]
    simp only []
    rw [if_neg hsome, if_neg (by
      intro hbad
      apply hgood
      rcases hbad with h | h | h | h
      · exact Or.inl h
      · exact Or.inr (Or.inr (Or.inl h))
      · exact Or.inr (Or.inl h)
      · exact Or.inr (Or.inr (Or.inr h))), if_neg (not_not.mpr hq), if_neg (not_not.mpr hs)]
    by_cases hraw : flags &&& E.BIP38_KEY_RAW_MODE ≠ 0
    · rw [if_pos hraw] at hmis
      rw [if_pos hraw, if_pos hmis]
    · rw [if_neg hraw] at hmis
      rw [if_neg hraw, if_pos hmis]

/-- The three failures of the counterexample, each returning `WALLY_EINVAL`. -/
theorem decrypt_errors_share_code_witness :
    bip38_raw_to_private_key toyEnv (some (List.replicate 38 0)) 38
        (some [116, 101, 115, 116]) 4 2048 (some (List.replicate 32 0)) 32
      = (toyEnv.WALLY_EINVAL, some (List.replicate 32 0)) ∧
    bip38_raw_to_private_key toyEnv (some ([2, 66, 192] ++ List.replicate 36 5)) 39
        (some [116, 101, 115, 116]) 4 2048 (some (List.replicate 32 0)) 32
      = (toyEnv.WALLY_EINVAL, some (List.replicate 32 0)) ∧
    (bip38_raw_to_private_key toyEnv (some [1, 66, 192, 6, 233, 42, 233, 69, 117, 100, 101, 61,
        38, 204, 88, 137, 93, 100, 214, 166, 240, 74, 102, 182, 236, 36, 139, 209, 235, 71,
        26, 233, 91, 147, 135, 187, 107, 247, 219]) 39
      (some [84, 101, 115, 116]) 4 2048 (some (List.replicate 32 0)) 32).1
      = toyEnv.WALLY_EINVAL :=
  ⟨(decrypt_errors_share_code toyEnv (List.replicate 38 0) (List.replicate 32 0) 38
      (some [116, 101, 115, 116]) 4 2048 (by decide)).1 (by decide),
   (decrypt_errors_share_code toyEnv ([2, 66, 192] ++ List.replicate 36 5)
      (List.replicate 32 0) 39 (some [116, 101, 115, 116]) 4 2048 (by decide)).2.1
      (by decide) (Or.inl (by decide)),
   congrArg Prod.fst ((decrypt_errors_share_code toyEnv [1, 66, 192, 6, 233, 42, 233, 69, 117,
      100, 101, 61, 38, 204, 88, 137, 93, 100, 214, 166, 240, 74, 102, 182, 236, 36, 139, 209,
      235, 71, 26, 233, 91, 147, 135, 187, 107, 247, 219]
      (List.replicate 32 0) 39 (some [84, 101, 115, 116]) 4 2048 (by decide)).2.2
      (by decide) (by decide) (by decide) (by decide))⟩


theorem layout_unswap_tail (salt c1 c2 z : List Nat) (p e f pad : Nat) (hs : salt.length = 4)
    (h1 : c1.length = 16) (h2 : c2.length = 16) :
    poke (poke (pad :: ([p, e, f] ++ c1 ++ c2 ++ salt) ++ z) OFF_HALF1
        (peek (pad :: ([p, e, f] ++ c1 ++ c2 ++ salt) ++ z) OFF_HASH
          (AES256_BLOCK_LEN * 2)))
      OFF_HASH
      (peek (pad :: ([p, e, f] ++ c1 ++ c2 ++ salt) ++ z) (OFF_DECODE_HASH - 4) 4)
      = pad :: ([p, e, f] ++ salt ++ c1 ++ c2) ++ z := by
  obtain ⟨s0, s1, s2, s3, rfl⟩ := length_four salt hs
  obtain ⟨a0, a1, a2, a3, a4, a5, a6, a7, a8, a9, a10, a11, a12, a13, a14, a15, rfl⟩ :=
    length_sixteen c1 h1
  obtain ⟨b0, b1, b2, b3, b4, b5, b6, b7, b8, b9, b10, b11, b12, b13, b14, b15, rfl⟩ :=
    length_sixteen c2 h2
  rfl

theorem layout_swap_tail (salt c1 c2 z : List Nat) (p e f pad : Nat) (hs : salt.length = 4)
    (h1 : c1.length = 16) (h2 : c2.length = 16) :
    poke (poke (pad :: ([p, e, f] ++ salt ++ c1 ++ c2) ++ z) OFF_HASH
        (peek (pad :: ([p, e, f] ++ salt ++ c1 ++ c2) ++ z) OFF_HALF1
          (AES256_BLOCK_LEN * 2)))
      (OFF_DECODE_HASH - 4)
      (peek (pad :: ([p, e, f] ++ salt ++ c1 ++ c2) ++ z) OFF_HASH 4)
      = pad :: ([p, e, f] ++ c1 ++ c2 ++ salt) ++ z := by
  obtain ⟨s0, s1, s2, s3, rfl⟩ := length_four salt hs
  obtain ⟨a0, a1, a2, a3, a4, a5, a6, a7, a8, a9, a10, a11, a12, a13, a14, a15, rfl⟩ :=
    length_sixteen c1 h1
  obtain ⟨b0, b1, b2, b3, b4, b5, b6, b7, b8, b9, b10, b11, b12, b13, b14, b15, rfl⟩ :=
    length_sixteen c2 h2
  rfl


/-! ## The text path -/

theorem poke_fresh (data : List Nat) :
    poke (List.replicate SIZEOF_LAYOUT 0) OFF_PREFIX data =
      0 :: data ++ List.drop (1 + data.length) (List.replicate SIZEOF_LAYOUT 0) := by
  simp [poke]

theorem unswap_record (E : Env) (flags : Nat) (rec z : List Nat) (hrec : rec.length = 39) :
    to_private_key_unswap E flags (0 :: rec ++ z) =
      0 :: ([rec.getD 0 0, rec.getD 1 0, rec.getD 2 0] ++
        (if flags &&& E.BIP38_KEY_SWAP_ORDER ≠ 0 then peek rec 35 4 else peek rec 3 4) ++
        (if flags &&& E.BIP38_KEY_SWAP_ORDER ≠ 0 then peek rec 3 16 else peek rec 7 16) ++
        (if flags &&& E.BIP38_KEY_SWAP_ORDER ≠ 0 then peek rec 19 16 else peek rec 23 16)) ++ z := by
  obtain ⟨l1, l2, l3, l4, l5, l6⟩ := record_fields_length rec hrec
  have hf := record_fields rec hrec (flags &&& E.BIP38_KEY_SWAP_ORDER ≠ 0)
  rw [List.take_of_length_le (le_of_eq hrec)] at hf
  unfold to_private_key_unswap
  by_cases hw : flags &&& E.BIP38_KEY_SWAP_ORDER ≠ 0
  · rw [if_pos hw] at hf
    simp only [if_pos hw]
    nth_rewrite 1 2 3 [hf]
    exact layout_unswap_tail _ _ _ _ _ _ _ _ l6 l4 l5
  · rw [if_neg hw] at hf
    simp only [if_neg hw]
    nth_rewrite 1 [hf]
    rfl

/-- The result of `to_private_key` depends on the loaded buffer only through
the 39 record bytes: the pad byte position and `decode_hash` are never read. -/
theorem to_private_key_same_record (E : Env) (b1 b2 i1 i2 : Option (List Nat)) (n1 n2 : Nat)
    (rec z1 z2 : List Nat) (pass : Option (List Nat)) (pass_len flags : Nat)
    (bytes_out : Option (List Nat)) (len : Nat) (hrec : rec.length = 39)
    (hl1 : to_private_key_load E b1 i1 n1 = .ok (0 :: rec ++ z1))
    (hl2 : to_private_key_load E b2 i2 n2 = .ok (0 :: rec ++ z2)) :
    to_private_key E b1 i1 n1 pass pass_len flags bytes_out len =
      to_private_key E b2 i2 n2 pass pass_len flags bytes_out len := by
  obtain ⟨l1, l2, l3, l4, l5, l6⟩ := record_fields_length rec hrec
  have hs : (if flags &&& E.BIP38_KEY_SWAP_ORDER ≠ 0 then peek rec 35 4 else peek rec 3 4).length
      = 4 := by split <;> assumption
  have h1 : (if flags &&& E.BIP38_KEY_SWAP_ORDER ≠ 0 then peek rec 3 16 else peek rec 7 16).length
      = 16 := by split <;> assumption
  have h2 : (if flags &&& E.BIP38_KEY_SWAP_ORDER ≠ 0 then peek rec 19 16
      else peek rec 23 16).length = 16 := by split <;> assumption
  simp only [to_private_key, to_private_key_decrypt, hl1, hl2,
    unswap_record E flags rec _ hrec]
  obtain ⟨a1, a2, a3, -⟩ := layout_fields _ _ _ z1 (rec.getD 0 0) (rec.getD 1 0) (rec.getD 2 0)
    hs h1 h2
  obtain ⟨b1, b2, b3, -⟩ := layout_fields _ _ _ z2 (rec.getD 0 0) (rec.getD 1 0) (rec.getD 2 0)
    hs h1 h2
  obtain ⟨a4, a5⟩ := layout_header (rec.getD 0 0) (rec.getD 1 0) (rec.getD 2 0)
    (if flags &&& E.BIP38_KEY_SWAP_ORDER ≠ 0 then peek rec 35 4 else peek rec 3 4)
    (if flags &&& E.BIP38_KEY_SWAP_ORDER ≠ 0 then peek rec 3 16 else peek rec 7 16)
    (if flags &&& E.BIP38_KEY_SWAP_ORDER ≠ 0 then peek rec 19 16 else peek rec 23 16) z1
  obtain ⟨b4, b5⟩ := layout_header (rec.getD 0 0) (rec.getD 1 0) (rec.getD 2 0)
    (if flags &&& E.BIP38_KEY_SWAP_ORDER ≠ 0 then peek rec 35 4 else peek rec 3 4)
    (if flags &&& E.BIP38_KEY_SWAP_ORDER ≠ 0 then peek rec 3 16 else peek rec 7 16)
    (if flags &&& E.BIP38_KEY_SWAP_ORDER ≠ 0 then peek rec 19 16 else peek rec 23 16) z2
  rw [a1, a2, a3, a4, a5, b1, b2, b3, b4, b5]

/-- Decrypting a text whose Base58Check decoding yields 39 payload bytes is
decrypting those 39 bytes as a binary record. -/
theorem to_private_key_text (E : Env) (bip38 : Option (List Nat)) (data : List Nat)
    (pass : Option (List Nat)) (pass_len flags len_in : Nat) (bytes_out : Option (List Nat))
    (len : Nat)
    (hd : E.base58_to_bytes bip38 E.BASE58_FLAG_CHECKSUM 43 = (0, data, 39))
    (hlen : 39 ≤ data.length) :
    to_private_key E bip38 none len_in pass pass_len flags bytes_out len =
      to_private_key E none (some (data.take 39)) 39 pass pass_len flags bytes_out len := by
  have hsplit : data = data.take 39 ++ data.drop 39 := (List.take_append_drop 39 data).symm
  have hrec : (data.take 39).length = 39 := by simp [hlen]
  refine to_private_key_same_record E bip38 none none (some (data.take 39)) len_in 39
    (data.take 39) (data.drop 39 ++ List.drop (1 + data.length) (List.replicate SIZEOF_LAYOUT 0))
    (List.drop 40 (List.replicate SIZEOF_LAYOUT 0)) pass pass_len flags bytes_out len hrec ?_ ?_
  · have hd2 : E.base58_to_bytes bip38 E.BASE58_FLAG_CHECKSUM
        (BIP38_SERIALISED_LEN + BASE58_CHECKSUM_LEN) = (0, data, 39) := hd
    simp only [to_private_key_load, hd2]
    rw [if_neg (by simp), if_neg (by simp), poke_fresh]
    simp only [List.cons_append, List.append_assoc]
    rw [← List.append_assoc (List.take 39 data), List.take_append_drop]
  · simp only [to_private_key_load]
    rw [if_neg (by simp), poke_fresh]
    simp only [BIP38_SERIALISED_LEN, List.take_take, min_self, hrec, List.cons_append]


/-! ## Round trip through the text form -/

/-- Decrypting an encrypted record under a passphrase that derives the same
scrypt output as the encrypting one returns the key. -/
theorem round_trip_derived (E : Env) (key out r out2 : List Nat) (pass pass2 : Option (List Nat))
    (pass_len pass_len2 flags len_in len : Nat)
    (haes : ∀ k blk, blk.length = 16 → E.AES256_decrypt k (E.AES256_encrypt k blk) = blk)
    (hkey : key.length = len_in)
    (hq : flags &&& E.BIP38_KEY_QUICK_CHECK = 0)
    (henc : bip38_raw_from_private_key E (some key) len_in pass pass_len flags (some out) len
      = (WALLY_OK, some r))
    (hsame : ∀ hash, from_private_key_hash E key 32 flags = .ok hash →
      E.wally_scrypt pass2 pass_len2 (store32 E.big_endian hash) 4 16384 8 8 64 =
        E.wally_scrypt pass pass_len (store32 E.big_endian hash) 4 16384 8 8 64) :
    to_private_key E none (some r) 39 pass2 pass_len2 flags (some out2) 32
      = (WALLY_OK, some (key ++ out2.drop 32)) := by
  have hlen : len_in = 32 ∧ len = 39 := by
    by_contra hc
    have hc2 : len_in ≠ BITCOIN_PRIVATE_KEY_LEN ∨ len ≠ BIP38_SERIALISED_LEN := by
      simp only [BITCOIN_PRIVATE_KEY_LEN, BIP38_SERIALISED_LEN]; omega
    simp only [bip38_raw_from_private_key, if_pos hc2] at henc
    exact E.WALLY_EINVAL_ne_OK (Prod.mk.inj henc).1
  obtain ⟨rfl, rfl⟩ := hlen
  rw [raw_from_private_key_eq] at henc
  have hsome : (some out2 : Option (List Nat)) ≠ none := by simp
  have htake : ∀ a b c : List Nat, a.length = 39 → r = a ++ b → c = a → List.take 39 r = c := by
    intro a b c ha hr hc
    rw [hr, hc, List.take_append_of_le_length (le_of_eq ha.symm),
      List.take_of_length_le (le_of_eq ha)]
  cases hh : from_private_key_hash E key 32 flags with
  | error e =>
    rw [hh] at henc
    exact absurd (Prod.mk.inj henc).1 (from_private_key_hash_error E key 32 flags e hh)
  | ok hash =>
    rw [hh] at henc
    simp only [] at henc
    generalize hsd : E.wally_scrypt pass pass_len (store32 E.big_endian hash) 4 16384 8 8 64 = s
      at henc
    have hsl : s.2.length = 64 := by rw [← hsd]; exact E.wally_scrypt_len _ _ _ _ _ _ _ _
    by_cases hs : s.1 = 0
    · rw [if_neg (by simpa using hs)] at henc
      have hr := (Option.some.inj (Prod.mk.inj henc).2).symm
      have hc1 := aes_enc_length E key (peek s.2 0 16) (peek s.2 32 32)
      have hc2 := aes_enc_length E (key.drop 16) (peek s.2 16 16) (peek s.2 32 32)
      have hsalt := store32_length E.big_endian hash
      have hsd2 := hsame hash hh
      rw [hsd] at hsd2
      rw [to_private_key_eq E none r (store32 E.big_endian hash)
        (aes_enc E key (peek s.2 0 16) (peek s.2 32 32))
        (aes_enc E (key.drop 16) (peek s.2 16 16) (peek s.2 32 32)) 1 66
        (192 ||| (if flags &&& E.BIP38_KEY_COMPRESSED ≠ 0 then 32 else 0))
        pass2 pass_len2 flags (some out2) hsalt hc1 hc2
        (htake _ _ _ (by split <;> simp [hsalt, hc1, hc2]) hr rfl)]
      have hp0 : (peek s.2 0 16).length = 16 := peek_length _ _ _ (by omega)
      have hp1 : (peek s.2 16 16).length = 16 := peek_length _ _ _ (by omega)
      have hk : aes_dec E (aes_enc E key (peek s.2 0 16) (peek s.2 32 32)) (peek s.2 0 16)
            (peek s.2 32 32) ++
          aes_dec E (aes_enc E (key.drop 16) (peek s.2 16 16) (peek s.2 32 32)) (peek s.2 16 16)
            (peek s.2 32 32) = key := by
        rw [aes_dec_aes_enc E _ _ _ haes (by omega) hp0,
          aes_dec_aes_enc E _ _ _ haes (by simp; omega) hp1]
        have : List.take 16 (List.drop 16 key) = List.drop 16 key :=
          List.take_of_length_le (by simp; omega)
        rw [this, List.take_append_drop]
      obtain ⟨hb1, hb2, hb3⟩ := flags_byte_bits (flags &&& E.BIP38_KEY_COMPRESSED ≠ 0)
      simp only [hsd2, hk, hs, hq, hb1, hb2, hsome, ne_eq, not_true_eq_false, and_false, or_self,
        if_false, load32_store32 _ _ (from_private_key_hash_lt E key 32 flags hash hh)]
      rw [address_from_private_key_take E key _ 32 _ _ hkey]
      have hdec : decide (¬(192 ||| if ¬flags &&& E.BIP38_KEY_COMPRESSED = 0 then 32 else 0)
          &&& 32 = 0) = decide (flags &&& E.BIP38_KEY_COMPRESSED ≠ 0) :=
        decide_eq_decide.mpr hb3
      rw [hdec]
      have htk : List.take 32 key = key := List.take_of_length_le (le_of_eq hkey)
      unfold from_private_key_hash at hh
      by_cases hraw : flags &&& E.BIP38_KEY_RAW_MODE = 0
      · rw [if_neg (not_not.mpr hraw)] at hh
        rw [if_neg (not_not.mpr hraw)]
        simp only [] at hh
        split at hh
        · cases hh
        · rename_i ha
          cases hh
          rw [if_neg (by simp), not_not.mp ha]
      · rw [if_pos hraw, htk] at hh
        cases hh
        rw [if_pos hraw, if_neg (by simp)]
    · rw [if_pos hs] at henc
      exact absurd (Prod.mk.inj henc).1 hs


theorem toy_base58_inverse (bs t : List Nat) (hbs : bs.length = 39)
    (h : toyEnv.base58_from_bytes bs toyEnv.BASE58_FLAG_CHECKSUM = (0, t)) :
    ∃ data, toyEnv.base58_to_bytes (some t) toyEnv.BASE58_FLAG_CHECKSUM 43 = (0, data, 39) ∧
      data.take 39 = bs := by
  have ht : t = bs ++ store32 false (toy_checksum bs) := by
    have h2 : toy_base58_from_bytes bs 1 = (0, t) := h
    simp only [toy_base58_from_bytes] at h2
    rw [if_pos (by decide)] at h2
    exact (Prod.mk.inj h2).2.symm
  have hl : t.length = 43 := by rw [ht]; simp [hbs, store32_length]
  have htk : t.take 39 = bs := by
    rw [ht, List.take_append_of_le_length (le_of_eq hbs.symm),
      List.take_of_length_le (le_of_eq hbs)]
  have hdr : t.drop 39 = store32 false (toy_checksum bs) := by
    rw [ht, List.drop_append_of_le_length (le_of_eq hbs.symm),
      List.drop_of_length_le (le_of_eq hbs)]
    rfl
  refine ⟨t, ?_, htk⟩
  show toy_base58_to_bytes (some t) 1 43 = (0, t, 39)
  simp only [toy_base58_to_bytes, hl]
  rw [if_neg (by decide), if_pos (by decide), if_neg (by decide)]
  simp only [show 43 - 4 = 39 from rfl, htk, hdr]
  rw [if_neg (by simp)]

/-- Claim C11. Text round trip: if `bip38_from_private_key` succeeds on a
32-byte key with text `t`, then `t` is the Base58Check encoding of exactly the
39-byte record that `bip38_raw_from_private_key` produces for the same inputs
(into any 39-byte output buffer), and `bip38_to_private_key` on `t` with the
same passphrase and the same options (no quick check, output length 32)
succeeds and writes the 32 key bytes at the start of its output buffer.
Assumed: Base58Check decoding inverts Base58Check encoding of a 39-byte payload
and reports the payload length 39, and AES-256 block decryption inverts
encryption. -/
theorem text_round_trip (E : Env) (key out2 t : List Nat) (pass : Option (List Nat))
    (pass_len flags len_in : Nat)
    (haes : ∀ k blk, blk.length = 16 → E.AES256_decrypt k (E.AES256_encrypt k blk) = blk)
    (hb58 : ∀ bs t, bs.length = 39 → E.base58_from_bytes bs E.BASE58_FLAG_CHECKSUM = (0, t) →
      ∃ data, E.base58_to_bytes (some t) E.BASE58_FLAG_CHECKSUM 43 = (0, data, 39) ∧
        data.take 39 = bs)
    (hkey : key.length = len_in)
    (hq : flags &&& E.BIP38_KEY_QUICK_CHECK = 0)
    (henc : bip38_from_private_key E (some key) len_in pass pass_len flags true
      = (WALLY_OK, some t)) :
    (∃ r, r.length = 39 ∧
      (∀ out : List Nat, out.length = 39 →
        bip38_raw_from_private_key E (some key) len_in pass pass_len flags (some out) 39
          = (WALLY_OK, some r)) ∧
      E.base58_from_bytes r E.BASE58_FLAG_CHECKSUM = (WALLY_OK, t)) ∧
    bip38_to_private_key E (some t) pass pass_len flags (some out2) 32
      = (WALLY_OK, some (key ++ out2.drop 32)) := by
  simp only [bip38_from_private_key, Bool.not_true, Bool.false_eq_true, if_false] at henc
  by_cases hr1 : (bip38_raw_from_private_key E (some key) len_in pass pass_len flags
      (some (List.replicate BIP38_SERIALISED_LEN 0)) BIP38_SERIALISED_LEN).1 = 0
  · rw [if_pos hr1] at henc
    have hraw : bip38_raw_from_private_key E (some key) len_in pass pass_len flags
        (some (List.replicate BIP38_SERIALISED_LEN 0)) BIP38_SERIALISED_LEN =
        (WALLY_OK, (bip38_raw_from_private_key E (some key) len_in pass pass_len flags
          (some (List.replicate BIP38_SERIALISED_LEN 0)) BIP38_SERIALISED_LEN).2) :=
      Prod.ext hr1 rfl
    obtain ⟨key2, out, hash, hk, ho, hli, -, hh, hs, hres⟩ :=
      raw_from_private_key_ok E _ _ _ _ _ _ _ _ hraw
    cases hk
    cases ho
    subst hli
    have hsalt := store32_length E.big_endian hash
    generalize hrec : (if flags &&& E.BIP38_KEY_SWAP_ORDER ≠ 0
        then [1, 66, 192 ||| (if flags &&& E.BIP38_KEY_COMPRESSED ≠ 0 then 32 else 0)] ++
          aes_enc E key
            (peek (E.wally_scrypt pass pass_len (store32 E.big_endian hash) 4 16384 8 8 64).2 0 16)
            (peek (E.wally_scrypt pass pass_len (store32 E.big_endian hash) 4 16384 8 8 64).2 32
              32) ++
          aes_enc E (key.drop 16)
            (peek (E.wally_scrypt pass pass_len (store32 E.big_endian hash) 4 16384 8 8 64).2 16
              16)
            (peek (E.wally_scrypt pass pass_len (store32 E.big_endian hash) 4 16384 8 8 64).2 32
              32) ++
          store32 E.big_endian hash
        else [1, 66, 192 ||| (if flags &&& E.BIP38_KEY_COMPRESSED ≠ 0 then 32 else 0)] ++
          store32 E.big_endian hash ++
          aes_enc E key
            (peek (E.wally_scrypt pass pass_len (store32 E.big_endian hash) 4 16384 8 8 64).2 0 16)
            (peek (E.wally_scrypt pass pass_len (store32 E.big_endian hash) 4 16384 8 8 64).2 32
              32) ++
          aes_enc E (key.drop 16)
            (peek (E.wally_scrypt pass pass_len (store32 E.big_endian hash) 4 16384 8 8 64).2 16
              16)
            (peek (E.wally_scrypt pass pass_len (store32 E.big_endian hash) 4 16384 8 8 64).2 32
              32)) = rec at hres
    have hrl : rec.length = 39 := by
      rw [← hrec]; split <;> simp [hsalt, aes_enc_length]
    have hall : ∀ out : List Nat, out.length = 39 →
        bip38_raw_from_private_key E (some key) 32 pass pass_len flags (some out) 39
          = (WALLY_OK, some rec) := by
      intro out hout
      rw [raw_from_private_key_eq, hh]
      simp only []
      rw [if_neg (not_not.mpr hs), hrec, List.drop_of_length_le (le_of_eq hout),
        List.append_nil]
    have hres2 : (bip38_raw_from_private_key E (some key) 32 pass pass_len flags
        (some (List.replicate BIP38_SERIALISED_LEN 0)) BIP38_SERIALISED_LEN).2 = some rec := by
      rw [hall _ (by simp)]
    rw [hres2] at henc
    simp only [Option.getD_some, List.take_of_length_le (le_of_eq hrl)] at henc
    have ht1 : (E.base58_from_bytes rec E.BASE58_FLAG_CHECKSUM).1 = 0 := (Prod.mk.inj henc).1
    rw [if_pos ht1] at henc
    have ht2 : (E.base58_from_bytes rec E.BASE58_FLAG_CHECKSUM).2 = t :=
      Option.some.inj (Prod.mk.inj henc).2
    have hb : E.base58_from_bytes rec E.BASE58_FLAG_CHECKSUM = (0, t) := Prod.ext ht1 ht2
    refine ⟨⟨rec, hrl, hall, hb⟩, ?_⟩
    obtain ⟨data, hd, hdt⟩ := hb58 rec t hrl hb
    have hdl : 39 ≤ data.length := by
      have := congrArg List.length hdt
      rw [hrl, List.length_take] at this
      omega
    unfold bip38_to_private_key
    rw [to_private_key_text E (some t) data pass pass_len flags 0 (some out2) 32 hd hdl, hdt]
    exact round_trip_derived E key (List.replicate 39 0) rec out2 pass pass pass_len pass_len
      flags 32 39 haes hkey hq (hall _ (by simp)) (fun _ _ => rfl)
  · rw [if_neg hr1] at henc
    exact absurd (Prod.mk.inj henc).1 hr1


/-- The text round trip at the compressed, address-mode, swap-order record of
the key `00..01`. -/
theorem text_round_trip_witness :
    bip38_to_private_key toyEnv (some [1, 66, 224, 173, 8, 91, 50, 238, 51, 85, 19, 74, 85, 5,
        90, 180, 45, 218, 213, 204, 75, 21, 240, 235, 69, 53, 158, 69, 215, 94, 221, 184, 98,
        83, 185, 243, 180, 87, 238, 9, 177, 160, 211])
      (some [116, 101, 115, 116]) 4 4352 (some (List.replicate 32 7)) 32
      = (WALLY_OK, some (List.replicate 31 0 ++ [1] ++ (List.replicate 32 7).drop 32)) :=
  (text_round_trip toyEnv (List.replicate 31 0 ++ [1]) (List.replicate 32 7) _
    (some [116, 101, 115, 116]) 4 4352 32 toy_aes_inverse toy_base58_inverse (by decide)
    (by decide) (by decide)).2

/-! ## Verification step of full decrypt -/

theorem aes_dec_block (E : Env) (c x key : List Nat) (hc : c.length = 16) (hx : x.length = 16) :
    aes_dec E c x key = xor_bytes (E.AES256_decrypt key c) x := by
  simp only [aes_dec]
  rw [List.take_of_length_le (le_of_eq hc), List.take_of_length_le (le_of_eq hx)]

/-- Claim C13. Raw-mode verification is exactly a salt comparison: for every
39-byte record that passes the header checks, with salt `s` and ciphertext
halves `c1`, `c2` read after undoing the swap order, and `D` the output of a
succeeding `wally_scrypt(pass, s, 16384, 8, 8, 64 bytes)`, full decrypt in raw
mode writes the candidate key
`k = (AES256_decrypt(D[32..63], c1) XOR D[0..15]) ++
(AES256_decrypt(D[32..63], c2) XOR D[16..31])` to the output and returns
success if and only if the checksum of `k` equals `s`; otherwise it returns
`WALLY_EINVAL`. -/
theorem raw_mode_verification (E : Env) (r out : List Nat) (pass : Option (List Nat))
    (pass_len flags : Nat) (hr : r.length = 39)
    (hhead : r.getD 0 0 = BIP38_PREFIX ∧ r.getD 1 0 = BIP38_NO_ECMUL ∧
      r.getD 2 0 &&& BIP38_FLAGS_RESERVED = 0 ∧ r.getD 2 0 &&& BIP38_FLAG_HAVE_LOT = 0)
    (hq : flags &&& E.BIP38_KEY_QUICK_CHECK = 0)
    (hraw : flags &&& E.BIP38_KEY_RAW_MODE ≠ 0) :
    let salt := if flags &&& E.BIP38_KEY_SWAP_ORDER ≠ 0 then peek r 35 4 else peek r 3 4
    let c1 := if flags &&& E.BIP38_KEY_SWAP_ORDER ≠ 0 then peek r 3 16 else peek r 7 16
    let c2 := if flags &&& E.BIP38_KEY_SWAP_ORDER ≠ 0 then peek r 19 16 else peek r 23 16
    let D := E.wally_scrypt pass pass_len salt 4 16384 8 8 64
    let k := xor_bytes (E.AES256_decrypt (peek D.2 32 32) c1) (peek D.2 0 16) ++
      xor_bytes (E.AES256_decrypt (peek D.2 32 32) c2) (peek D.2 16 16)
    D.1 = 0 →
    (bip38_raw_to_private_key E (some r) 39 pass pass_len flags (some out) 32).2
      = some (k ++ out.drop 32) ∧
    ((bip38_raw_to_private_key E (some r) 39 pass pass_len flags (some out) 32).1 = WALLY_OK ↔
      E.base58_get_checksum k % 4294967296 = load32 E.big_endian salt) ∧
    ((bip38_raw_to_private_key E (some r) 39 pass pass_len flags (some out) 32).1 ≠ WALLY_OK →
      (bip38_raw_to_private_key E (some r) 39 pass pass_len flags (some out) 32).1
        = E.WALLY_EINVAL) := by
  intro salt c1 c2 D k hD
  obtain ⟨l1, l2, l3, l4, l5, l6⟩ := record_fields_length r hr
  have hc1 : c1.length = 16 := by dsimp only [c1]; split <;> assumption
  have hc2 : c2.length = 16 := by dsimp only [c2]; split <;> assumption
  have hDl : D.2.length = 64 := E.wally_scrypt_len _ _ _ _ _ _ _ _
  have hk : aes_dec E c1 (peek D.2 0 16) (peek D.2 32 32) ++
      aes_dec E c2 (peek D.2 16 16) (peek D.2 32 32) = k := by
    rw [aes_dec_block E c1 _ _ hc1 (peek_length _ _ _ (by omega)),
      aes_dec_block E c2 _ _ hc2 (peek_length _ _ _ (by omega))]
  have hsome : ¬(flags &&& E.BIP38_KEY_QUICK_CHECK = 0 ∧
      (some out : Option (List Nat)) = none) := fun h => Option.noConfusion h.2
  obtain ⟨h0, h1, h2, h3⟩ := hhead
  unfold bip38_raw_to_private_key
  rw [to_private_key_record E none r pass pass_len flags (some out) hr]
  simp only []
  rw [if_neg hsome, if_neg (by
      exact fun hc => hc.elim (fun h => h h0) (fun hc => hc.elim (fun h => h h2)
        (fun hc => hc.elim (fun h => h h1) (fun h => h h3)))),
    if_neg (not_not.mpr hq), if_neg (not_not.mpr hD), if_pos hraw, hk]
  by_cases hm : load32 E.big_endian salt ≠ E.base58_get_checksum k % 4294967296
  · rw [if_pos hm]
    exact ⟨rfl, ⟨fun h => absurd h E.WALLY_EINVAL_ne_OK, fun h => absurd h.symm hm⟩,
      fun _ => rfl⟩
  · rw [if_neg hm]
    exact ⟨rfl, ⟨fun _ => (not_not.mp hm).symm, fun _ => hD⟩, fun h => absurd hD h⟩

/-- Raw-mode verification of the record of the key `00..01` under the wrong
passphrase "Test": the candidate is written and the call fails. -/
theorem raw_mode_verification_witness :
    (bip38_raw_to_private_key toyEnv (some [1, 66, 192, 6, 233, 42, 233, 69, 117, 100, 101, 61,
        38, 204, 88, 137, 93, 100, 214, 166, 240, 74, 102, 182, 236, 36, 139, 209, 235, 71,
        26, 233, 91, 147, 135, 187, 107, 247, 219]) 39
      (some [84, 101, 115, 116]) 4 2048 (some (List.replicate 32 0)) 32).1
      = toyEnv.WALLY_EINVAL :=
  (raw_mode_verification toyEnv [1, 66, 192, 6, 233, 42, 233, 69, 117, 100, 101, 61,
        38, 204, 88, 137, 93, 100, 214, 166, 240, 74, 102, 182, 236, 36, 139, 209, 235, 71,
        26, 233, 91, 147, 135, 187, 107, 247, 219] (List.replicate 32 0)
    (some [84, 101, 115, 116]) 4 2048 (by decide) (by decide) (by decide) (by decide)
    (by decide)).2.2 (by decide)


/-! ## Options that a call does not read -/

theorem to_private_key_unswap_congr (E : Env) (f1 f2 : Nat) (buf : List Nat)
    (hw : f1 &&& E.BIP38_KEY_SWAP_ORDER ≠ 0 ↔ f2 &&& E.BIP38_KEY_SWAP_ORDER ≠ 0) :
    to_private_key_unswap E f1 buf = to_private_key_unswap E f2 buf := by
  unfold to_private_key_unswap
  by_cases h : f1 &&& E.BIP38_KEY_SWAP_ORDER ≠ 0
  · rw [if_pos h, if_pos (hw.mp h)]
  · rw [if_neg h, if_neg (fun h2 => h (hw.mpr h2))]

/-- `to_private_key` reads its `flags` only through the quick-check bit, the
raw-mode bit, the swap-order bit and, outside raw mode, the network byte. -/
theorem to_private_key_congr (E : Env) (bip38 bytes_in : Option (List Nat)) (len_in : Nat)
    (pass : Option (List Nat)) (pass_len f1 f2 : Nat) (bytes_out : Option (List Nat))
    (len : Nat)
    (hq : f1 &&& E.BIP38_KEY_QUICK_CHECK ≠ 0 ↔ f2 &&& E.BIP38_KEY_QUICK_CHECK ≠ 0)
    (hr : f1 &&& E.BIP38_KEY_RAW_MODE ≠ 0 ↔ f2 &&& E.BIP38_KEY_RAW_MODE ≠ 0)
    (hw : f1 &&& E.BIP38_KEY_SWAP_ORDER ≠ 0 ↔ f2 &&& E.BIP38_KEY_SWAP_ORDER ≠ 0)
    (hn : f1 &&& E.BIP38_KEY_RAW_MODE = 0 → f1 &&& 0xff = f2 &&& 0xff) :
    to_private_key E bip38 bytes_in len_in pass pass_len f1 bytes_out len =
      to_private_key E bip38 bytes_in len_in pass pass_len f2 bytes_out len := by
  have hu : ∀ buf, to_private_key_unswap E f1 buf = to_private_key_unswap E f2 buf :=
    fun buf => to_private_key_unswap_congr E f1 f2 buf hw
  have hq1 : (f1 &&& E.BIP38_KEY_QUICK_CHECK ≠ 0) = (f2 &&& E.BIP38_KEY_QUICK_CHECK ≠ 0) :=
    propext hq
  have hq0 : (f1 &&& E.BIP38_KEY_QUICK_CHECK = 0) = (f2 &&& E.BIP38_KEY_QUICK_CHECK = 0) :=
    propext (not_iff_not.mp (by simpa using hq))
  simp only [to_private_key, hu, hq0, hq1]
  by_cases hraw : f1 &&& E.BIP38_KEY_RAW_MODE ≠ 0
  · simp only [if_pos hraw, if_pos (hr.mp hraw)]
  · have hraw2 : ¬(f2 &&& E.BIP38_KEY_RAW_MODE ≠ 0) := fun h2 => hraw (hr.mpr h2)
    simp only [if_neg hraw, if_neg hraw2, hn (not_not.mp hraw)]

/-- Claim C14. Address-mode decrypt takes compression from the record, not
from the caller: two decrypt calls (binary or text input) that differ at most
in the flag bits outside the quick-check bit, the raw-mode bit (clear: address
mode), the swap-order bit and the network byte, such as the caller's
compressed option, return the same result and leave the same output; and on a
39-byte record that passes the header checks, with scrypt succeeding, full
decrypt in address mode derives the address for verification with compression
equal to bit 5 (0x20) of the record's flags byte. -/
theorem decrypt_compression_from_record (E : Env) (bip38 bytes_in : Option (List Nat))
    (len_in : Nat) (pass : Option (List Nat)) (pass_len f1 f2 : Nat)
    (bytes_out : Option (List Nat)) (len : Nat) (r out : List Nat)
    (hq : f1 &&& E.BIP38_KEY_QUICK_CHECK ≠ 0 ↔ f2 &&& E.BIP38_KEY_QUICK_CHECK ≠ 0)
    (hr1 : f1 &&& E.BIP38_KEY_RAW_MODE = 0) (hr2 : f2 &&& E.BIP38_KEY_RAW_MODE = 0)
    (hw : f1 &&& E.BIP38_KEY_SWAP_ORDER ≠ 0 ↔ f2 &&& E.BIP38_KEY_SWAP_ORDER ≠ 0)
    (hn : f1 &&& 0xff = f2 &&& 0xff) :
    to_private_key E bip38 bytes_in len_in pass pass_len f1 bytes_out len =
      to_private_key E bip38 bytes_in len_in pass pass_len f2 bytes_out len ∧
    (r.length = 39 →
      (r.getD 0 0 = BIP38_PREFIX ∧ r.getD 1 0 = BIP38_NO_ECMUL ∧
        r.getD 2 0 &&& BIP38_FLAGS_RESERVED = 0 ∧ r.getD 2 0 &&& BIP38_FLAG_HAVE_LOT = 0) →
      f1 &&& E.BIP38_KEY_QUICK_CHECK = 0 →
      let salt := if f1 &&& E.BIP38_KEY_SWAP_ORDER ≠ 0 then peek r 35 4 else peek r 3 4
      let c1 := if f1 &&& E.BIP38_KEY_SWAP_ORDER ≠ 0 then peek r 3 16 else peek r 7 16
      let c2 := if f1 &&& E.BIP38_KEY_SWAP_ORDER ≠ 0 then peek r 19 16 else peek r 23 16
      let s := E.wally_scrypt pass pass_len salt 4 16384 8 8 64
      let k := aes_dec E c1 (peek s.2 0 16) (peek s.2 32 32) ++
        aes_dec E c2 (peek s.2 16 16) (peek s.2 32 32)
      let a := address_from_private_key E (k ++ out.drop 32) 32 (f1 &&& 0xff)
        (decide (r.getD 2 0 &&& 0x20 ≠ 0))
      s.1 = 0 →
      bip38_raw_to_private_key E (some r) 39 pass pass_len f1 (some out) 32 =
        if a.1 = 0 ∧ load32 E.big_endian salt ≠ E.base58_get_checksum a.2 % 4294967296
          then (E.WALLY_EINVAL, some (k ++ out.drop 32))
          else (a.1, some (k ++ out.drop 32))) := by
  constructor
  · exact to_private_key_congr E bip38 bytes_in len_in pass pass_len f1 f2 bytes_out len hq
      ⟨fun h => absurd hr1 h, fun h => absurd hr2 h⟩ hw (fun _ => hn)
  · intro hr hhead hq0 salt c1 c2 s k a hs
    obtain ⟨h0, h1, h2, h3⟩ := hhead
    have hsome : ¬(f1 &&& E.BIP38_KEY_QUICK_CHECK = 0 ∧
        (some out : Option (List Nat)) = none) := fun h => Option.noConfusion h.2
    unfold bip38_raw_to_private_key
    rw [to_private_key_record E none r pass pass_len f1 (some out) hr]
    simp only []
    rw [if_neg hsome, if_neg (by
        exact fun hc => hc.elim (fun h => h h0) (fun hc => hc.elim (fun h => h h2)
          (fun hc => hc.elim (fun h => h h1) (fun h => h h3)))),
      if_neg (not_not.mpr hq0), if_neg (not_not.mpr hs), if_neg (not_not.mpr hr1)]

/-- The compressed address-mode record of the key `00..01`, decrypted with
and without the caller's compressed option, and the value of the call. -/
theorem decrypt_compression_from_record_witness :
    to_private_key toyEnv none (some [1, 66, 224, 243, 180, 87, 238, 173, 8, 91, 50, 238, 51,
        85, 19, 74, 85, 5, 90, 180, 45, 218, 213, 204, 75, 21, 240, 235, 69, 53, 158, 69, 215,
        94, 221, 184, 98, 83, 185]) 39 (some [116, 101, 115, 116]) 4 256
        (some (List.replicate 32 0)) 32 =
      to_private_key toyEnv none (some [1, 66, 224, 243, 180, 87, 238, 173, 8, 91, 50, 238, 51,
        85, 19, 74, 85, 5, 90, 180, 45, 218, 213, 204, 75, 21, 240, 235, 69, 53, 158, 69, 215,
        94, 221, 184, 98, 83, 185]) 39 (some [116, 101, 115, 116]) 4 0
        (some (List.replicate 32 0)) 32 ∧
    bip38_raw_to_private_key toyEnv (some [1, 66, 224, 243, 180, 87, 238, 173, 8, 91, 50, 238,
        51, 85, 19, 74, 85, 5, 90, 180, 45, 218, 213, 204, 75, 21, 240, 235, 69, 53, 158, 69,
        215, 94, 221, 184, 98, 83, 185]) 39 (some [116, 101, 115, 116]) 4 256
        (some (List.replicate 32 0)) 32 = (WALLY_OK, some (List.replicate 31 0 ++ [1])) :=
  have h := decrypt_compression_from_record toyEnv none (some [1, 66, 224, 243, 180, 87, 238,
        173, 8, 91, 50, 238, 51, 85, 19, 74, 85, 5, 90, 180, 45, 218, 213, 204, 75, 21, 240,
        235, 69, 53, 158, 69, 215, 94, 221, 184, 98, 83, 185]) 39 (some [116, 101, 115, 116]) 4
    256 0 (some (List.replicate 32 0)) 32 [1, 66, 224, 243, 180, 87, 238,
        173, 8, 91, 50, 238, 51, 85, 19, 74, 85, 5, 90, 180, 45, 218, 213, 204, 75, 21, 240,
        235, 69, 53, 158, 69, 215, 94, 221, 184, 98, 83, 185] (List.replicate 32 0)
    (by decide) (by decide) (by decide) (by decide) (by decide)
  ⟨h.1, (h.2 (by decide) (by decide) (by decide) (by decide)).trans (by decide)⟩


theorem from_private_key_hash_raw (E : Env) (key : List Nat) (len_in f1 f2 : Nat)
    (h1 : f1 &&& E.BIP38_KEY_RAW_MODE ≠ 0) (h2 : f2 &&& E.BIP38_KEY_RAW_MODE ≠ 0) :
    from_private_key_hash E key len_in f1 = from_private_key_hash E key len_in f2 := by
  unfold from_private_key_hash
  rw [if_pos h1, if_pos h2]

theorem from_private_key_swap_congr (E : Env) (f1 f2 : Nat) (buf : List Nat)
    (hw : f1 &&& E.BIP38_KEY_SWAP_ORDER ≠ 0 ↔ f2 &&& E.BIP38_KEY_SWAP_ORDER ≠ 0) :
    from_private_key_swap E f1 buf = from_private_key_swap E f2 buf := by
  unfold from_private_key_swap
  by_cases h : f1 &&& E.BIP38_KEY_SWAP_ORDER ≠ 0
  · rw [if_pos h, if_pos (hw.mp h)]
  · rw [if_neg h, if_neg (fun h2 => h (hw.mpr h2))]

/-- Claim C15. Raw mode ignores the network byte: two calls in raw mode whose
flags agree on the compressed option and the swap-order option (and, for
decrypt, on the quick-check option) but carry any two network bytes give the
same result: encrypt returns the same value and leaves the same record in the
output buffer, and decrypt returns the same value and leaves the same
output. -/
theorem raw_mode_ignores_network (E : Env) (key_in : Option (List Nat)) (key_len : Nat)
    (bip38 bytes_in : Option (List Nat)) (len_in : Nat)
    (pass : Option (List Nat)) (pass_len f1 f2 : Nat) (rec_out bytes_out : Option (List Nat))
    (rec_len len : Nat)
    (hr1 : f1 &&& E.BIP38_KEY_RAW_MODE ≠ 0) (hr2 : f2 &&& E.BIP38_KEY_RAW_MODE ≠ 0)
    (hc : f1 &&& E.BIP38_KEY_COMPRESSED ≠ 0 ↔ f2 &&& E.BIP38_KEY_COMPRESSED ≠ 0)
    (hw : f1 &&& E.BIP38_KEY_SWAP_ORDER ≠ 0 ↔ f2 &&& E.BIP38_KEY_SWAP_ORDER ≠ 0)
    (hq : f1 &&& E.BIP38_KEY_QUICK_CHECK ≠ 0 ↔ f2 &&& E.BIP38_KEY_QUICK_CHECK ≠ 0) :
    bip38_raw_from_private_key E key_in key_len pass pass_len f1 rec_out rec_len =
      bip38_raw_from_private_key E key_in key_len pass pass_len f2 rec_out rec_len ∧
    to_private_key E bip38 bytes_in len_in pass pass_len f1 bytes_out len =
      to_private_key E bip38 bytes_in len_in pass pass_len f2 bytes_out len := by
  constructor
  · have hd : decide (f1 &&& E.BIP38_KEY_COMPRESSED ≠ 0) =
        decide (f2 &&& E.BIP38_KEY_COMPRESSED ≠ 0) := decide_eq_decide.mpr hc
    have hs : ∀ buf, from_private_key_swap E f1 buf = from_private_key_swap E f2 buf :=
      fun buf => from_private_key_swap_congr E f1 f2 buf hw
    cases key_in with
    | none => rfl
    | some key =>
      cases rec_out with
      | none => rfl
      | some out =>
        simp only [bip38_raw_from_private_key, hd, hs,
          from_private_key_hash_raw E key key_len f1 f2 hr1 hr2]
  · exact to_private_key_congr E bip38 bytes_in len_in pass pass_len f1 f2 bytes_out len hq
      ⟨fun _ => hr2, fun _ => hr1⟩ hw (fun h => absurd h hr1)

/-- Raw-mode encrypt of the key `00..01` and decrypt of its record, with the
network bytes 0 and 111. -/
theorem raw_mode_ignores_network_witness :
    bip38_raw_from_private_key toyEnv (some (List.replicate 31 0 ++ [1])) 32
        (some [116, 101, 115, 116]) 4 2048 (some (List.replicate 39 0)) 39 =
      bip38_raw_from_private_key toyEnv (some (List.replicate 31 0 ++ [1])) 32
        (some [116, 101, 115, 116]) 4 2159 (some (List.replicate 39 0)) 39 ∧
    to_private_key toyEnv none (some [1, 66, 192, 6, 233, 42, 233, 69, 117, 100, 101, 61,
        38, 204, 88, 137, 93, 100, 214, 166, 240, 74, 102, 182, 236, 36, 139, 209, 235, 71,
        26, 233, 91, 147, 135, 187, 107, 247, 219]) 39
        (some [116, 101, 115, 116]) 4 2048 (some (List.replicate 32 0)) 32 =
      to_private_key toyEnv none (some [1, 66, 192, 6, 233, 42, 233, 69, 117, 100, 101, 61,
        38, 204, 88, 137, 93, 100, 214, 166, 240, 74, 102, 182, 236, 36, 139, 209, 235, 71,
        26, 233, 91, 147, 135, 187, 107, 247, 219]) 39
        (some [116, 101, 115, 116]) 4 2159 (some (List.replicate 32 0)) 32 :=
  raw_mode_ignores_network toyEnv (some (List.replicate 31 0 ++ [1])) 32 none
    (some [1, 66, 192, 6, 233, 42, 233, 69, 117, 100, 101, 61,
        38, 204, 88, 137, 93, 100, 214, 166, 240, 74, 102, 182, 236, 36, 139, 209, 235, 71,
        26, 233, 91, 147, 135, 187, 107, 247, 219]) 39
    (some [116, 101, 115, 116]) 4 2048 2159 (some (List.replicate 39 0))
    (some (List.replicate 32 0)) 39 32
    (by decide) (by decide) (by decide) (by decide) (by decide)

/-- Claim C16. Quick check touches neither the passphrase nor the output: for
every input (binary or text) and every option set that includes quick check,
the decrypt operation returns the same value for every passphrase, present or
absent, leaves the caller's output buffer unchanged whether it succeeds or
fails, and returns the same value when the output buffer is absent. -/
theorem quick_check_frame (E : Env) (bip38 bytes_in : Option (List Nat)) (len_in : Nat)
    (pass pass2 : Option (List Nat)) (pass_len pass_len2 flags : Nat)
    (bytes_out : Option (List Nat)) (len : Nat)
    (hq : flags &&& E.BIP38_KEY_QUICK_CHECK ≠ 0) :
    to_private_key E bip38 bytes_in len_in pass pass_len flags bytes_out len =
      to_private_key E bip38 bytes_in len_in pass2 pass_len2 flags bytes_out len ∧
    (to_private_key E bip38 bytes_in len_in pass pass_len flags bytes_out len).2 = bytes_out ∧
    (to_private_key E bip38 bytes_in len_in pass pass_len flags none len).1 =
      (to_private_key E bip38 bytes_in len_in pass pass_len flags bytes_out len).1 := by
  have hform : ∀ (p : Option (List Nat)) (pl : Nat) (o : Option (List Nat)),
      to_private_key E bip38 bytes_in len_in p pl flags o len =
        (if len ≠ BITCOIN_PRIVATE_KEY_LEN then E.WALLY_EINVAL
          else match to_private_key_load E bip38 bytes_in len_in with
            | .error e => e
            | .ok buf =>
              if to_private_key_bad_header (to_private_key_unswap E flags buf)
              then E.WALLY_EINVAL else WALLY_OK, o) := by
    intro p pl o
    simp only [to_private_key]
    by_cases hl : len ≠ BITCOIN_PRIVATE_KEY_LEN
    · rw [if_pos hl, if_pos hl]
    · rw [if_neg hl, if_neg hl, if_neg (fun h => hq h.1)]
      cases to_private_key_load E bip38 bytes_in len_in with
      | error e => rfl
      | ok buf =>
        simp only []
        by_cases hb : to_private_key_bad_header (to_private_key_unswap E flags buf) = true
        · rw [if_pos hb, if_pos hb]
        · rw [if_neg hb, if_neg hb, if_pos hq]
  exact ⟨by rw [hform, hform], by rw [hform], by rw [hform, hform]⟩

/-- Quick check of a record with a bad prefix and of an encrypted record, with
the passphrases "test" and absent. -/
theorem quick_check_frame_witness :
    to_private_key toyEnv none (some ([2, 66, 192] ++ List.replicate 36 5)) 39
        (some [116, 101, 115, 116]) 4 1024 (some (List.replicate 32 9)) 32 =
      to_private_key toyEnv none (some ([2, 66, 192] ++ List.replicate 36 5)) 39
        none 0 1024 (some (List.replicate 32 9)) 32 ∧
    (to_private_key toyEnv none (some ([1, 66, 192] ++ List.replicate 36 5)) 39
        (some [116, 101, 115, 116]) 4 1024 (some (List.replicate 32 9)) 32).2
      = some (List.replicate 32 9) :=
  ⟨(quick_check_frame toyEnv none (some ([2, 66, 192] ++ List.replicate 36 5)) 39
      (some [116, 101, 115, 116]) none 4 0 1024 (some (List.replicate 32 9)) 32 (by decide)).1,
   (quick_check_frame toyEnv none (some ([1, 66, 192] ++ List.replicate 36 5)) 39
      (some [116, 101, 115, 116]) none 4 0 1024 (some (List.replicate 32 9)) 32
      (by decide)).2.1⟩


/-! ## The two shuffles -/

theorem length_thirty_nine (l : List Nat) (h : l.length = 39) :
    ∃ x0 x1 x2 x3 x4 x5 x6 x7 x8 x9 x10 x11 x12 x13 x14 x15 x16 x17 x18 x19 x20 x21 x22 x23
      x24 x25 x26 x27 x28 x29 x30 x31 x32 x33 x34 x35 x36 x37 x38 : Nat,
      l = [
      x0, x1, x2, x3, x4, x5, x6, x7, x8, x9, x10, x11, x12, x13, x14, x15, x16, x17, x18,
      x19, x20, x21, x22, x23, x24, x25, x26, x27, x28, x29, x30, x31, x32, x33, x34, x35,
      x36, x37, x38] := by
  obtain ⟨x0, t0, rfl, h0⟩ := uncons l h
  obtain ⟨x1, t1, rfl, h1⟩ := uncons t0 h0
  obtain ⟨x2, t2, rfl, h2⟩ := uncons t1 h1
  obtain ⟨x3, t3, rfl, h3⟩ := uncons t2 h2
  obtain ⟨x4, t4, rfl, h4⟩ := uncons t3 h3
  obtain ⟨x5, t5, rfl, h5⟩ := uncons t4 h4
  obtain ⟨x6, t6, rfl, h6⟩ := uncons t5 h5
  obtain ⟨x7, t7, rfl, h7⟩ := uncons t6 h6
  obtain ⟨x8, t8, rfl, h8⟩ := uncons t7 h7
  obtain ⟨x9, t9, rfl, h9⟩ := uncons t8 h8
  obtain ⟨x10, t10, rfl, h10⟩ := uncons t9 h9
  obtain ⟨x11, t11, rfl, h11⟩ := uncons t10 h10
  obtain ⟨x12, t12, rfl, h12⟩ := uncons t11 h11
  obtain ⟨x13, t13, rfl, h13⟩ := uncons t12 h12
  obtain ⟨x14, t14, rfl, h14⟩ := uncons t13 h13
  obtain ⟨x15, t15, rfl, h15⟩ := uncons t14 h14
  obtain ⟨x16, t16, rfl, h16⟩ := uncons t15 h15
  obtain ⟨x17, t17, rfl, h17⟩ := uncons t16 h16
  obtain ⟨x18, t18, rfl, h18⟩ := uncons t17 h17
  obtain ⟨x19, t19, rfl, h19⟩ := uncons t18 h18
  obtain ⟨x20, t20, rfl, h20⟩ := uncons t19 h19
  obtain ⟨x21, t21, rfl, h21⟩ := uncons t20 h20
  obtain ⟨x22, t22, rfl, h22⟩ := uncons t21 h21
  obtain ⟨x23, t23, rfl, h23⟩ := uncons t22 h22
  obtain ⟨x24, t24, rfl, h24⟩ := uncons t23 h23
  obtain ⟨x25, t25, rfl, h25⟩ := uncons t24 h24
  obtain ⟨x26, t26, rfl, h26⟩ := uncons t25 h25
  obtain ⟨x27, t27, rfl, h27⟩ := uncons t26 h26
  obtain ⟨x28, t28, rfl, h28⟩ := uncons t27 h27
  obtain ⟨x29, t29, rfl, h29⟩ := uncons t28 h28
  obtain ⟨x30, t30, rfl, h30⟩ := uncons t29 h29
  obtain ⟨x31, t31, rfl, h31⟩ := uncons t30 h30
  obtain ⟨x32, t32, rfl, h32⟩ := uncons t31 h31
  obtain ⟨x33, t33, rfl, h33⟩ := uncons t32 h32
  obtain ⟨x34, t34, rfl, h34⟩ := uncons t33 h33
  obtain ⟨x35, t35, rfl, h35⟩ := uncons t34 h34
  obtain ⟨x36, t36, rfl, h36⟩ := uncons t35 h35
  obtain ⟨x37, t37, rfl, h37⟩ := uncons t36 h36
  obtain ⟨x38, t38, rfl, h38⟩ := uncons t37 h37
  rw [List.length_eq_zero.mp h38]
  exact ⟨
    x0, x1, x2, x3, x4, x5, x6, x7, x8, x9, x10, x11, x12, x13, x14, x15, x16, x17, x18, x19,
    x20, x21, x22, x23, x24, x25, x26, x27, x28, x29, x30, x31, x32, x33, x34, x35, x36, x37,
    x38, rfl⟩

/-- Claim C17. The swap-order transforms are mutual inverses: for every
39-byte sequence `b` held in the record area of the 44-byte buffer (after the
pad byte, before `decode_hash`), decode's un-shuffle applied to encode's
shuffle of `b` returns `b`, and encode's shuffle applied to decode's
un-shuffle of `b` returns `b`. With the swap-order option set, the shuffle
gives `b[0..2] ++ b[7..38] ++ b[3..6]` and the un-shuffle gives
`b[0..2] ++ b[35..38] ++ b[3..34]` (salt taken from the last 4 bytes and put
back at offset 3, the 32 ciphertext bytes moved from offset 3 to offset 7);
both leave bytes 0..2 unchanged. -/
theorem swap_transforms_inverse (E : Env) (flags pad : Nat) (b z : List Nat)
    (hb : b.length = 39) :
    to_private_key_unswap E flags (from_private_key_swap E flags (pad :: b ++ z))
      = pad :: b ++ z ∧
    from_private_key_swap E flags (to_private_key_unswap E flags (pad :: b ++ z))
      = pad :: b ++ z ∧
    peek (from_private_key_swap E flags (pad :: b ++ z)) OFF_PREFIX 3 = peek b 0 3 ∧
    peek (to_private_key_unswap E flags (pad :: b ++ z)) OFF_PREFIX 3 = peek b 0 3 ∧
    (flags &&& E.BIP38_KEY_SWAP_ORDER ≠ 0 →
      peek (from_private_key_swap E flags (pad :: b ++ z)) OFF_PREFIX BIP38_SERIALISED_LEN
        = peek b 0 3 ++ peek b 7 32 ++ peek b 3 4 ∧
      peek (to_private_key_unswap E flags (pad :: b ++ z)) OFF_PREFIX BIP38_SERIALISED_LEN
        = peek b 0 3 ++ peek b 35 4 ++ peek b 3 32) := by
  obtain ⟨x0, x1, x2, x3, x4, x5, x6, x7, x8, x9, x10, x11, x12, x13, x14, x15, x16, x17, x18, x19,
    x20, x21, x22, x23, x24, x25, x26, x27, x28, x29, x30, x31, x32, x33, x34, x35, x36, x37,
    x38, rfl⟩ := length_thirty_nine b hb
  unfold to_private_key_unswap from_private_key_swap
  by_cases hw : flags &&& E.BIP38_KEY_SWAP_ORDER ≠ 0
  · simp only [if_pos hw]
    exact ⟨rfl, rfl, rfl, rfl, fun _ => ⟨rfl, rfl⟩⟩
  · simp only [if_neg hw]
    exact ⟨trivial, trivial, rfl, rfl, fun h => absurd h hw⟩

/-- The two shuffles on the bytes 0..38 with the swap-order option set. -/
theorem swap_transforms_inverse_witness :
    to_private_key_unswap toyEnv 4096
      (from_private_key_swap toyEnv 4096 (0 :: List.range 39 ++ [0, 0, 0, 0]))
      = 0 :: List.range 39 ++ [0, 0, 0, 0] ∧
    peek (from_private_key_swap toyEnv 4096 (0 :: List.range 39 ++ [0, 0, 0, 0])) OFF_PREFIX
        BIP38_SERIALISED_LEN
      = peek (List.range 39) 0 3 ++ peek (List.range 39) 7 32 ++ peek (List.range 39) 3 4 :=
  ⟨(swap_transforms_inverse toyEnv 4096 0 (List.range 39) [0, 0, 0, 0] (by decide)).1,
   ((swap_transforms_inverse toyEnv 4096 0 (List.range 39) [0, 0, 0, 0] (by decide)).2.2.2.2
      (by decide)).1⟩


/-! ## Acceptance condition of the quick check -/

/-- Claim C18. Exact acceptance condition of quick check on a binary record:
for every byte sequence `b` passed with its length, every declared output
length `n` and every option set with quick check,
`bip38_raw_to_private_key` returns success if and only if `n = 32`, `b` has
exactly 39 bytes, `b[0] = 0x01`, `b[1] = 0x42` and `b[2] AND 0x1F = 0`. The
condition does not mention the swap-order option, bits 7, 6 and 5 of the flags
byte, the passphrase or the output pointer. -/
theorem quick_check_acceptance (E : Env) (b : List Nat) (len_in : Nat)
    (pass : Option (List Nat)) (pass_len flags : Nat) (bytes_out : Option (List Nat))
    (n : Nat) (hb : b.length = len_in) (hq : flags &&& E.BIP38_KEY_QUICK_CHECK ≠ 0) :
    (bip38_raw_to_private_key E (some b) len_in pass pass_len flags bytes_out n).1 = WALLY_OK ↔
      (n = 32 ∧ b.length = 39 ∧ b.getD 0 0 = 0x01 ∧ b.getD 1 0 = 0x42 ∧
        b.getD 2 0 &&& 0x1F = 0) := by
  subst hb
  unfold bip38_raw_to_private_key
  by_cases hn : n = 32
  · subst hn
    by_cases hl : b.length = 39
    · rw [hl, to_private_key_quick E none b pass pass_len flags bytes_out (le_of_eq hl.symm) hq]
      have hbits := (reserved_bits (b.getD 2 0)).2
      by_cases hbad : b.getD 0 0 ≠ 1 ∨ b.getD 2 0 &&& 27 ≠ 0 ∨ b.getD 1 0 ≠ 66 ∨
          b.getD 2 0 &&& 4 ≠ 0
      · rw [if_pos hbad]
        constructor
        · intro h
          exact absurd h E.WALLY_EINVAL_ne_OK
        · rintro ⟨-, -, h0, h1, h2⟩
          exfalso
          rcases hbad with h | h | h | h
          · exact h h0
          · exact hbits.mp (Or.inl h) h2
          · exact h h1
          · exact hbits.mp (Or.inr h) h2
      · rw [if_neg hbad]
        constructor
        · intro _
          refine ⟨rfl, rfl, ?_, ?_, ?_⟩
          · by_contra h
            exact hbad (Or.inl h)
          · by_contra h
            exact hbad (Or.inr (Or.inr (Or.inl h)))
          · by_contra h
            rcases hbits.mpr h with h' | h'
            · exact hbad (Or.inr (Or.inl h'))
            · exact hbad (Or.inr (Or.inr (Or.inr h')))
        · intro _
          rfl
    · simp only [to_private_key, to_private_key_load]
      rw [if_neg (by simp), if_neg (fun h => hq h.1), if_pos hl]
      constructor
      · intro h
        exact absurd h E.WALLY_EINVAL_ne_OK
      · rintro ⟨-, h, -⟩
        exact absurd h hl
  · simp only [to_private_key]
    rw [if_pos hn]
    constructor
    · intro h
      exact absurd h E.WALLY_EINVAL_ne_OK
    · rintro ⟨h, -⟩
      exact absurd h hn

/-- Quick check of a 39-byte record with the flags byte 0xE0, in swap order,
without passphrase or output buffer. -/
theorem quick_check_acceptance_witness :
    (bip38_raw_to_private_key toyEnv (some ([1, 66, 224] ++ List.replicate 36 5)) 39 none 0
      5120 none 32).1 = WALLY_OK :=
  (quick_check_acceptance toyEnv ([1, 66, 224] ++ List.replicate 36 5) 39 none 0 5120 none 32
    (by decide) (by decide)).mpr (by decide)


/-! ## The flags byte in full decrypt -/

theorem and_sub_mask (v f m n : Nat) (h : v &&& m = f &&& m) (hn : m &&& n = n) :
    v &&& n = f &&& n := by
  rw [← hn, ← Nat.and_assoc, ← Nat.and_assoc, h]

theorem peek_set_two (r : List Nat) (v off n : Nat) (h : 3 ≤ off) :
    peek (r.set 2 v) off n = peek r off n := by
  unfold peek
  rw [List.drop_set_of_lt _ _ (by omega)]

theorem getD_set_two (r : List Nat) (v : Nat) (hr : r.length = 39) :
    (r.set 2 v).getD 0 0 = r.getD 0 0 ∧ (r.set 2 v).getD 1 0 = r.getD 1 0 ∧
    (r.set 2 v).getD 2 0 = v := by
  simp [List.getD_eq_getElem?_getD, List.getElem?_set, hr]

/-- Claim C19. The flags byte is not integrity-protected in full decrypt: let
full decrypt of a 39-byte record `r` succeed and leave `k` in the output
buffer. (i) In either mode, every record that differs from `r` only in bits 7
and 6 of the flags byte decrypts successfully to the same `k`. (ii) In raw
mode, every record that differs from `r` only in bits 7, 6 and 5 of the flags
byte decrypts successfully to the same `k`. -/
theorem flags_byte_unprotected (E : Env) (r out k : List Nat) (pass : Option (List Nat))
    (pass_len flags v : Nat) (hr : r.length = 39)
    (hdec : bip38_raw_to_private_key E (some r) 39 pass pass_len flags (some out) 32
      = (WALLY_OK, some k)) :
    (v &&& 0x3F = r.getD 2 0 &&& 0x3F →
      bip38_raw_to_private_key E (some (r.set 2 v)) 39 pass pass_len flags (some out) 32
        = (WALLY_OK, some k)) ∧
    (flags &&& E.BIP38_KEY_RAW_MODE ≠ 0 → v &&& 0x1F = r.getD 2 0 &&& 0x1F →
      bip38_raw_to_private_key E (some (r.set 2 v)) 39 pass pass_len flags (some out) 32
        = (WALLY_OK, some k)) := by
  obtain ⟨g0, g1, g2⟩ := getD_set_two r v hr
  have hr' : (r.set 2 v).length = 39 := by simpa using hr
  unfold bip38_raw_to_private_key at hdec ⊢
  rw [to_private_key_record E none r pass pass_len flags (some out) hr] at hdec
  rw [to_private_key_record E none (r.set 2 v) pass pass_len flags (some out) hr']
  simp only [g0, g1, g2, peek_set_two r v 35 4 (by decide), peek_set_two r v 3 4 (by decide),
    peek_set_two r v 3 16 (by decide), peek_set_two r v 7 16 (by decide),
    peek_set_two r v 19 16 (by decide), peek_set_two r v 23 16 (by decide)]
  constructor
  · intro h
    rw [and_sub_mask v _ 63 27 h (by decide), and_sub_mask v _ 63 4 h (by decide),
      and_sub_mask v _ 63 32 h (by decide)]
    exact hdec
  · intro hraw h
    simp only [if_pos hraw] at hdec ⊢
    rw [and_sub_mask v _ 31 27 h (by decide), and_sub_mask v _ 31 4 h (by decide)]
    exact hdec

/-- The raw-mode record of the key `00..01` with the flags byte 0xC0 replaced
by 0x00 (bits 7 and 6 cleared) and by 0x20 (bit 5 set as well). -/
theorem flags_byte_unprotected_witness :
    bip38_raw_to_private_key toyEnv (some (List.set [1, 66, 192, 6, 233, 42, 233, 69, 117, 100,
        101, 61, 38, 204, 88, 137, 93, 100, 214, 166, 240, 74, 102, 182, 236, 36, 139, 209, 235,
        71, 26, 233, 91, 147, 135, 187, 107, 247, 219] 2 0)) 39
      (some [116, 101, 115, 116]) 4 2048 (some (List.replicate 32 0)) 32
      = (WALLY_OK, some (List.replicate 31 0 ++ [1])) ∧
    bip38_raw_to_private_key toyEnv (some (List.set [1, 66, 192, 6, 233, 42, 233, 69, 117, 100,
        101, 61, 38, 204, 88, 137, 93, 100, 214, 166, 240, 74, 102, 182, 236, 36, 139, 209, 235,
        71, 26, 233, 91, 147, 135, 187, 107, 247, 219] 2 32)) 39
      (some [116, 101, 115, 116]) 4 2048 (some (List.replicate 32 0)) 32
      = (WALLY_OK, some (List.replicate 31 0 ++ [1])) :=
  ⟨(flags_byte_unprotected toyEnv [1, 66, 192, 6, 233, 42, 233, 69, 117, 100,
        101, 61, 38, 204, 88, 137, 93, 100, 214, 166, 240, 74, 102, 182, 236, 36, 139, 209, 235,
        71, 26, 233, 91, 147, 135, 187, 107, 247, 219] (List.replicate 32 0)
      (List.replicate 31 0 ++ [1]) (some [116, 101, 115, 116]) 4 2048 0 (by decide)
      (by decide)).1 (by decide),
   (flags_byte_unprotected toyEnv [1, 66, 192, 6, 233, 42, 233, 69, 117, 100,
        101, 61, 38, 204, 88, 137, 93, 100, 214, 166, 240, 74, 102, 182, 236, 36, 139, 209, 235,
        71, 26, 233, 91, 147, 135, 187, 107, 247, 219] (List.replicate 32 0)
      (List.replicate 31 0 ++ [1]) (some [116, 101, 115, 116]) 4 2048 32 (by decide)
      (by decide)).2 (by decide) (by decide)⟩

/-! ## Output buffer of a failed decrypt -/

/-- Claim C2, as the code has it. Let the decrypt operation (binary or text
input) return an error. (i) If the call got as far as decrypting (the record
was loaded into `buf`, the output buffer `out` is present, the declared
length is 32, the header checks passed, quick check is off and scrypt
succeeded), then the output buffer holds exactly what the two `aes_dec` calls
wrote into it, the candidate key in its first 32 bytes, and the error comes
from the check of that candidate (raw mode: checksum mismatch; address mode:
address derivation failed or checksum mismatch). (ii) In every other case the
output buffer holds exactly the bytes it held before the call. -/
theorem failed_decrypt_output (E : Env) (bip38 bytes_in : Option (List Nat)) (len_in : Nat)
    (pass : Option (List Nat)) (pass_len flags : Nat) (bytes_out : Option (List Nat))
    (len : Nat)
    (herr : (to_private_key E bip38 bytes_in len_in pass pass_len flags bytes_out len).1
      ≠ WALLY_OK) :
    (∀ buf out, to_private_key_load E bip38 bytes_in len_in = .ok buf →
      bytes_out = some out → len = 32 →
      to_private_key_bad_header (to_private_key_unswap E flags buf) = false →
      flags &&& E.BIP38_KEY_QUICK_CHECK = 0 →
      (E.wally_scrypt pass pass_len (peek (to_private_key_unswap E flags buf) OFF_HASH 4) 4
        16384 8 8 64).1 = 0 →
      let cand := to_private_key_decrypt E (to_private_key_unswap E flags buf)
        (E.wally_scrypt pass pass_len (peek (to_private_key_unswap E flags buf) OFF_HASH 4) 4
          16384 8 8 64).2 out
      (to_private_key E bip38 bytes_in len_in pass pass_len flags bytes_out len).2 = some cand ∧
      (if flags &&& E.BIP38_KEY_RAW_MODE ≠ 0 then
        load32 E.big_endian (peek (to_private_key_unswap E flags buf) OFF_HASH 4) ≠
          E.base58_get_checksum (cand.take 32) % 4294967296
      else
        (address_from_private_key E cand 32 (flags &&& 0xff)
          (decide ((to_private_key_unswap E flags buf).getD OFF_FLAGS 0
            &&& BIP38_FLAG_COMPRESSED ≠ 0))).1 ≠ 0 ∨
        load32 E.big_endian (peek (to_private_key_unswap E flags buf) OFF_HASH 4) ≠
          E.base58_get_checksum (address_from_private_key E cand 32 (flags &&& 0xff)
            (decide ((to_private_key_unswap E flags buf).getD OFF_FLAGS 0
              &&& BIP38_FLAG_COMPRESSED ≠ 0))).2 % 4294967296)) ∧
    ((¬∃ buf out, to_private_key_load E bip38 bytes_in len_in = .ok buf ∧
        bytes_out = some out ∧ len = 32 ∧
        to_private_key_bad_header (to_private_key_unswap E flags buf) = false ∧
        flags &&& E.BIP38_KEY_QUICK_CHECK = 0 ∧
        (E.wally_scrypt pass pass_len (peek (to_private_key_unswap E flags buf) OFF_HASH 4) 4
          16384 8 8 64).1 = 0) →
      (to_private_key E bip38 bytes_in len_in pass pass_len flags bytes_out len).2
        = bytes_out) := by
  constructor
  · intro buf out hload hout hlen hhead hq hs cand
    subst hout
    subst hlen
    generalize hres :
      to_private_key E bip38 bytes_in len_in pass pass_len flags (some out) 32 = res at herr ⊢
    simp only [to_private_key, hload] at hres
    rw [if_neg (by simp), if_neg (by simp), if_neg (by simp [hhead]),
      if_neg (not_not.mpr hq), if_neg (not_not.mpr hs)] at hres
    by_cases hraw : flags &&& E.BIP38_KEY_RAW_MODE ≠ 0
    · rw [if_pos hraw] at hres
      rw [if_pos hraw]
      split at hres
      · rename_i hne
        subst hres
        exact ⟨rfl, hne⟩
      · subst hres
        exact absurd hs herr
    · rw [if_neg hraw] at hres
      rw [if_neg hraw]
      split at hres
      · rename_i hne
        subst hres
        exact ⟨rfl, Or.inr hne.2⟩
      · subst hres
        exact ⟨rfl, Or.inl herr⟩
  · intro hno
    rcases to_private_key_output E bip38 bytes_in len_in pass pass_len flags bytes_out len
      with h | ⟨buf, out, h1, h2, h3, h4, h5, h6, -⟩
    · exact h
    · exact absurd ⟨buf, out, h1, h2, h3, h4, h5, h6⟩ hno

/-- The amended C2 statement at the input of the counterexample (the raw-mode
record of the key `00..01` decrypted under "Test"), and at a record with a
wrong prefix byte: the first call leaves the candidate in the output buffer,
the second leaves the buffer as it was. -/
theorem failed_decrypt_output_witness :
    (to_private_key toyEnv none (some [1, 66, 192, 6, 233, 42, 233, 69, 117, 100, 101, 61,
          38, 204, 88, 137, 93, 100, 214, 166, 240, 74, 102, 182, 236, 36, 139, 209, 235, 71,
          26, 233, 91, 147, 135, 187, 107, 247, 219]) 39
        (some [84, 101, 115, 116]) 4 2048 (some (List.replicate 32 0)) 32).2
      = some [126, 46, 212, 230, 98, 179, 133, 18, 247, 68, 120, 115, 37,
          163, 122, 24, 177, 170, 224, 133, 153, 77, 254, 165, 213, 125, 252, 35, 112, 232, 49,
          30] ∧
    (to_private_key toyEnv none (some ([2, 66, 192] ++ List.replicate 36 5)) 39
        (some [84, 101, 115, 116]) 4 2048 (some (List.replicate 32 0)) 32).2
      = some (List.replicate 32 0) :=
  ⟨((failed_decrypt_output toyEnv none (some [1, 66, 192, 6, 233, 42, 233, 69, 117, 100, 101,
          61, 38, 204, 88, 137, 93, 100, 214, 166, 240, 74, 102, 182, 236, 36, 139, 209, 235,
          71, 26, 233, 91, 147, 135, 187, 107, 247, 219]) 39
        (some [84, 101, 115, 116]) 4 2048 (some (List.replicate 32 0)) 32 (by decide)).1
      _ (List.replicate 32 0) rfl rfl rfl (by decide) (by decide) (by decide)).1.trans
      (by decide),
   (failed_decrypt_output toyEnv none (some ([2, 66, 192] ++ List.replicate 36 5)) 39
        (some [84, 101, 115, 116]) 4 2048 (some (List.replicate 32 0)) 32 (by decide)).2
      (by
        rintro ⟨buf, out, h1, -, -, h4, -, -⟩
        simp only [to_private_key_load] at h1
        rw [if_neg (by decide)] at h1
        cases h1
        exact absurd h4 (by decide))⟩


/-! ## Size contract of encrypt -/

/-- Claim C6. Fixed-size contract of encrypt: `bip38_raw_from_private_key`
returns `WALLY_EINVAL` (and leaves the output alone) whenever the key length
is not 32 or the output length is not 39, whatever the passphrase and options;
and whenever it succeeds it has written exactly 39 bytes: the first 39 bytes
of the output buffer are the serialised record (prefix, ec_type, flags, then
salt and the two ciphertext halves in the order the swap option selects) and
every byte of the buffer from offset 39 on is as before the call. -/
theorem raw_from_private_key_sizes (E : Env) (bytes_in : Option (List Nat)) (len_in : Nat)
    (pass : Option (List Nat)) (pass_len flags : Nat) (bytes_out : Option (List Nat))
    (len : Nat) :
    ((len_in ≠ 32 ∨ len ≠ 39) →
      bip38_raw_from_private_key E bytes_in len_in pass pass_len flags bytes_out len
        = (E.WALLY_EINVAL, bytes_out)) ∧
    ((bip38_raw_from_private_key E bytes_in len_in pass pass_len flags bytes_out len).1
        = WALLY_OK →
      ∃ key out hash, bytes_in = some key ∧ bytes_out = some out ∧
        from_private_key_hash E key 32 flags = .ok hash ∧
        let salt := store32 E.big_endian hash
        let D := (E.wally_scrypt pass pass_len salt 4 16384 8 8 64).2
        let c1 := aes_enc E key (peek D 0 16) (peek D 32 32)
        let c2 := aes_enc E (key.drop 16) (peek D 16 16) (peek D 32 32)
        let f := 192 ||| (if flags &&& E.BIP38_KEY_COMPRESSED ≠ 0 then 32 else 0)
        let written := if flags &&& E.BIP38_KEY_SWAP_ORDER ≠ 0
          then [1, 66, f] ++ c1 ++ c2 ++ salt else [1, 66, f] ++ salt ++ c1 ++ c2
        written.length = 39 ∧
        (bip38_raw_from_private_key E bytes_in len_in pass pass_len flags bytes_out len).2
          = some (written ++ out.drop 39)) := by
  constructor
  · intro h
    cases bytes_in with
    | none => simp only [bip38_raw_from_private_key]
    | some key =>
      cases bytes_out with
      | none => simp only [bip38_raw_from_private_key]
      | some out =>
        simp only [bip38_raw_from_private_key]
        rw [if_pos h]
  · intro h
    have henc : bip38_raw_from_private_key E bytes_in len_in pass pass_len flags bytes_out len
        = (WALLY_OK,
          (bip38_raw_from_private_key E bytes_in len_in pass pass_len flags bytes_out len).2) :=
      Prod.ext h rfl
    obtain ⟨key, out, hash, hin, hout, -, -, hh, -, hres⟩ :=
      raw_from_private_key_ok E bytes_in len_in pass pass_len flags bytes_out len _ henc
    have hsalt := store32_length E.big_endian hash
    refine ⟨key, out, hash, hin, hout, hh, ?_, hres⟩
    split <;> simp [hsalt, aes_enc_length]

/-- The size contract at a call with a 31-byte key, and at a successful call
into a 40-byte buffer filled with the byte 9: the record is followed by the
untouched last byte. -/
theorem raw_from_private_key_sizes_witness :
    bip38_raw_from_private_key toyEnv (some (List.replicate 31 0)) 31
        (some [116, 101, 115, 116]) 4 2048 (some (List.replicate 39 0)) 39
      = (toyEnv.WALLY_EINVAL, some (List.replicate 39 0)) ∧
    (bip38_raw_from_private_key toyEnv (some (List.replicate 31 0 ++ [1])) 32
        (some [116, 101, 115, 116]) 4 2048 (some (List.replicate 40 9)) 39).2
      = some ([1, 66, 192, 6, 233, 42, 233, 69, 117, 100, 101, 61, 38, 204, 88, 137,
          93, 100, 214, 166, 240, 74, 102, 182, 236, 36, 139, 209, 235, 71, 26, 233, 91, 147,
          135, 187, 107, 247, 219] ++ [9]) := by
  refine ⟨(raw_from_private_key_sizes toyEnv (some (List.replicate 31 0)) 31
      (some [116, 101, 115, 116]) 4 2048 (some (List.replicate 39 0)) 39).1
      (Or.inl (by decide)), ?_⟩
  obtain ⟨key, out, hash, hk, ho, hh, -, hres⟩ :=
    (raw_from_private_key_sizes toyEnv (some (List.replicate 31 0 ++ [1])) 32
      (some [116, 101, 115, 116]) 4 2048 (some (List.replicate 40 9)) 39).2 (by decide)
  cases hk
  cases ho
  have hv : from_private_key_hash toyEnv (List.replicate 31 0 ++ [1]) 32 2048
      = .ok 3911903494 := rfl
  rw [hv] at hh
  cases hh
  exact hres.trans (by decide)


/-! ## Atomicity of encrypt on the output buffer -/

/-- Overwriting the first 39 bytes of a buffer changes its contents exactly
when those bytes were not already the ones written. -/
theorem written_differs (w out : List Nat) (hw : w.length = 39) (res : Option (List Nat))
    (hres : res = some (w ++ out.drop 39)) :
    res ≠ some out ↔ out.take 39 ≠ w := by
  subst hres
  apply not_congr
  constructor
  · intro he
    have he2 : w ++ out.drop 39 = out := Option.some.inj he
    have := congrArg (List.take 39) he2
    rw [List.take_left' hw] at this
    exact this.symm
  · intro he
    rw [← he, List.take_append_drop]

/-- Claim C20, counterexample to "modified if the call returns success".
Encrypting the key 0x00..0x01 under "test" in raw mode into a zeroed buffer
succeeds and writes a record; encrypting the same key under the same
passphrase and options into a buffer that already holds that record succeeds
as well, and the buffer holds the same bytes as before the call. -/
theorem encrypt_success_same_bytes :
    bip38_raw_from_private_key toyEnv (some (List.replicate 31 0 ++ [1])) 32
        (some [116, 101, 115, 116]) 4 2048 (some (List.replicate 39 0)) 39
      = (WALLY_OK, some [1, 66, 192, 6, 233, 42, 233, 69, 117, 100, 101, 61, 38, 204, 88, 137,
          93, 100, 214, 166, 240, 74, 102, 182, 236, 36, 139, 209, 235, 71, 26, 233, 91, 147,
          135, 187, 107, 247, 219]) ∧
    bip38_raw_from_private_key toyEnv (some (List.replicate 31 0 ++ [1])) 32
        (some [116, 101, 115, 116]) 4 2048
        (some [1, 66, 192, 6, 233, 42, 233, 69, 117, 100, 101, 61, 38, 204, 88, 137,
          93, 100, 214, 166, 240, 74, 102, 182, 236, 36, 139, 209, 235, 71, 26, 233, 91, 147,
          135, 187, 107, 247, 219]) 39
      = (WALLY_OK, some [1, 66, 192, 6, 233, 42, 233, 69, 117, 100, 101, 61, 38, 204, 88, 137,
          93, 100, 214, 166, 240, 74, 102, 182, 236, 36, 139, 209, 235, 71, 26, 233, 91, 147,
          135, 187, 107, 247, 219]) := by
  decide

/-- Claim C20, as the code has it. For every call of
`bip38_raw_from_private_key`: on every call that does not return success (bad
sizes, absent buffers, address-derivation failure, scrypt failure) the output
bytes are exactly those before the call; and on every call that returns
success the first 39 bytes of the output buffer are the serialised record and
the bytes from offset 39 on are as before, so that the buffer's contents
differ from those before the call exactly when its first 39 bytes were not
already that record. -/
theorem encrypt_atomic (E : Env) (bytes_in : Option (List Nat)) (len_in : Nat)
    (pass : Option (List Nat)) (pass_len flags : Nat) (bytes_out : Option (List Nat))
    (len : Nat) :
    ((bip38_raw_from_private_key E bytes_in len_in pass pass_len flags bytes_out len).1
        ≠ WALLY_OK →
      (bip38_raw_from_private_key E bytes_in len_in pass pass_len flags bytes_out len).2
        = bytes_out) ∧
    ((bip38_raw_from_private_key E bytes_in len_in pass pass_len flags bytes_out len).1
        = WALLY_OK →
      ∃ key out hash, bytes_in = some key ∧ bytes_out = some out ∧
        from_private_key_hash E key 32 flags = .ok hash ∧
        let salt := store32 E.big_endian hash
        let D := (E.wally_scrypt pass pass_len salt 4 16384 8 8 64).2
        let c1 := aes_enc E key (peek D 0 16) (peek D 32 32)
        let c2 := aes_enc E (key.drop 16) (peek D 16 16) (peek D 32 32)
        let f := 192 ||| (if flags &&& E.BIP38_KEY_COMPRESSED ≠ 0 then 32 else 0)
        let written := if flags &&& E.BIP38_KEY_SWAP_ORDER ≠ 0
          then [1, 66, f] ++ c1 ++ c2 ++ salt else [1, 66, f] ++ salt ++ c1 ++ c2
        (bip38_raw_from_private_key E bytes_in len_in pass pass_len flags bytes_out len).2
          = some (written ++ out.drop 39) ∧
        ((bip38_raw_from_private_key E bytes_in len_in pass pass_len flags bytes_out len).2
          ≠ bytes_out ↔ out.take 39 ≠ written)) := by
  constructor
  · intro h
    cases bytes_in with
    | none => rfl
    | some key =>
      cases bytes_out with
      | none => rfl
      | some out =>
        simp only [bip38_raw_from_private_key] at h ⊢
        split
        · rfl
        · rename_i hlen
          rw [if_neg hlen] at h
          split
          · rfl
          · rename_i hash hh
            rw [hh] at h
            simp only [] at h
            split
            · rfl
            · rename_i hs
              rw [if_neg hs] at h
              exact absurd (not_not.mp hs) h
  · intro h
    have henc : bip38_raw_from_private_key E bytes_in len_in pass pass_len flags bytes_out len
        = (WALLY_OK,
          (bip38_raw_from_private_key E bytes_in len_in pass pass_len flags bytes_out len).2) :=
      Prod.ext h rfl
    obtain ⟨key, out, hash, hin, hout, -, -, hh, -, hres⟩ :=
      raw_from_private_key_ok E bytes_in len_in pass pass_len flags bytes_out len _ henc
    have hsalt := store32_length E.big_endian hash
    refine ⟨key, out, hash, hin, hout, hh, hres, ?_⟩
    rw [hout] at hres ⊢
    exact written_differs _ out (by split <;> simp [hsalt, aes_enc_length]) _ hres

/-- Encrypt with an all-zero key in address mode (address derivation fails)
and with a 1024-byte passphrase length (scrypt fails) leave a buffer of 9s as
it was; a successful call into a 40-byte buffer of 9s leaves the record
followed by the last 9, which differs from the old contents. -/
theorem encrypt_atomic_witness :
    (bip38_raw_from_private_key toyEnv (some (List.replicate 32 0)) 32
      (some [116, 101, 115, 116]) 4 0 (some (List.replicate 39 9)) 39).2
      = some (List.replicate 39 9) ∧
    (bip38_raw_from_private_key toyEnv (some (List.replicate 31 0 ++ [1])) 32
      (some [116, 101, 115, 116]) 1024 2048 (some (List.replicate 39 9)) 39).2
      = some (List.replicate 39 9) ∧
    (bip38_raw_from_private_key toyEnv (some (List.replicate 31 0 ++ [1])) 32
        (some [116, 101, 115, 116]) 4 2048 (some (List.replicate 40 9)) 39).2
      = some ([1, 66, 192, 6, 233, 42, 233, 69, 117, 100, 101, 61, 38, 204, 88, 137,
          93, 100, 214, 166, 240, 74, 102, 182, 236, 36, 139, 209, 235, 71, 26, 233, 91, 147,
          135, 187, 107, 247, 219] ++ [9]) ∧
    (bip38_raw_from_private_key toyEnv (some (List.replicate 31 0 ++ [1])) 32
        (some [116, 101, 115, 116]) 4 2048 (some (List.replicate 40 9)) 39).2
      ≠ some (List.replicate 40 9) := by
  refine ⟨(encrypt_atomic toyEnv (some (List.replicate 32 0)) 32 (some [116, 101, 115, 116]) 4 0
      (some (List.replicate 39 9)) 39).1 (by decide),
    (encrypt_atomic toyEnv (some (List.replicate 31 0 ++ [1])) 32 (some [116, 101, 115, 116])
      1024 2048 (some (List.replicate 39 9)) 39).1 (by decide), ?_⟩
  obtain ⟨key, out, hash, hk, ho, hh, hres, hiff⟩ :=
    (encrypt_atomic toyEnv (some (List.replicate 31 0 ++ [1])) 32
      (some [116, 101, 115, 116]) 4 2048 (some (List.replicate 40 9)) 39).2 (by decide)
  cases hk
  cases ho
  have hv : from_private_key_hash toyEnv (List.replicate 31 0 ++ [1]) 32 2048
      = .ok 3911903494 := rfl
  rw [hv] at hh
  cases hh
  exact ⟨hres.trans (by decide), hiff.mpr (by decide)⟩


/-! ## Wrong passphrase -/

end Bip38
